import Mathlib

/-!
# jobfind: asynchronous resume pipeline

A shallow embedding of the Go sources of the pipeline (Kafka consumer, parse and
evaluate workers, job repository, WebSocket hub) together with the properties the
specification states about them.

Conventions of the embedding:
* a Go `error` is its text, `nil` is `none`;
* `[]byte` payloads that carry JSON are `String`; raw file bytes are `List Nat`;
* collaborators outside the repository (broker, MongoDB driver, HTTP services, JSON
  codec) are inputs of the functions that call them: each call takes the outcome the
  collaborator produced, and every call is recorded in a trace;
* logging is not modelled.
-/

deriving instance DecidableEq for Except

namespace JobFind

/-! ## pkg/kafkax/consumer.go -/

/-- The kafka.Message fields the consumer reads. -/
structure Message where
  Topic : String
  Partition : Int
  Offset : Int
  Key : String
  Value : String
deriving DecidableEq, Repr

/-- Outcome of one reader.FetchMessage call. -/
inductive FetchResult where
  | message (m : Message)
  | canceled
  | failed (err : String)
deriving DecidableEq, Repr

/-- What the environment presents to one iteration of the worker loop: whether the
consumer context is already done at the select, what FetchMessage returns, and what
CommitMessages returns. -/
structure Step where
  done : Bool
  fetch : FetchResult
  commitErr : Option String
deriving DecidableEq, Repr

/-- Calls the worker makes on its collaborators. -/
inductive ConsumerEvent where
  | handle (m : Message)
  | commit (m : Message)
deriving DecidableEq, Repr

/-- Consumer.worker: the loop of consumer.go lines 123-170, run against a finite script of
loop iterations. The handler acts on a state of type σ and returns its error. When the
script is exhausted the worker is blocked in FetchMessage. -/
def worker {σ : Type} (handler : σ → Message → Option String × σ) :
    σ → List Step → List ConsumerEvent × σ
  | s, [] => ([], s)
  | s, st :: rest =>
    if st.done then ([], s)
    else
      match st.fetch with
      | .canceled => ([], s)
      | .failed _ => worker handler s rest
      | .message msg =>
        let r := handler s msg
        -- the handler error is only logged; the commit follows in both cases,
        -- and the commit error is only logged as well
        let out := worker handler r.2 rest
        (ConsumerEvent.handle msg :: ConsumerEvent.commit msg :: out.1, out.2)

/-- The messages FetchMessage hands to the worker before it stops. -/
def fetched : List Step → List Message
  | [] => []
  | st :: rest =>
    if st.done then []
    else
      match st.fetch with
      | .canceled => []
      | .failed _ => fetched rest
      | .message msg => msg :: fetched rest

/-! ## bson/primitive ObjectID, clocks and numbers -/

/-- Lower-case hexadecimal digit of a nibble, as encoding/hex writes it. -/
def hexDigit (n : Fin 16) : Char :=
  "0123456789abcdef".data.getD n.val '0'

/-- Characters encoding/hex accepts when decoding: digits and a-f in either case. -/
def isHexChar (c : Char) : Bool :=
  ('0' ≤ c ∧ c ≤ '9') || ('a' ≤ c ∧ c ≤ 'f') || ('A' ≤ c ∧ c ≤ 'F')

/-- Value of a hexadecimal character (0 for any other character). -/
def hexVal (c : Char) : Fin 16 :=
  if '0' ≤ c ∧ c ≤ '9' then Fin.ofNat (c.toNat - '0'.toNat)
  else if 'a' ≤ c ∧ c ≤ 'f' then Fin.ofNat (c.toNat - 'a'.toNat + 10)
  else if 'A' ≤ c ∧ c ≤ 'F' then Fin.ofNat (c.toNat - 'A'.toNat + 10)
  else 0

/-- A primitive.ObjectID: twelve bytes, kept as their twenty-four nibbles. -/
structure ObjectID where
  nibbles : List (Fin 16)
  len : nibbles.length = 24
deriving DecidableEq

/-- The zero value primitive.NilObjectID. -/
def NilObjectID : ObjectID := ⟨List.replicate 24 0, by simp⟩

/-- ObjectID.Hex: the 24-character lower-case hexadecimal rendering. -/
def ObjectID.Hex (id : ObjectID) : String := String.mk (id.nibbles.map hexDigit)

/-- Text of primitive.ErrInvalidHex. -/
def ErrInvalidHex : String := "the provided hex string is not a valid ObjectID"

/-- The bytes of the UTF-8 encoding of a character. -/
def utf8Bytes (c : Char) : List Nat :=
  if c.toNat < 0x80 then [c.toNat]
  else if c.toNat < 0x800 then [0xC0 + c.toNat / 0x40, 0x80 + c.toNat % 0x40]
  else if c.toNat < 0x10000 then
    [0xE0 + c.toNat / 0x1000, 0x80 + c.toNat / 0x40 % 0x40, 0x80 + c.toNat % 0x40]
  else
    [0xF0 + c.toNat / 0x40000, 0x80 + c.toNat / 0x1000 % 0x40, 0x80 + c.toNat / 0x40 % 0x40,
      0x80 + c.toNat % 0x40]

/-- Bytes encoding/hex accepts when decoding: the digits and a-f in either case. -/
def isHexByte (b : Nat) : Bool :=
  (0x30 ≤ b ∧ b ≤ 0x39) || (0x61 ≤ b ∧ b ≤ 0x66) || (0x41 ≤ b ∧ b ≤ 0x46)

/-- The function strconv.IsPrint on a rune below 0x100. -/
def isPrintLatin1 (r : Nat) : Bool :=
  (0x20 ≤ r ∧ r ≤ 0x7E) || (0xA1 ≤ r ∧ r ≤ 0xFF ∧ r ≠ 0xAD)

/-- Upper-case hexadecimal digit of a number below 16. -/
def upperHexDigit (n : Nat) : Char :=
  "0123456789ABCDEF".data.getD n '0'

/-- Text of hex.InvalidByteError(b): the format "encoding/hex: invalid byte: %#U" applied to
the byte as a rune, which writes U+ and four hexadecimal digits, followed by the quoted
character when it is printable. -/
def InvalidByteError (b : Nat) : String :=
  "encoding/hex: invalid byte: U+00"
    ++ String.mk [upperHexDigit (b / 16), upperHexDigit (b % 16)]
    ++ (if isPrintLatin1 b then String.mk [' ', Char.ofNat 39, Char.ofNat b, Char.ofNat 39]
        else "")

/-- The function primitive.ObjectIDFromHex: a string of 24 hexadecimal characters gives the
ObjectID; a string that is not 24 bytes long gives ErrInvalidHex; a string of 24 bytes that
hex.Decode refuses gives the error of hex.Decode, which names the first byte that is no
hexadecimal digit. The last case of the match never arises: 24 bytes that are all
hexadecimal digits are 24 hexadecimal characters. -/
def ObjectIDFromHex (s : String) : Except String ObjectID :=
  if h : s.data.length = 24 ∧ s.data.all isHexChar = true then
    .ok ⟨s.data.map hexVal, by simp [h.1]⟩
  else if (s.data.flatMap utf8Bytes).length ≠ 24 then .error ErrInvalidHex
  else
    match (s.data.flatMap utf8Bytes).find? fun b => !isHexByte b with
    | some b => .error (InvalidByteError b)
    | none => .error ErrInvalidHex

/-- A time.Time value, as a count of clock units. -/
abbrev Time := Nat

/-- A float64 that the modelled code only copies, never computes with: the rational it
denotes. -/
abbrev Float64 := Rat

/-! ## internal/server/upload.go: parser response types -/

/-- The struct server.Education. -/
structure Education where
  Degree : String
  Institution : String
  GraduationYear : Int
  Description : String
  GPA : Float64
deriving DecidableEq

/-- The struct server.Experience. -/
structure Experience where
  Title : String
  Company : String
  Duration : String
  Description : String
  Responsibilities : List String
  Achievements : List String
deriving DecidableEq

/-- The struct server.Project. -/
structure Project where
  Name : String
  Description : String
  Technologies : List String
  Url : String
  Duration : String
  Role : String
  Achievements : List String
deriving DecidableEq

/-- The struct server.CVData. -/
structure CVData where
  Name : String
  Email : String
  Phone : String
  Summary : String
  Skills : List String
  Education : List Education
  Experience : List Experience
  Projects : List Project
  Certifications : List String
  Languages : List String
  Achievements : List String
deriving DecidableEq

/-- The struct server.ParserResponse. -/
structure ParserResponse where
  Success : Bool
  CVData : CVData
  Message : String
deriving DecidableEq

/-! ## internal/data/resume.go: stored documents -/

namespace Data

/-- The struct data.Education. -/
structure Education where
  Degree : String
  Institution : String
  GraduationYear : String
  Description : String
deriving DecidableEq

/-- The struct data.Experience. -/
structure Experience where
  Title : String
  Company : String
  Duration : String
  Description : String
  Responsibilities : List String
  Achievements : List String
deriving DecidableEq

/-- The struct data.Project. -/
structure Project where
  Name : String
  Description : String
  Technologies : List String
  Url : String
  Duration : String
  Role : String
  Achievements : List String
deriving DecidableEq

/-- The struct data.ResumeScoreBreakdown. -/
structure ResumeScoreBreakdown where
  SkillsScore : Float64
  ExperienceScore : Float64
  EducationScore : Float64
  CompletenessScore : Float64
  JobAlignmentScore : Float64
  PresentationScore : Float64
deriving DecidableEq

/-- The struct data.ResumeCVEdit. -/
structure ResumeCVEdit where
  ID : String
  FieldPath : String
  Action : String
  CurrentValue : String
  SuggestedValue : String
  Reason : String
  Priority : String
  ImpactScore : Float64
  Status : String
deriving DecidableEq

/-- The struct data.ResumeEvaluation. -/
structure ResumeEvaluation where
  CVName : String
  OverallScore : Float64
  Grade : String
  ScoreBreakdown : ResumeScoreBreakdown
  Strengths : List String
  Weaknesses : List String
  Recommendations : List String
  CVEdits : List ResumeCVEdit
  JobsAnalyzed : Int
  EvaluatedAt : Time
deriving DecidableEq

/-- The struct data.ResumeDetail. -/
structure ResumeDetail where
  Name : String
  Email : String
  Phone : String
  Summary : String
  Skills : List String
  Education : List Education
  Experience : List Experience
  Projects : List Project
  Certifications : List String
  Languages : List String
  Achievements : List String
  Evaluations : List ResumeEvaluation
deriving DecidableEq

/-- The struct data.Resume. -/
structure Resume where
  ID : ObjectID
  ResumeDetail : ResumeDetail
  Version : Int
  CreatedAt : Time
deriving DecidableEq

/-- The struct data.User, with the fields the pipeline reads or writes: the id, the resume
array and updated_at. The profile fields (name, e-mail, password hash, role, ...) are never
touched by the modelled code and are left out. -/
structure User where
  ID : ObjectID
  Resume : List Resume
  UpdatedAt : Time
deriving DecidableEq

end Data

/-! ## internal/biz: domain types -/

namespace Biz

/-- The struct biz.Education. -/
structure Education where
  Degree : String
  Institution : String
  GraduationYear : String
  Description : String
deriving DecidableEq

/-- The struct biz.Experience. -/
structure Experience where
  Title : String
  Company : String
  Duration : String
  Description : String
  Responsibilities : List String
  Achievements : List String
deriving DecidableEq

/-- The struct biz.Project. -/
structure Project where
  Name : String
  Description : String
  Technologies : List String
  Url : String
  Duration : String
  Role : String
  Achievements : List String
deriving DecidableEq

/-- The struct biz.ResumeScoreBreakdown. -/
structure ResumeScoreBreakdown where
  SkillsScore : Float64
  ExperienceScore : Float64
  EducationScore : Float64
  CompletenessScore : Float64
  JobAlignmentScore : Float64
  PresentationScore : Float64
deriving DecidableEq

/-- The struct biz.ResumeCVEdit. -/
structure ResumeCVEdit where
  ID : String
  FieldPath : String
  Action : String
  CurrentValue : String
  SuggestedValue : String
  Reason : String
  Priority : String
  ImpactScore : Float64
  Status : String
deriving DecidableEq

/-- The struct biz.ResumeEvaluation; the ScoreBreakdown pointer is an Option. -/
structure ResumeEvaluation where
  CVName : String
  OverallScore : Float64
  Grade : String
  ScoreBreakdown : Option ResumeScoreBreakdown
  Strengths : List String
  Weaknesses : List String
  Recommendations : List String
  CVEdits : List ResumeCVEdit
  JobsAnalyzed : Int
  EvaluatedAt : Time
deriving DecidableEq

/-- The struct biz.ResumeDetail. Slices of pointers are lists of the pointed-to values. -/
structure ResumeDetail where
  Name : String
  Email : String
  Phone : String
  Summary : String
  Skills : List String
  Education : List Education
  Experience : List Experience
  Projects : List Project
  Certifications : List String
  Languages : List String
  Achievements : List String
  Evaluations : List ResumeEvaluation
deriving DecidableEq

/-- The struct biz.Resume; the ResumeDetail pointer is an Option. -/
structure Resume where
  ID : String
  UserID : String
  ResumeDetail : Option ResumeDetail
  Version : Int
  CreatedAt : Time
deriving DecidableEq

/-- The struct biz.Notification. -/
structure Notification where
  ID : String
  UserID : String
  Title : String
  Content : String
  Type_ : String
  ObjectID : String
  IsRead : Bool
  CreatedAt : Time
deriving DecidableEq

/-- The constant biz.NotificationTypeHR. -/
def NotificationTypeHR : String := "hr"

/-- The constant biz.NotificationTypeEvaluate. -/
def NotificationTypeEvaluate : String := "evaluate"

/-- The struct biz.ScoreBreakdown of the evaluate service response. -/
structure ScoreBreakdown where
  SkillsScore : Float64
  ExperienceScore : Float64
  EducationScore : Float64
  CompletenessScore : Float64
  JobAlignmentScore : Float64
  PresentationScore : Float64
deriving DecidableEq

/-- The struct biz.CVEdit of the evaluate service response. -/
structure CVEdit where
  FieldPath : String
  Action : String
  CurrentValue : String
  SuggestedValue : String
  Reason : String
  Priority : String
  ImpactScore : Float64
deriving DecidableEq

/-- The struct biz.EvaluateResponse. -/
structure EvaluateResponse where
  Success : Bool
  CVName : String
  OverallScore : Float64
  Grade : String
  ScoreBreakdown : Option ScoreBreakdown
  Strengths : List String
  Weaknesses : List String
  Recommendations : List String
  CVEdits : List CVEdit
  JobsAnalyzed : Int
  Deterministic : Bool
  Error : String
deriving DecidableEq

end Biz

/-! ## internal/server/websocket.go: wire types -/

/-- The string type server.WSMessageType. -/
abbrev WSMessageType := String

/-- The constant WSMessageTypeJobStatus. -/
def WSMessageTypeJobStatus : WSMessageType := "job_status"
/-- The constant WSMessageTypeError. -/
def WSMessageTypeError : WSMessageType := "error"
/-- The constant WSMessageTypePing. -/
def WSMessageTypePing : WSMessageType := "ping"
/-- The constant WSMessageTypePong. -/
def WSMessageTypePong : WSMessageType := "pong"
/-- The constant WSMessageTypeNotification. -/
def WSMessageTypeNotification : WSMessageType := "notification"

/-- The struct server.JobStatusPayload; CVData is an interface value, nil when absent. -/
structure JobStatusPayload where
  JobID : String
  Status : String
  ErrorMessage : String
  ResumeID : String
  CVData : Option CVData
deriving DecidableEq

/-- The struct server.NotificationPayload. -/
structure NotificationPayload where
  ID : String
  Title : String
  Content : String
  Type_ : String
  ObjectID : String
  CreatedAt : String
deriving DecidableEq

/-- The values the repository stores in WSMessage.Payload (an interface). -/
inductive WSPayload where
  | none
  | jobStatus (p : JobStatusPayload)
  | notice (p : NotificationPayload)
deriving DecidableEq

/-- The struct server.WSMessage. -/
structure WSMessage where
  Type_ : WSMessageType
  Payload : WSPayload
deriving DecidableEq

/-! ## internal/data/resume_job.go: the job record -/

/-- The type data.ResumeParseStatus with its four constants. -/
inductive ResumeParseStatus where
  | Pending
  | Processing
  | Completed
  | Failed
deriving DecidableEq, Repr

/-- The string value of a status constant. -/
def ResumeParseStatus.toString : ResumeParseStatus → String
  | .Pending => "pending"
  | .Processing => "processing"
  | .Completed => "completed"
  | .Failed => "failed"

/-- The struct data.ResumeParseJob. FileData nil is the empty list. -/
structure ResumeParseJob where
  ID : ObjectID
  UserID : ObjectID
  FileName : String
  FileData : List Nat
  Status : ResumeParseStatus
  ErrorMessage : String
  ResumeID : ObjectID
  CreatedAt : Time
  UpdatedAt : Time
deriving DecidableEq

/-- The struct server.ResumeParseMessage. -/
structure ResumeParseMessage where
  JobID : String
  UserID : String
  FileName : String
deriving DecidableEq

/-- The struct server.EvaluateMessage. -/
structure EvaluateMessage where
  ResumeID : String
  UserID : String
deriving DecidableEq

/-- The values the repository passes as the value of Producer.SendMessage: the upload
message struct, or a map from field names to strings. -/
inductive SendValue where
  | parseMessage (m : ResumeParseMessage)
  | object (fields : List (String × String))
deriving DecidableEq

/-- A message written to the broker (kafka.Message as the producer fills it). -/
structure WrittenMessage where
  Topic : String
  Key : String
  Value : String
deriving DecidableEq

/-! ## Collaborator calls, environment and state -/

/-- Calls on collaborators, with their arguments, in the order they are made. -/
inductive Call where
  | JobCreate (job : ResumeParseJob)
  | JobGetByID (id : String)
  | JobUpdateStatus (id : String) (status : ResumeParseStatus) (errorMsg resumeID : String)
  | JobClearFileData (id : String)
  | UserFindOne (id : ObjectID)
  | UserPushResume (id : ObjectID) (resume : Data.Resume)
  | ParserService (fileData : List Nat) (fileName : String)
  | SendMessage (topic key : String) (value : SendValue)
  | WriteMessages (m : WrittenMessage)
  | HubSendJobStatus (userID : String) (payload : JobStatusPayload)
  | HubSendNotification (userID : String) (payload : NotificationPayload)
  | RepoGetResume (id : String)
  | EvaluateResume (userID : String) (detail : Option Biz.ResumeDetail)
  | RepoUpdateResume (resume : Biz.Resume)
  | RepoCreateNotification (n : Biz.Notification)
deriving DecidableEq

/-- What happened in the HTTP exchange of sendToParserService, in source order: the
failure of one of the library calls, a non-200 answer with its body, a body that does not
decode, or a decoded ParserResponse. -/
inductive ParserOutcome where
  | createFormFileErr (e : String)
  | copyErr (e : String)
  | closeErr (e : String)
  | newRequestErr (e : String)
  | doErr (e : String)
  | badStatus (body : String)
  | decodeErr (e : String)
  | decoded (r : ParserResponse)
deriving DecidableEq

/-- The outcomes of everything outside the repository that one run depends on. -/
structure Env where
  /-- reading of the k-th time.Now() -/
  clock : Nat → Time
  /-- result of the k-th primitive.NewObjectID() -/
  newObjectID : Nat → ObjectID
  /-- error the MongoDB driver ends the call with, if any -/
  dbErr : Call → Option String
  /-- json.Unmarshal of a message value into ResumeParseMessage -/
  unmarshalParse : String → Except String ResumeParseMessage
  /-- json.Unmarshal of a message value into EvaluateMessage -/
  unmarshalEvaluate : String → Except String EvaluateMessage
  /-- the HTTP exchange with the parse service -/
  parser : List Nat → String → ParserOutcome
  /-- json.Marshal of a value handed to the producer -/
  marshal : SendValue → Except String String
  /-- error of kafka.Writer.WriteMessages, if any -/
  writeErr : WrittenMessage → Option String
  /-- auth.ValidateAccessToken: an error, nil claims, or the UserID of the claims -/
  validateAccessToken : String → Except String (Option String)
  /-- ResumeRepo.GetResume behind the interface: an error, nil, or a resume -/
  getResume : String → Except String (Option Biz.Resume)
  /-- whether the use case holds a parser client (the pointer is not nil) -/
  parserClientAvailable : Bool
  /-- ParserClient.EvaluateResume: the call on the evaluate service -/
  evaluateResume : String → Option Biz.ResumeDetail → Except String Biz.EvaluateResponse
  /-- ResumeRepo.UpdateResume behind the interface: an error, nil, or a resume -/
  updateResume : Biz.Resume → Except String (Option Biz.Resume)
  /-- NotificationRepo.CreateNotification behind the interface -/
  createNotification : Biz.Notification → Except String Biz.Notification
  /-- Time.Unix: seconds since the epoch -/
  unix : Time → Int
  /-- Time.Format with the layout time.RFC3339 -/
  formatRFC3339 : Time → String

/-- State of the stores and the broker, the trace of collaborator calls, and how many
clock readings and fresh ids have been drawn. -/
structure World where
  jobs : List ResumeParseJob
  users : List Data.User
  broker : List WrittenMessage
  trace : List Call
  ticks : Nat
  ids : Nat
deriving DecidableEq

/-- Append a call to the trace. -/
def record (c : Call) (w : World) : World :=
  { w with trace := w.trace ++ [c] }

/-- The call time.Now(). -/
def timeNow (env : Env) (w : World) : Time × World :=
  (env.clock w.ticks, { w with ticks := w.ticks + 1 })

/-- The call primitive.NewObjectID(). -/
def NewObjectID (env : Env) (w : World) : ObjectID × World :=
  (env.newObjectID w.ids, { w with ids := w.ids + 1 })

/-- UpdateOne on a collection: the first document matching the filter is updated; no match
is not an error. -/
def updateOne {α : Type} (p : α → Bool) (f : α → α) : List α → List α
  | [] => []
  | x :: xs => if p x then f x :: xs else x :: updateOne p f xs

/-! ## internal/data/resume_job.go: ResumeParseJobRepo -/

/-- ResumeParseJobRepo.Create: fresh id, two clock readings, InsertOne. -/
def ResumeParseJobRepo.Create (env : Env) (w : World) (job : ResumeParseJob) :
    Except String ResumeParseJob × World :=
  let (id, w) := NewObjectID env w
  let (t1, w) := timeNow env w
  let (t2, w) := timeNow env w
  let job := { job with ID := id, CreatedAt := t1, UpdatedAt := t2 }
  let w := record (.JobCreate job) w
  match env.dbErr (.JobCreate job) with
  | some e => (.error e, w)
  | none => (.ok job, { w with jobs := w.jobs ++ [job] })

/-- ResumeParseJobRepo.GetByID: (nil, err) on a bad id or a driver error, (nil, nil) when no
document matches, the job otherwise. -/
def ResumeParseJobRepo.GetByID (env : Env) (w : World) (id : String) :
    Except String (Option ResumeParseJob) × World :=
  let w := record (.JobGetByID id) w
  match ObjectIDFromHex id with
  | .error e => (.error e, w)
  | .ok objID =>
    match env.dbErr (.JobGetByID id) with
    | some e => (.error e, w)
    | none => (.ok (w.jobs.find? (fun j => j.ID == objID)), w)

/-- The update document UpdateStatus builds, applied to a stored job: status and updated_at
always, error_message when errorMsg is not empty, resume_id when resumeID is a valid id. -/
def statusUpdate (status : ResumeParseStatus) (t : Time) (errorMsg resumeID : String)
    (j : ResumeParseJob) : ResumeParseJob :=
  let j := { j with Status := status, UpdatedAt := t }
  let j := if errorMsg ≠ "" then { j with ErrorMessage := errorMsg } else j
  if resumeID ≠ "" then
    match ObjectIDFromHex resumeID with
    | .ok resumeObjID => { j with ResumeID := resumeObjID }
    | .error _ => j
  else j

/-- ResumeParseJobRepo.UpdateStatus. -/
def ResumeParseJobRepo.UpdateStatus (env : Env) (w : World) (id : String)
    (status : ResumeParseStatus) (errorMsg resumeID : String) : Option String × World :=
  let w := record (.JobUpdateStatus id status errorMsg resumeID) w
  match ObjectIDFromHex id with
  | .error e => (some e, w)
  | .ok objID =>
    let (t, w) := timeNow env w
    match env.dbErr (.JobUpdateStatus id status errorMsg resumeID) with
    | some e => (some e, w)
    | none =>
      (none, { w with jobs := updateOne (fun j => j.ID == objID)
                                (statusUpdate status t errorMsg resumeID) w.jobs })

/-- The update document ClearFileData builds, applied to a stored job: file_data set to nil
and updated_at refreshed. -/
def clearUpdate (t : Time) (j : ResumeParseJob) : ResumeParseJob :=
  { j with FileData := [], UpdatedAt := t }

/-- ResumeParseJobRepo.ClearFileData. -/
def ResumeParseJobRepo.ClearFileData (env : Env) (w : World) (id : String) :
    Option String × World :=
  let w := record (.JobClearFileData id) w
  match ObjectIDFromHex id with
  | .error e => (some e, w)
  | .ok objID =>
    let (t, w) := timeNow env w
    match env.dbErr (.JobClearFileData id) with
    | some e => (some e, w)
    | none =>
      (none, { w with jobs := updateOne (fun j => j.ID == objID) (clearUpdate t) w.jobs })

/-! ## pkg/kafkax/producer.go -/

/-- Producer.SendMessage: marshal the value, then one WriteMessages. -/
def Producer.SendMessage (env : Env) (w : World) (topic key : String) (value : SendValue) :
    Option String × World :=
  let w := record (.SendMessage topic key value) w
  match env.marshal value with
  | .error e => (some ("failed to marshal message: " ++ e), w)
  | .ok valueBytes =>
    let msg : WrittenMessage := { Topic := topic, Key := key, Value := valueBytes }
    let w := record (.WriteMessages msg) w
    match env.writeErr msg with
    | some e => (some ("failed to send message: " ++ e), w)
    | none => (none, { w with broker := w.broker ++ [msg] })

/-! ## internal/server/resume_worker.go -/

/-- ResumeWorker.sendToParserService: the error texts and the result of the exchange. -/
def ResumeWorker.sendToParserService : ParserOutcome → Except String ParserResponse
  | .createFormFileErr e => .error ("failed to create form file: " ++ e)
  | .copyErr e => .error ("failed to copy file data: " ++ e)
  | .closeErr e => .error ("failed to close writer: " ++ e)
  | .newRequestErr e => .error ("failed to create request: " ++ e)
  | .doErr e => .error ("failed to send request: " ++ e)
  | .badStatus body => .error ("parser service error: " ++ body)
  | .decodeErr e => .error ("failed to decode response: " ++ e)
  | .decoded result =>
    if !result.Success then .error ("parser failed: " ++ result.Message) else .ok result

/-- Decimal rendering of an int by fmt.Sprintf with the verb d. -/
def sprintfD (n : Int) : String := toString n

/-- ResumeWorker.convertToDataResume. -/
def ResumeWorker.convertToDataResume (env : Env) (w : World) (parserResp : ParserResponse) :
    Data.Resume × World :=
  let cvData := parserResp.CVData
  let educationList : List Data.Education := cvData.Education.map fun edu =>
    { Degree := edu.Degree, Institution := edu.Institution,
      GraduationYear := sprintfD edu.GraduationYear, Description := edu.Description }
  let experienceList : List Data.Experience := cvData.Experience.map fun exp =>
    { Title := exp.Title, Company := exp.Company, Duration := exp.Duration,
      Description := exp.Description, Responsibilities := exp.Responsibilities,
      Achievements := exp.Achievements }
  let projectList : List Data.Project := cvData.Projects.map fun proj =>
    { Name := proj.Name, Description := proj.Description, Technologies := proj.Technologies,
      Url := proj.Url, Duration := proj.Duration, Role := proj.Role,
      Achievements := proj.Achievements }
  let resumeDetail : Data.ResumeDetail :=
    { Name := cvData.Name, Email := cvData.Email, Phone := cvData.Phone,
      Summary := cvData.Summary, Skills := cvData.Skills, Education := educationList,
      Experience := experienceList, Projects := projectList,
      Certifications := cvData.Certifications, Languages := cvData.Languages,
      Achievements := cvData.Achievements, Evaluations := [] }
  let (id, w) := NewObjectID env w
  let (t, w) := timeNow env w
  ({ ID := id, ResumeDetail := resumeDetail, Version := 1, CreatedAt := t }, w)

/-- ResumeWorker.saveResumeToUser: the user must exist; the resume is pushed onto the
user's resume array and its id is returned in hexadecimal. -/
def ResumeWorker.saveResumeToUser (env : Env) (w : World) (userID : String)
    (resume : Data.Resume) : Except String String × World :=
  match ObjectIDFromHex userID with
  | .error e => (.error ("invalid user ID: " ++ e), w)
  | .ok userObjID =>
    let w := record (.UserFindOne userObjID) w
    match env.dbErr (.UserFindOne userObjID) with
    | some e => (.error ("failed to find user: " ++ e), w)
    | none =>
      match w.users.find? (fun u => u.ID == userObjID) with
      | none => (.error "user not found", w)
      | some _ =>
        let (t, w) := timeNow env w
        let w := record (.UserPushResume userObjID resume) w
        match env.dbErr (.UserPushResume userObjID resume) with
        | some e => (.error ("failed to save resume: " ++ e), w)
        | none =>
          let users := updateOne (fun u => u.ID == userObjID)
            (fun u => { u with Resume := u.Resume ++ [resume], UpdatedAt := t }) w.users
          (.ok resume.ID.Hex, { w with users := users })

/-- ResumeWorker.handleJobFailure. -/
def ResumeWorker.handleJobFailure (env : Env) (w : World) (jobID userID errorMsg : String) :
    World :=
  let (_, w) := ResumeParseJobRepo.UpdateStatus env w jobID .Failed errorMsg ""
  let (_, w) := ResumeParseJobRepo.ClearFileData env w jobID
  record (.HubSendJobStatus userID
    { JobID := jobID, Status := ResumeParseStatus.Failed.toString, ErrorMessage := errorMsg,
      ResumeID := "", CVData := none }) w

/-- ResumeWorker.handleMessage: the handler of the upload queue. Returns the error handed
back to the consumer. -/
def ResumeWorker.handleMessage (env : Env) (w : World) (msg : Message) :
    Option String × World :=
  match env.unmarshalParse msg.Value with
  | .error e => (some e, w)
  | .ok parseMsg =>
    let (_, w) := ResumeParseJobRepo.UpdateStatus env w parseMsg.JobID .Processing "" ""
    let w := record (.HubSendJobStatus parseMsg.UserID
      { JobID := parseMsg.JobID, Status := ResumeParseStatus.Processing.toString,
        ErrorMessage := "", ResumeID := "", CVData := none }) w
    let (got, w) := ResumeParseJobRepo.GetByID env w parseMsg.JobID
    match got with
    | .error e =>
      (some e, ResumeWorker.handleJobFailure env w parseMsg.JobID parseMsg.UserID "Job not found")
    | .ok none =>
      (none, ResumeWorker.handleJobFailure env w parseMsg.JobID parseMsg.UserID "Job not found")
    | .ok (some job) =>
      let w := record (.ParserService job.FileData job.FileName) w
      match ResumeWorker.sendToParserService (env.parser job.FileData job.FileName) with
      | .error e =>
        (some e, ResumeWorker.handleJobFailure env w parseMsg.JobID parseMsg.UserID e)
      | .ok parserResp =>
        let (resume, w) := ResumeWorker.convertToDataResume env w parserResp
        let (saved, w) := ResumeWorker.saveResumeToUser env w parseMsg.UserID resume
        match saved with
        | .error e =>
          (some e, ResumeWorker.handleJobFailure env w parseMsg.JobID parseMsg.UserID e)
        | .ok resumeID =>
          let (_, w) := ResumeParseJobRepo.UpdateStatus env w parseMsg.JobID .Completed "" resumeID
          let (_, w) := ResumeParseJobRepo.ClearFileData env w parseMsg.JobID
          let (_, w) := Producer.SendMessage env w "evaluate" resumeID
            (.object [("resume_id", resumeID), ("user_id", parseMsg.UserID)])
          let w := record (.HubSendJobStatus parseMsg.UserID
            { JobID := parseMsg.JobID, Status := ResumeParseStatus.Completed.toString,
              ErrorMessage := "", ResumeID := resumeID, CVData := some parserResp.CVData }) w
          (none, w)

/-! ## internal/server/upload.go: the ingestion handler -/

/-- The file part of the multipart form: its header and the result of io.ReadAll. -/
structure FilePart where
  Filename : String
  ContentType : String
  read : Except String (List Nat)
deriving DecidableEq

/-- What the upload handler reads from the request: the Authorization header, the result
of ParseMultipartForm and the result of FormFile for the field file. -/
structure UploadRequest where
  Authorization : String
  multipartErr : Option String
  formFile : Except String FilePart
deriving DecidableEq

/-- The JSON body of the accepted response. -/
structure AcceptedBody where
  success : Bool
  message : String
  job_id : String
  status : String
deriving DecidableEq

/-- An HTTP answer: http.Error with a text and a code, or the 202 JSON answer. -/
inductive Response where
  | error (text : String) (code : Nat)
  | accepted (code : Nat) (body : AcceptedBody)
deriving DecidableEq

/-- The function extractToken: the text after the scheme Bearer and one blank, the empty
string otherwise. Go compares bytes; for the ASCII scheme this agrees with comparing
characters. -/
def extractToken (authHeader : String) : String :=
  if authHeader = "" then ""
  else
    let pre := "Bearer "
    if authHeader.data.length > pre.data.length
        ∧ authHeader.data.take pre.data.length = pre.data then
      String.mk (authHeader.data.drop pre.data.length)
    else ""

/-- UploadHandler.HandleUploadResumeAsync, for a handler configured with the given topic. -/
def UploadHandler.HandleUploadResumeAsync (env : Env) (topic : String) (w : World)
    (r : UploadRequest) : Response × World :=
  let token := extractToken r.Authorization
  if token = "" then (.error "Unauthorized: token required" 401, w)
  else
    match env.validateAccessToken token with
    | .error _ => (.error "Unauthorized: invalid token" 401, w)
    | .ok none => (.error "Unauthorized: invalid token" 401, w)
    | .ok (some userID) =>
      match r.multipartErr with
      | some _ => (.error "Failed to parse form" 400, w)
      | none =>
        match r.formFile with
        | .error _ => (.error "Failed to get file" 400, w)
        | .ok header =>
          if header.ContentType ≠ "application/pdf" then
            (.error "Only PDF files are allowed" 400, w)
          else
            match ObjectIDFromHex userID with
            | .error _ => (.error "Invalid user ID" 400, w)
            | .ok userObjID =>
              let w := record (.UserFindOne userObjID) w
              match env.dbErr (.UserFindOne userObjID) with
              | some _ => (.error "Failed to find user" 500, w)
              | none =>
                match w.users.find? (fun u => u.ID == userObjID) with
                | none => (.error "User not found" 404, w)
                | some _ =>
                  match header.read with
                  | .error _ => (.error "Failed to read file" 500, w)
                  | .ok fileData =>
                    let job : ResumeParseJob :=
                      { ID := NilObjectID, UserID := userObjID, FileName := header.Filename,
                        FileData := fileData, Status := .Pending, ErrorMessage := "",
                        ResumeID := NilObjectID, CreatedAt := 0, UpdatedAt := 0 }
                    let (created, w) := ResumeParseJobRepo.Create env w job
                    match created with
                    | .error _ => (.error "Failed to create parse job" 500, w)
                    | .ok createdJob =>
                      let kafkaMsg : ResumeParseMessage :=
                        { JobID := createdJob.ID.Hex, UserID := userID,
                          FileName := header.Filename }
                      let (sent, w) := Producer.SendMessage env w topic createdJob.ID.Hex
                        (.parseMessage kafkaMsg)
                      match sent with
                      | some _ =>
                        let (_, w) := ResumeParseJobRepo.UpdateStatus env w createdJob.ID.Hex
                          .Failed "Failed to queue job" ""
                        (.error "Failed to queue resume parsing job" 500, w)
                      | none =>
                        (.accepted 202
                          { success := true,
                            message := "Resume upload accepted. Processing will be done asynchronously.",
                            job_id := createdJob.ID.Hex,
                            status := ResumeParseStatus.Pending.toString }, w)

/-! ## internal/server/websocket.go: the Hub -/

/-- A server.Client as the Hub sees it: id stands for the pointer the registry is keyed by,
userID is the field of the same name. The send channel lives in the Hub state. -/
structure Client where
  id : Nat
  userID : String
deriving DecidableEq

/-- A buffered channel of serialized events: its queue, its capacity and whether it has
been closed. -/
structure Chan where
  buf : List String
  cap : Nat
  closed : Bool
deriving DecidableEq

/-- What the Hub does to send channels. -/
inductive HubEvent where
  | attempt (client : Nat)
  | close (client : Nat)
deriving DecidableEq

/-- The Hub: the registry clients (user id to the set of its clients, in insertion
order), the send channel of every client, and the channel operations made so far. -/
structure Hub where
  clients : List (String × List Client)
  chans : Nat → Chan
  events : List HubEvent

/-- Assignment to a map entry: replaces the value of an existing key, adds the key
otherwise. -/
def mapSet {β : Type} (k : String) (v : β) : List (String × β) → List (String × β)
  | [] => [(k, v)]
  | (k1, v1) :: rest => if k1 = k then (k, v) :: rest else (k1, v1) :: mapSet k v rest

/-- The builtin delete on a map. -/
def mapDelete {β : Type} (k : String) (m : List (String × β)) : List (String × β) :=
  m.filter (fun e => e.1 ≠ k)

/-- The builtin delete on the set of clients of a user (a map keyed by the client): no
entry for the client is left. -/
def setDelete (client : Client) (clients : List Client) : List Client :=
  clients.filter (fun x => x ≠ client)

/-- The function NewHub, with the channels of the clients that will connect. -/
def NewHub (chans : Nat → Chan) : Hub :=
  { clients := [], chans := chans, events := [] }

/-- Hub.Run, the register case. -/
def Hub.register (h : Hub) (client : Client) : Hub :=
  let inner := (h.clients.lookup client.userID).getD []
  let inner := if client ∈ inner then inner else inner ++ [client]
  { h with clients := mapSet client.userID inner h.clients }

/-- Hub.Run, the unregister case. Closing a closed channel panics: none. -/
def Hub.unregister (h : Hub) (client : Client) : Option Hub :=
  match h.clients.lookup client.userID with
  | none => some h
  | some clients =>
    if client ∈ clients then
      let clients := setDelete client clients
      if (h.chans client.id).closed then none
      else
        let chans := Function.update h.chans client.id
          { h.chans client.id with closed := true }
        let registry :=
          if clients.length = 0 then mapDelete client.userID h.clients
          else mapSet client.userID clients h.clients
        some { clients := registry, chans := chans,
               events := h.events ++ [HubEvent.close client.id] }
    else some h

/-- The loop of Hub.SendToUser over the clients of the user: a non-blocking send on each
client, and on a full buffer the client is deleted from the set of the user (the user key
stays) and its channel is closed. A send on a closed channel panics: none. -/
def Hub.sendLoop (userID data : String) : Hub → List Client → Option Hub
  | h, [] => some h
  | h, client :: rest =>
    let ch := h.chans client.id
    let events := h.events ++ [HubEvent.attempt client.id]
    if ch.closed then none
    else if ch.buf.length < ch.cap then
      Hub.sendLoop userID data
        { h with chans := Function.update h.chans client.id { ch with buf := ch.buf ++ [data] },
                 events := events } rest
    else
      let inner := setDelete client ((h.clients.lookup userID).getD [])
      Hub.sendLoop userID data
        { clients := mapSet userID inner h.clients,
          chans := Function.update h.chans client.id { ch with closed := true },
          events := events ++ [HubEvent.close client.id] } rest

/-- Hub.SendToUser; enc is json.Marshal on the message. -/
def Hub.SendToUser (enc : WSMessage → Except String String) (h : Hub) (userID : String)
    (message : WSMessage) : Option Hub :=
  match enc message with
  | .error _ => some h
  | .ok data =>
    match h.clients.lookup userID with
    | none => some h
    | some clients => Hub.sendLoop userID data h clients

/-- The message Hub.SendJobStatus builds. -/
def jobStatusMessage (payload : JobStatusPayload) : WSMessage :=
  { Type_ := WSMessageTypeJobStatus, Payload := .jobStatus payload }

/-- The message Hub.SendNotification builds. -/
def notificationMessage (payload : NotificationPayload) : WSMessage :=
  { Type_ := WSMessageTypeNotification, Payload := .notice payload }

/-- Hub.SendJobStatus. -/
def Hub.SendJobStatus (enc : WSMessage → Except String String) (h : Hub) (userID : String)
    (payload : JobStatusPayload) : Option Hub :=
  Hub.SendToUser enc h userID (jobStatusMessage payload)

/-- Hub.SendNotification. -/
def Hub.SendNotification (enc : WSMessage → Except String String) (h : Hub) (userID : String)
    (payload : NotificationPayload) : Option Hub :=
  Hub.SendToUser enc h userID (notificationMessage payload)

/-- Hub.GetConnectedUsers. -/
def Hub.GetConnectedUsers (h : Hub) : List String :=
  h.clients.map (fun e => e.1)

/-- Hub.GetUserConnectionCount. -/
def Hub.GetUserConnectionCount (h : Hub) (userID : String) : Nat :=
  match h.clients.lookup userID with
  | some clients => clients.length
  | none => 0

/-- Hub.GetTotalConnections. -/
def Hub.GetTotalConnections (h : Hub) : Nat :=
  (h.clients.map (fun e => e.2.length)).sum

/-- The Hub delivery a call stands for: the user addressed and the message handed to
SendToUser. -/
def hubMessage? : Call → Option (String × WSMessage)
  | .HubSendJobStatus userID payload => some (userID, jobStatusMessage payload)
  | .HubSendNotification userID payload => some (userID, notificationMessage payload)
  | _ => none

/-- The Hub deliveries in a trace of calls, in order. -/
def hubMessages (trace : List Call) : List (String × WSMessage) :=
  trace.filterMap hubMessage?

/-- The status a call writes on the job with the given id: the status a job is created
with, or the status of an UpdateStatus call. -/
def statusWrite? (id : String) : Call → Option ResumeParseStatus
  | .JobCreate job => if job.ID.Hex = id then some job.Status else none
  | .JobUpdateStatus id1 status _ _ => if id1 = id then some status else none
  | _ => none

/-- The status writes a trace holds for one job id, in order. -/
def statusWrites (id : String) (trace : List Call) : List ResumeParseStatus :=
  trace.filterMap (statusWrite? id)

/-- The notification a call hands to the Notification Store. -/
def createdNotification? : Call → Option Biz.Notification
  | .RepoCreateNotification n => some n
  | _ => none

/-- The notifications handed to the Notification Store in a trace, in order. -/
def createdNotifications (trace : List Call) : List Biz.Notification :=
  trace.filterMap createdNotification?

/-- The messages handed to Producer.SendMessage in a trace, in order. -/
def sentMessages (trace : List Call) : List (String × String × SendValue) :=
  trace.filterMap fun
    | .SendMessage topic key value => some (topic, key, value)
    | _ => none

/-- The legal status histories: subsequences of pending, processing, completed or of
pending, processing, failed. -/
def legalHistory (l : List ResumeParseStatus) : Prop :=
  l.Sublist [.Pending, .Processing, .Completed] ∨ l.Sublist [.Pending, .Processing, .Failed]

instance (l : List ResumeParseStatus) : Decidable (legalHistory l) := by
  unfold legalHistory; infer_instance

/-! ## internal/biz: notifications and evaluation -/

/-- Result of a call that returns a value or an error, or panics. -/
inductive Ret (α : Type) where
  | ok (a : α)
  | err (e : String)
  | panic
deriving DecidableEq

/-- Error text of a kratos error (errors.Error.Error) without metadata or cause. -/
def kratosError (code : Nat) (reason message : String) : String :=
  "error: code = " ++ toString code ++ " reason = " ++ reason ++ " message = " ++ message
    ++ " metadata = map[] cause = <nil>"

/-- The call errors.InternalServer. -/
def InternalServer (reason message : String) : String := kratosError 500 reason message

/-- The variable biz.ErrResumeNotFound. -/
def ErrResumeNotFound : String := kratosError 404 "RESUME_NOT_FOUND" "Resume not found"

/-- The variable biz.ErrUnauthorized. -/
def ErrUnauthorized : String :=
  kratosError 403 "UNAUTHORIZED" "You don't have permission to access this resume"

/-- The function biz.CreateEvaluationCompleteNotification. The score parameter is not
used by the body. -/
def CreateEvaluationCompleteNotification (userID resumeID cvName : String) (_score : Float64)
    (grade : String) : Biz.Notification :=
  let title := "🎉 CV đã được đánh giá!"
  let content := "CV của bạn đã được đánh giá thành công. "
  let content := if cvName ≠ "" then content ++ ("CV: " ++ cvName ++ ". ") else content
  let content := content ++ ("Điểm đánh giá: " ++ grade ++ ". ")
  let content := content
    ++ "Vui lòng xem chi tiết để biết thêm thông tin và các đề xuất cải thiện."
  { ID := "", UserID := userID, Title := title, Content := content,
    Type_ := Biz.NotificationTypeEvaluate, ObjectID := resumeID, IsRead := false,
    CreatedAt := 0 }

/-- NotificationUseCase.CreateNotification: stamps CreatedAt, clears IsRead, calls the
repository. -/
def NotificationUseCase.CreateNotification (env : Env) (w : World) (n : Biz.Notification) :
    Except String Biz.Notification × World :=
  let (t, w) := timeNow env w
  let n := { n with CreatedAt := t, IsRead := false }
  let w := record (.RepoCreateNotification n) w
  (env.createNotification n, w)

/-- The loop of EvaluateAndSaveResume over the edits of the response, from index i: every
edit gets the id made of the resume id, the Unix time read at that moment and its index. -/
def convertCVEdits (env : Env) (resumeID : String) :
    World → Nat → List Biz.CVEdit → List Biz.ResumeCVEdit × World
  | w, _, [] => ([], w)
  | w, i, edit :: rest =>
    let (t, w) := timeNow env w
    let editID := resumeID ++ "-" ++ toString (env.unix t) ++ "-" ++ toString i
    let out := convertCVEdits env resumeID w (i + 1) rest
    ({ ID := editID, FieldPath := edit.FieldPath, Action := edit.Action,
       CurrentValue := edit.CurrentValue, SuggestedValue := edit.SuggestedValue,
       Reason := edit.Reason, Priority := edit.Priority, ImpactScore := edit.ImpactScore,
       Status := "" } :: out.1, out.2)

/-- The evaluation record EvaluateAndSaveResume builds from a successful response: the
fields of the response, the clock reading, the score breakdown when present and the
converted edits. -/
def buildEvaluation (env : Env) (w : World) (resumeID : String)
    (evaluateResp : Biz.EvaluateResponse) : Biz.ResumeEvaluation × World :=
  let (t, w) := timeNow env w
  let breakdown : Option Biz.ResumeScoreBreakdown :=
    evaluateResp.ScoreBreakdown.map fun b =>
      { SkillsScore := b.SkillsScore, ExperienceScore := b.ExperienceScore,
        EducationScore := b.EducationScore, CompletenessScore := b.CompletenessScore,
        JobAlignmentScore := b.JobAlignmentScore,
        PresentationScore := b.PresentationScore }
  let (edits, w) := convertCVEdits env resumeID w 0 evaluateResp.CVEdits
  ({ CVName := evaluateResp.CVName, OverallScore := evaluateResp.OverallScore,
     Grade := evaluateResp.Grade, ScoreBreakdown := breakdown,
     Strengths := evaluateResp.Strengths, Weaknesses := evaluateResp.Weaknesses,
     Recommendations := evaluateResp.Recommendations, CVEdits := edits,
     JobsAnalyzed := evaluateResp.JobsAnalyzed, EvaluatedAt := t }, w)

/-- ResumeUseCase.EvaluateAndSaveResume. The result is the returned pair: a resume (nil
when the repository update matched nothing) or an error; a nil ResumeDetail on the loaded
resume is a nil dereference. -/
def ResumeUseCase.EvaluateAndSaveResume (env : Env) (w : World) (resumeID userID : String) :
    Ret (Option Biz.Resume) × World :=
  let w := record (.RepoGetResume resumeID) w
  match env.getResume resumeID with
  | .error e => (.err e, w)
  | .ok none => (.err ErrResumeNotFound, w)
  | .ok (some resume) =>
    if resume.UserID ≠ userID then (.err ErrUnauthorized, w)
    else if !env.parserClientAvailable then
      (.err (InternalServer "PARSER_CLIENT_NOT_AVAILABLE" "Parser client is not initialized"), w)
    else
      let w := record (.EvaluateResume userID resume.ResumeDetail) w
      match env.evaluateResume userID resume.ResumeDetail with
      | .error _ => (.err (InternalServer "EVALUATE_FAILED" "Failed to evaluate resume"), w)
      | .ok evaluateResp =>
        if !evaluateResp.Success then
          let errMsg := if evaluateResp.Error ≠ "" then evaluateResp.Error else "Evaluation failed"
          (.err (InternalServer "EVALUATE_FAILED" errMsg), w)
        else
          let (evaluation, w) := buildEvaluation env w resumeID evaluateResp
          match resume.ResumeDetail with
          | none => (.panic, w)
          | some detail =>
            let detail := { detail with Evaluations := detail.Evaluations ++ [evaluation] }
            let resume := { resume with ResumeDetail := some detail }
            let w := record (.RepoUpdateResume resume) w
            match env.updateResume resume with
            | .error _ =>
              (.err (InternalServer "UPDATE_FAILED" "Failed to save evaluation result"), w)
            | .ok updatedResume => (.ok updatedResume, w)

/-! ## internal/server/evaluate_worker.go -/

/-- The last evaluation of the resume the use case returned, with the name of the CV, when
the resume and its detail are not nil and the evaluation list is not empty. -/
def lastEvaluation (updatedResume : Option Biz.Resume) :
    Option (String × Biz.ResumeEvaluation) :=
  match updatedResume with
  | none => none
  | some r =>
    match r.ResumeDetail with
    | none => none
    | some d =>
      match d.Evaluations.getLast? with
      | none => none
      | some lastEval => some (d.Name, lastEval)

/-- The tail shared by both branches of EvaluateWorker.handleMessage: create the
notification and, when that succeeds, send it over the Hub. -/
def EvaluateWorker.notify (env : Env) (w : World) (userID : String) (n : Biz.Notification) :
    World :=
  let (saved, w) := NotificationUseCase.CreateNotification env w n
  match saved with
  | .error _ => w
  | .ok savedNotification =>
    record (.HubSendNotification userID
      { ID := savedNotification.ID, Title := savedNotification.Title,
        Content := savedNotification.Content, Type_ := savedNotification.Type_,
        ObjectID := savedNotification.ObjectID,
        CreatedAt := env.formatRFC3339 savedNotification.CreatedAt }) w

/-- EvaluateWorker.handleMessage: the handler of the evaluate queue. -/
def EvaluateWorker.handleMessage (env : Env) (w : World) (msg : Message) :
    Ret Unit × World :=
  match env.unmarshalEvaluate msg.Value with
  | .error e => (.err e, w)
  | .ok evaluateMsg =>
    let (res, w) :=
      ResumeUseCase.EvaluateAndSaveResume env w evaluateMsg.ResumeID evaluateMsg.UserID
    match res with
    | .panic => (.panic, w)
    | .err e => (.err e, w)
    | .ok updatedResume =>
      match lastEvaluation updatedResume with
      | some (cvName, lastEval) =>
        let notification := CreateEvaluationCompleteNotification evaluateMsg.UserID
          evaluateMsg.ResumeID cvName lastEval.OverallScore lastEval.Grade
        (.ok (), EvaluateWorker.notify env w evaluateMsg.UserID notification)
      | none =>
        let notification : Biz.Notification :=
          { ID := "", UserID := evaluateMsg.UserID, Title := "CV đã được đánh giá",
            Content := "CV của bạn đã được đánh giá. Vui lòng xem chi tiết để biết thêm thông tin.",
            Type_ := Biz.NotificationTypeEvaluate, ObjectID := evaluateMsg.ResumeID,
            IsRead := false, CreatedAt := 0 }
        (.ok (), EvaluateWorker.notify env w evaluateMsg.UserID notification)

/-! ## internal/server/websocket.go: observations on the Hub -/

/-- Whether the send channel of a client has room for one more event. -/
def Hub.hasRoom (h : Hub) (client : Client) : Bool :=
  decide ((h.chans client.id).buf.length < (h.chans client.id).cap)

/-- The clients a non-blocking send was attempted on, in order. -/
def attempts (events : List HubEvent) : List Nat :=
  events.filterMap fun
    | .attempt client => some client
    | .close _ => none

/-- The clients whose channel was closed, in order. -/
def closes (events : List HubEvent) : List Nat :=
  events.filterMap fun
    | .close client => some client
    | .attempt _ => none

/-! ## internal/server/hub_adapter.go -/

/-- The struct biz.NotificationMessage. -/
structure Biz.NotificationMessage where
  ID : String
  Title : String
  Content : String
  Type_ : String
  ObjectID : String
  CreatedAt : String
deriving DecidableEq

/-- The dynamic types HubAdapter.SendNotification tells apart in its payload argument: a
pointer to biz.NotificationMessage, a pointer to NotificationPayload, anything else. -/
inductive AdapterPayload where
  | message (notif : Biz.NotificationMessage)
  | payload (wsPayload : NotificationPayload)
  | other
deriving DecidableEq

/-- HubAdapter.SendNotification. -/
def HubAdapter.SendNotification (enc : WSMessage → Except String String) (h : Hub)
    (userID : String) (payload : AdapterPayload) : Option Hub :=
  match payload with
  | .message notif =>
    Hub.SendNotification enc h userID
      { ID := notif.ID, Title := notif.Title, Content := notif.Content, Type_ := notif.Type_,
        ObjectID := notif.ObjectID, CreatedAt := notif.CreatedAt }
  | .payload wsPayload => Hub.SendNotification enc h userID wsPayload
  | .other => some h

/-! ## internal/server/websocket.go: connections -/

/-- What HandleWebSocket reads from the request: the query parameter token and the
Authorization header. -/
structure WSRequest where
  queryToken : String
  Authorization : String
deriving DecidableEq

/-- How HandleWebSocket ends: an http.Error answer before any upgrade, a failed
upgrade, a registered client, or a panic (nil claims dereferenced). -/
inductive WSOutcome where
  | rejected (text : String) (code : Nat)
  | upgradeFailed
  | registered (client : Client)
  | panic
deriving DecidableEq

/-- Whether upgrader.Upgrade was called. -/
def WSOutcome.upgradeCalled : WSOutcome → Bool
  | .upgradeFailed => true
  | .registered _ => true
  | _ => false

/-- WebSocketHandler.HandleWebSocket. The upgrade argument is the error of
upgrader.Upgrade, clientID stands for the pointer of the new Client; the register request
is processed by Hub.Run. -/
def WebSocketHandler.HandleWebSocket (env : Env) (h : Hub) (r : WSRequest)
    (upgrade : Option String) (clientID : Nat) : WSOutcome × Hub :=
  let token := if r.queryToken = "" then extractToken r.Authorization else r.queryToken
  if token = "" then (.rejected "Unauthorized: token required" 401, h)
  else
    match env.validateAccessToken token with
    | .error _ => (.rejected "Unauthorized: invalid token" 401, h)
    | .ok none => (.panic, h)
    | .ok (some userID) =>
      if userID = "" then (.rejected "Unauthorized: user ID not found" 401, h)
      else
        match upgrade with
        | some _ => (.upgradeFailed, h)
        | none =>
          let client : Client := { id := clientID, userID := userID }
          let h := { h with chans := Function.update h.chans clientID
                                       { buf := [], cap := 256, closed := false } }
          (.registered client, Hub.register h client)

/-- Result of handling one inbound frame: the channel afterwards, a send that waits for
room in the buffer, or a send on a closed channel. -/
inductive FrameResult where
  | done (ch : Chan)
  | blocked
  | panic
deriving DecidableEq

/-- The body of the read loop of Client.readPump for one inbound frame: a frame that
decodes with type ping is answered by a blocking send of the marshalled pong on the own
send channel (the marshal error is dropped). -/
def Client.handleFrame (dec : String → Except String WSMessage)
    (enc : WSMessage → Except String String) (ch : Chan) (frame : String) : FrameResult :=
  match dec frame with
  | .error _ => .done ch
  | .ok msg =>
    if msg.Type_ = WSMessageTypePing then
      let pongMsg : WSMessage := { Type_ := WSMessageTypePong, Payload := .none }
      let data := match enc pongMsg with
        | .ok d => d
        | .error _ => ""
      if ch.closed then .panic
      else if ch.buf.length < ch.cap then .done { ch with buf := ch.buf ++ [data] }
      else .blocked
    else .done ch

/-- The read loop of Client.readPump over the frames read before ReadMessage fails. -/
def Client.readFrames (dec : String → Except String WSMessage)
    (enc : WSMessage → Except String String) : Chan → List String → FrameResult
  | ch, [] => .done ch
  | ch, frame :: rest =>
    match Client.handleFrame dec enc ch frame with
    | .done ch1 => Client.readFrames dec enc ch1 rest
    | .blocked => .blocked
    | .panic => .panic

/-- Whether an inbound frame decodes as an envelope of type ping. -/
def decodesAsPing (dec : String → Except String WSMessage) (frame : String) : Bool :=
  match dec frame with
  | .ok msg => decide (msg.Type_ = WSMessageTypePing)
  | .error _ => false

/-! ## internal/server/upload.go: the job status query -/

/-- What HandleGetJobStatus reads from the request: the Authorization header and the
query parameter job_id. -/
structure JobStatusRequest where
  Authorization : String
  job_id : String
deriving DecidableEq

/-- The JSON object of the job status answer; the two optional keys are present only when
the handler sets them. -/
structure JobStatusBody where
  job_id : String
  status : String
  file_name : String
  created_at : Time
  updated_at : Time
  error_message : Option String
  resume_id : Option String
deriving DecidableEq

/-- An answer of HandleGetJobStatus: http.Error with a text and a code, or the JSON body
with the code it is sent with. -/
inductive JobStatusResponse where
  | error (text : String) (code : Nat)
  | ok (code : Nat) (body : JobStatusBody)
deriving DecidableEq

/-- ObjectID.IsZero. -/
def ObjectID.IsZero (id : ObjectID) : Bool := decide (id = NilObjectID)

/-- UploadHandler.HandleGetJobStatus. No WriteHeader call is made on the success path, so
the body goes out with code 200. -/
def UploadHandler.HandleGetJobStatus (env : Env) (w : World) (r : JobStatusRequest) :
    JobStatusResponse × World :=
  let token := extractToken r.Authorization
  if token = "" then (.error "Unauthorized: token required" 401, w)
  else
    match env.validateAccessToken token with
    | .error _ => (.error "Unauthorized: invalid token" 401, w)
    | .ok none => (.error "Unauthorized: invalid token" 401, w)
    | .ok (some claimsUserID) =>
      let jobID := r.job_id
      if jobID = "" then (.error "job_id is required" 400, w)
      else
        let (got, w) := ResumeParseJobRepo.GetByID env w jobID
        match got with
        | .error _ => (.error "Failed to get job" 500, w)
        | .ok none => (.error "Job not found" 404, w)
        | .ok (some job) =>
          if job.UserID.Hex ≠ claimsUserID then (.error "Forbidden" 403, w)
          else
            (.ok 200
              { job_id := job.ID.Hex, status := job.Status.toString, file_name := job.FileName,
                created_at := job.CreatedAt, updated_at := job.UpdatedAt,
                error_message := if job.ErrorMessage ≠ "" then some job.ErrorMessage else none,
                resume_id := if !job.ResumeID.IsZero then some job.ResumeID.Hex else none }, w)

/-! ## pkg/kafkax/consumer.go: construction and start -/

/-- The struct kafkax.ConsumerConfig; Timeout is a duration in nanoseconds. -/
structure ConsumerConfig where
  Brokers : List String
  Username : String
  Password : String
  EnableSASL : Bool
  Timeout : Int
  Topic : String
  GroupID : String
  NumPartitions : Int
  NumWorkers : Int
deriving DecidableEq

/-- A kafka.Reader created by NewConsumer: its position in the readers slice, and the
topic and group of its ReaderConfig. -/
structure Reader where
  index : Nat
  Topic : String
  GroupID : String
deriving DecidableEq

/-- The struct kafkax.Consumer, with the fields NewConsumer computes from the config. -/
structure Consumer where
  readers : List Reader
  topic : String
  groupID : String
  numPartitions : Int
  numWorkers : Int
deriving DecidableEq

/-- The function NewConsumer: both counts default to 1 when not positive; one reader per
partition, all on the topic and in the group of the config. -/
def NewConsumer (config : ConsumerConfig) : Consumer :=
  let numPartitions := if config.NumPartitions ≤ 0 then 1 else config.NumPartitions
  let numWorkers := if config.NumWorkers ≤ 0 then 1 else config.NumWorkers
  let readers := (List.range numPartitions.toNat).map fun i =>
    ({ index := i, Topic := config.Topic, GroupID := config.GroupID } : Reader)
  { readers := readers, topic := config.Topic, groupID := config.GroupID,
    numPartitions := numPartitions, numWorkers := numWorkers }

/-- A goroutine started by Consumer.Start: the arguments of the worker call. -/
structure WorkerSpawn where
  consumerID : Nat
  workerID : Nat
  reader : Reader
deriving DecidableEq

/-- The go statements of Consumer.Start for a list of (consumerID, workerID) pairs in loop
order; indexing readers out of range panics: none. -/
def spawnWorkers (readers : List Reader) : List (Nat × Nat) → Option (List WorkerSpawn)
  | [] => some []
  | (consumerID, workerID) :: rest =>
    match readers[consumerID]? with
    | none => none
    | some reader =>
      match spawnWorkers readers rest with
      | none => none
      | some spawned =>
        some ({ consumerID := consumerID, workerID := workerID, reader := reader } :: spawned)

/-- Consumer.Start: the two nested loops over consumers and workers. -/
def Consumer.Start (c : Consumer) : Option (List WorkerSpawn) :=
  spawnWorkers c.readers
    ((List.range c.numPartitions.toNat).flatMap fun consumerID =>
      (List.range c.numWorkers.toNat).map fun workerID => (consumerID, workerID))

/-! ## pkg/kafkax/consumer.go: the workers as interleaved goroutines -/

/-- The goroutines started by Consumer.Start at one moment: the message each worker has
fetched and not yet handed to the handler (by position in the list of spawned workers),
what each reader still has to deliver (by reader index, in delivery order), and the handler
invocations so far, each with the index of the reader the message came from. -/
structure Pool where
  holding : Nat → Option Message
  queues : Nat → List Message
  invoked : List (Nat × Message)

/-- The pool right after Start: no worker holds a message, no handler has run. -/
def Pool.start (queues : Nat → List Message) : Pool :=
  { holding := fun _ => none, queues := queues, invoked := [] }

/-- One scheduling step of the worker at position k of the spawned workers, following the
loop body of Consumer.worker: a worker that holds no message calls FetchMessage on its
reader and gets the next message of that reader (it waits when there is none); a worker
that holds a message invokes the handler on it (and commits it). -/
def Pool.step (workers : List WorkerSpawn) (p : Pool) (k : Nat) : Pool :=
  match workers[k]? with
  | none => p
  | some ws =>
    match p.holding k with
    | none =>
      match p.queues ws.reader.index with
      | [] => p
      | m :: rest =>
        { p with holding := Function.update p.holding k (some m),
                 queues := Function.update p.queues ws.reader.index rest }
    | some m =>
      { p with holding := Function.update p.holding k none,
               invoked := p.invoked ++ [(ws.reader.index, m)] }

/-- A run of the pool under a schedule: the positions of the workers that make the next
step, in order. -/
def Pool.run (workers : List WorkerSpawn) (p : Pool) (schedule : List Nat) : Pool :=
  schedule.foldl (Pool.step workers) p

/-! ## internal/data/notification.go -/

/-- The struct data.NotificationModel. -/
structure Data.NotificationModel where
  ID : ObjectID
  UserID : ObjectID
  Title : String
  Content : String
  Type_ : String
  ObjectID : String
  IsRead : Bool
  CreatedAt : Time
deriving DecidableEq

/-- The method notificationRepo.CreateNotification on the notifications collection. The
argument insert is the outcome of InsertOne (the id the driver assigned, or its error), now
is the reading of time.Now(). -/
def notificationRepo.CreateNotification (insert : Data.NotificationModel → Except String ObjectID)
    (now : Time) (coll : List Data.NotificationModel) (notification : Biz.Notification) :
    Except String Biz.Notification × List Data.NotificationModel :=
  match ObjectIDFromHex notification.UserID with
  | .error e => (.error e, coll)
  | .ok userID =>
    let model : Data.NotificationModel :=
      { ID := NilObjectID, UserID := userID, Title := notification.Title,
        Content := notification.Content, Type_ := notification.Type_,
        ObjectID := notification.ObjectID, IsRead := false, CreatedAt := now }
    match insert model with
    | .error e => (.error e, coll)
    | .ok insertedID =>
      (.ok { notification with ID := insertedID.Hex, CreatedAt := model.CreatedAt },
        coll ++ [{ model with ID := insertedID }])

/-! ## internal/biz/resume.go: edit ids -/

/-- The ids of all edits stored on a resume, over all its evaluations, in order. -/
def editIDs (resume : Biz.Resume) : List String :=
  match resume.ResumeDetail with
  | none => []
  | some detail => detail.Evaluations.flatMap fun evaluation =>
      evaluation.CVEdits.map fun edit => edit.ID

/-! ## internal/server/websocket.go: sequences of Hub operations -/

/-- An operation on the Hub: a register or unregister request processed by Hub.Run, or a
SendToUser call. -/
inductive HubOp where
  | register (client : Client)
  | unregister (client : Client)
  | send (userID : String) (message : WSMessage)
deriving DecidableEq

/-- The Hub after one operation; none when the operation panics. -/
def Hub.apply (enc : WSMessage → Except String String) (h : Hub) : HubOp → Option Hub
  | .register client => some (Hub.register h client)
  | .unregister client => Hub.unregister h client
  | .send userID message => Hub.SendToUser enc h userID message

/-- The Hub after a sequence of operations, processed one after the other. -/
def Hub.run (enc : WSMessage → Except String String) : Hub → List HubOp → Option Hub
  | h, [] => some h
  | h, op :: rest =>
    match Hub.apply enc h op with
    | none => none
    | some h1 => Hub.run enc h1 rest

/-! ## internal/biz/parser_client.go: reading the graduation year -/

/-- The function isSpace of fmt/scan.go: the white space of Unicode below 0x10000. -/
def isSpace (r : Char) : Bool :=
  (0x09 ≤ r.toNat ∧ r.toNat ≤ 0x0D) || r.toNat = 0x20 || r.toNat = 0x85 || r.toNat = 0xA0
    || r.toNat = 0x1680 || (0x2000 ≤ r.toNat ∧ r.toNat ≤ 0x200A)
    || (0x2028 ≤ r.toNat ∧ r.toNat ≤ 0x2029) || r.toNat = 0x202F || r.toNat = 0x205F
    || r.toNat = 0x3000

/-- The call fmt.Sscanf(s, "%d", &v) on an int v holding old. SkipSpace skips white space
and stops with an error at a newline; then an optional sign is accepted, and scanNumber
takes the run of characters among the decimal digits and the underscore. The scan fails,
and v keeps old, when that run is empty, when it holds an underscore (ParseInt in base 10
refuses it) or when the number does not fit 64 bits; otherwise v is set. What follows the
run is not looked at. -/
def sscanfD (s : String) (old : Int) : Int :=
  let cs := s.data.dropWhile fun c => isSpace c ∧ c ≠ '\n'
  let signed : Bool × List Char :=
    if cs.head? = some '-' then (true, cs.tail)
    else if cs.head? = some '+' then (false, cs.tail)
    else (false, cs)
  let token := signed.2.takeWhile fun c => c.isDigit ∨ c = '_'
  if token = [] ∨ '_' ∈ token then old
  else
    let magnitude : Nat := token.foldl (fun acc c => acc * 10 + (c.toNat - '0'.toNat)) 0
    let value : Int := if signed.1 then -magnitude else magnitude
    if -(2 : Int) ^ 63 ≤ value ∧ value < (2 : Int) ^ 63 then value else old

/-- The struct biz.EvaluateEducation. -/
structure Biz.EvaluateEducation where
  Degree : String
  Institution : String
  GraduationYear : Int
  Description : String
  GPA : Float64
deriving DecidableEq

/-- The education loop of ParserClient.convertResumeToEvaluateCV: the year is read back
from the stored string into a variable that starts at 0. -/
def ParserClient.convertEducation (education : List Biz.Education) :
    List Biz.EvaluateEducation :=
  education.map fun edu =>
    let gradYear := sscanfD edu.GraduationYear 0
    { Degree := edu.Degree, Institution := edu.Institution, GraduationYear := gradYear,
      Description := edu.Description, GPA := 0 }

/-! ## internal/server/upload.go: the synchronous converter -/

/-- UploadHandler.convertToDataResume: the converter of the synchronous upload handler. It
sets neither the description of an education entry nor the achievements of the resume. -/
def UploadHandler.convertToDataResume (env : Env) (w : World) (parserResp : ParserResponse) :
    Data.Resume × World :=
  let cvData := parserResp.CVData
  let educationList : List Data.Education := cvData.Education.map fun edu =>
    { Degree := edu.Degree, Institution := edu.Institution,
      GraduationYear := sprintfD edu.GraduationYear, Description := "" }
  let experienceList : List Data.Experience := cvData.Experience.map fun exp =>
    { Title := exp.Title, Company := exp.Company, Duration := exp.Duration,
      Description := exp.Description, Responsibilities := exp.Responsibilities,
      Achievements := exp.Achievements }
  let projectList : List Data.Project := cvData.Projects.map fun proj =>
    { Name := proj.Name, Description := proj.Description, Technologies := proj.Technologies,
      Url := proj.Url, Duration := proj.Duration, Role := proj.Role,
      Achievements := proj.Achievements }
  let resumeDetail : Data.ResumeDetail :=
    { Name := cvData.Name, Email := cvData.Email, Phone := cvData.Phone,
      Summary := cvData.Summary, Skills := cvData.Skills, Education := educationList,
      Experience := experienceList, Projects := projectList,
      Certifications := cvData.Certifications, Languages := cvData.Languages,
      Achievements := [], Evaluations := [] }
  let (id, w) := NewObjectID env w
  let (t, w) := timeNow env w
  ({ ID := id, ResumeDetail := resumeDetail, Version := 1, CreatedAt := t }, w)

/-! ## internal/data/resume.go and internal/biz/resume.go: listing resumes -/

/-- The value of an int32 after arithmetic that wraps around. -/
def wrapInt32 (x : Int) : Int := (x + 2 ^ 31) % 2 ^ 32 - 2 ^ 31

/-- The method resumeRepo.toEvaluationsBizArray. -/
def resumeRepo.toEvaluationsBizArray (docs : List Data.ResumeEvaluation) :
    List Biz.ResumeEvaluation :=
  docs.map fun doc =>
    { CVName := doc.CVName, OverallScore := doc.OverallScore, Grade := doc.Grade,
      ScoreBreakdown := some
        { SkillsScore := doc.ScoreBreakdown.SkillsScore,
          ExperienceScore := doc.ScoreBreakdown.ExperienceScore,
          EducationScore := doc.ScoreBreakdown.EducationScore,
          CompletenessScore := doc.ScoreBreakdown.CompletenessScore,
          JobAlignmentScore := doc.ScoreBreakdown.JobAlignmentScore,
          PresentationScore := doc.ScoreBreakdown.PresentationScore },
      Strengths := doc.Strengths, Weaknesses := doc.Weaknesses,
      Recommendations := doc.Recommendations,
      CVEdits := doc.CVEdits.map fun edit =>
        { ID := edit.ID, FieldPath := edit.FieldPath, Action := edit.Action,
          CurrentValue := edit.CurrentValue, SuggestedValue := edit.SuggestedValue,
          Reason := edit.Reason, Priority := edit.Priority, ImpactScore := edit.ImpactScore,
          Status := edit.Status },
      JobsAnalyzed := doc.JobsAnalyzed, EvaluatedAt := doc.EvaluatedAt }

/-- The method resumeRepo.toBiz, with the three array converters for education, experience
and projects written in place. -/
def resumeRepo.toBiz (doc : Data.Resume) (userID : String) : Biz.Resume :=
  { ID := doc.ID.Hex, UserID := userID,
    ResumeDetail := some
      { Name := doc.ResumeDetail.Name, Email := doc.ResumeDetail.Email,
        Phone := doc.ResumeDetail.Phone, Summary := doc.ResumeDetail.Summary,
        Skills := doc.ResumeDetail.Skills,
        Education := doc.ResumeDetail.Education.map fun edu =>
          { Degree := edu.Degree, Institution := edu.Institution,
            GraduationYear := edu.GraduationYear, Description := edu.Description },
        Experience := doc.ResumeDetail.Experience.map fun exp =>
          { Title := exp.Title, Company := exp.Company, Duration := exp.Duration,
            Description := exp.Description, Responsibilities := exp.Responsibilities,
            Achievements := exp.Achievements },
        Projects := doc.ResumeDetail.Projects.map fun proj =>
          { Name := proj.Name, Description := proj.Description,
            Technologies := proj.Technologies, Url := proj.Url, Duration := proj.Duration,
            Role := proj.Role, Achievements := proj.Achievements },
        Certifications := doc.ResumeDetail.Certifications,
        Languages := doc.ResumeDetail.Languages,
        Achievements := doc.ResumeDetail.Achievements,
        Evaluations := resumeRepo.toEvaluationsBizArray doc.ResumeDetail.Evaluations },
    Version := doc.Version, CreatedAt := doc.CreatedAt }

/-- The loop of resumeRepo.ListResumes from index i, for count more iterations: indexing the
resume array with a negative index or one past its end panics. -/
def resumeRepo.listLoop (resumes : List Data.Resume) (userID : String) :
    Int → Nat → Ret (List Biz.Resume)
  | _, 0 => .ok []
  | i, count + 1 =>
    if i < 0 then .panic
    else
      match resumes[i.toNat]? with
      | none => .panic
      | some doc =>
        match resumeRepo.listLoop resumes userID (i + 1) count with
        | .ok rest => .ok (resumeRepo.toBiz doc userID :: rest)
        | .err e => .err e
        | .panic => .panic

/-- The method resumeRepo.ListResumes; page and pageSize are int32 values, and so are total,
start and end. -/
def resumeRepo.ListResumes (env : Env) (w : World) (userID : String) (page pageSize : Int) :
    Ret (List Biz.Resume × Int) × World :=
  match ObjectIDFromHex userID with
  | .error e => (.err e, w)
  | .ok userObjID =>
    let w := record (.UserFindOne userObjID) w
    match env.dbErr (.UserFindOne userObjID) with
    | some e => (.err e, w)
    | none =>
      match w.users.find? (fun u => u.ID == userObjID) with
      | none => (.ok ([], 0), w)
      | some user =>
        let total := wrapInt32 user.Resume.length
        let start := wrapInt32 ((page - 1) * pageSize)
        let end_ := wrapInt32 (start + pageSize)
        if start ≥ total then (.ok ([], total), w)
        else
          let end_ := if end_ > total then total else end_
          match resumeRepo.listLoop user.Resume userID start (end_ - start).toNat with
          | .ok resumes => (.ok (resumes, total), w)
          | .err e => (.err e, w)
          | .panic => (.panic, w)

/-- The method ResumeUseCase.ListResumes: the clamping of page and pageSize, then the
repository. -/
def ResumeUseCase.ListResumes (env : Env) (w : World) (userID : String) (page pageSize : Int) :
    Ret (List Biz.Resume × Int) × World :=
  let page := if page < 1 then 1 else page
  let pageSize := if pageSize < 1 ∨ pageSize > 100 then 10 else pageSize
  resumeRepo.ListResumes env w userID page pageSize

/-! ## The balancer of the producer -/

/-- The position of the least counter from position i on, given the least so far: a later
counter wins only when it is strictly smaller. -/
def LeastBytes.minIndex : List Nat → Nat → Nat → Nat → Nat
  | [], _, minIndex, _ => minIndex
  | c :: rest, i, minIndex, minBytes =>
    if c < minBytes then LeastBytes.minIndex rest (i + 1) i c
    else LeastBytes.minIndex rest (i + 1) minIndex minBytes

/-- The method LeastBytes.Balance of the kafka-go library, the balancer NewProducer puts in
the kafka.Writer (the library is not under src; this follows what the library does). The
counters hold the bytes sent to each partition so far: the message goes to the first
partition with the least bytes, and the counter of that partition grows by the lengths of
the key and the value. With no partition the index 0 is out of range: none. -/
def LeastBytes.Balance (counters : List Nat) (msg : WrittenMessage) :
    Option (Nat × List Nat) :=
  match counters with
  | [] => none
  | c :: rest =>
    let minIndex := LeastBytes.minIndex rest 1 0 c
    some (minIndex,
      counters.modify (fun bytes => bytes + msg.Key.utf8ByteSize + msg.Value.utf8ByteSize)
        minIndex)

/-- The partitions LeastBytes.Balance chooses for messages sent one after the other. -/
def LeastBytes.assign : List Nat → List WrittenMessage → List Nat
  | _, [] => []
  | counters, msg :: rest =>
    match LeastBytes.Balance counters msg with
    | none => []
    | some (partition, counters1) => partition :: LeastBytes.assign counters1 rest

/-! ## A concrete scenario

One user, one upload, a parse service that answers for non-empty files, an evaluate
service that grades 87 / B. Used to evaluate the definitions on concrete inputs. -/

/-- The ObjectID whose nibbles all equal n. -/
def idOf (n : Fin 16) : ObjectID := ⟨List.replicate 24 n, by simp⟩

/-- A parsed CV with a name only. -/
def scenarioCV : CVData :=
  { Name := "An", Email := "", Phone := "", Summary := "", Skills := [], Education := [],
    Experience := [], Projects := [], Certifications := [], Languages := [],
    Achievements := [] }

/-- An earlier evaluation of the stored resume: score 70, grade C. -/
def earlierEvaluation : Biz.ResumeEvaluation :=
  { CVName := "An", OverallScore := 70, Grade := "C", ScoreBreakdown := none, Strengths := [],
    Weaknesses := [], Recommendations := [], CVEdits := [], JobsAnalyzed := 1,
    EvaluatedAt := 0 }

/-- The detail of the stored resume of the scenario, with one earlier evaluation. -/
def scenarioDetail : Biz.ResumeDetail :=
  { Name := "An", Email := "", Phone := "", Summary := "", Skills := [], Education := [],
    Experience := [], Projects := [], Certifications := [], Languages := [],
    Achievements := [], Evaluations := [earlierEvaluation] }

/-- The stored resume of the scenario as the repository returns it. -/
def scenarioResume : Biz.Resume :=
  { ID := (idOf 3).Hex, UserID := (idOf 1).Hex, ResumeDetail := some scenarioDetail,
    Version := 1, CreatedAt := 0 }

/-- The answer of the evaluate service: score 87, grade B. -/
def scenarioResponse : Biz.EvaluateResponse :=
  { Success := true, CVName := "An", OverallScore := 87, Grade := "B", ScoreBreakdown := none,
    Strengths := [], Weaknesses := [], Recommendations := [], CVEdits := [],
    JobsAnalyzed := 2, Deterministic := true, Error := "" }

/-- The environment of the scenario: no driver or broker error; the message value upload
decodes to the upload message of job 22..2 of user 11..1, the value evaluate to the
evaluate message for resume 33..3; the parse service rejects an empty file. -/
def scenarioEnv : Env :=
  { clock := fun k => k
    newObjectID := fun k => idOf (Fin.ofNat (k + 2))
    dbErr := fun _ => none
    unmarshalParse := fun s =>
      if s = "upload" then
        .ok { JobID := (idOf 2).Hex, UserID := (idOf 1).Hex, FileName := "cv.pdf" }
      else .error "invalid character"
    unmarshalEvaluate := fun s =>
      if s = "evaluate" then .ok { ResumeID := (idOf 3).Hex, UserID := (idOf 1).Hex }
      else .error "invalid character"
    parser := fun fileData _ =>
      if fileData = [] then .badStatus "empty file"
      else .decoded { Success := true, CVData := scenarioCV, Message := "" }
    marshal := fun _ => .ok "json"
    writeErr := fun _ => none
    validateAccessToken := fun t => if t = "tok" then .ok (some (idOf 1).Hex) else .error "bad"
    getResume := fun id => if id = (idOf 3).Hex then .ok (some scenarioResume) else .ok none
    parserClientAvailable := true
    evaluateResume := fun _ _ => .ok scenarioResponse
    updateResume := fun r => .ok (some r)
    createNotification := fun n => .ok { n with ID := (idOf 9).Hex }
    unix := fun t => t
    formatRFC3339 := fun _ => "2024-01-01T00:00:00Z" }

/-- The scenario with a broker that refuses every write. -/
def brokerDownEnv : Env :=
  { scenarioEnv with writeErr := fun _ => some "connection refused" }

/-- The scenario with a resume repository that fails to load. -/
def repoDownEnv : Env :=
  { scenarioEnv with getResume := fun _ => .error "connection refused" }

/-- The initial state: user 11..1 exists, nothing else. -/
def scenarioWorld : World :=
  { jobs := [], users := [{ ID := idOf 1, Resume := [], UpdatedAt := 0 }], broker := [],
    trace := [], ticks := 0, ids := 0 }

/-- The upload request of the scenario: a two-byte PDF part. -/
def scenarioRequest : UploadRequest :=
  { Authorization := "Bearer tok", multipartErr := none,
    formFile := .ok { Filename := "cv.pdf", ContentType := "application/pdf",
                      read := .ok [37, 80] } }

/-- The upload message as the consumer fetches it. -/
def uploadMessage : Message :=
  { Topic := "resume", Partition := 0, Offset := 0, Key := (idOf 2).Hex, Value := "upload" }

/-- The evaluate message as the consumer fetches it. -/
def evaluateMessage : Message :=
  { Topic := "evaluate", Partition := 0, Offset := 0, Key := (idOf 3).Hex, Value := "evaluate" }

/-- The state after the upload was accepted. -/
def worldUploaded : World :=
  (UploadHandler.HandleUploadResumeAsync scenarioEnv "resume" scenarioWorld scenarioRequest).2

/-- The state after the upload message was handled once. -/
def worldParsed : World := (ResumeWorker.handleMessage scenarioEnv worldUploaded uploadMessage).2

/-- The state after the same upload message was handled a second time. -/
def worldParsedTwice : World :=
  (ResumeWorker.handleMessage scenarioEnv worldParsed uploadMessage).2

/-- A Hub in which only user U2 has a connection, client 1, with room in its buffer. -/
def scenarioHub : Hub :=
  { clients := [("U2", [{ id := 1, userID := "U2" }])],
    chans := fun _ => { buf := [], cap := 256, closed := false },
    events := [] }

/-- A stand-in for json.Marshal on WebSocket messages: the type of the message. -/
def scenarioEnc (m : WSMessage) : Except String String := .ok m.Type_

/-- The decoded upload message of the scenario. -/
def scenarioParseMessage : ResumeParseMessage :=
  { JobID := (idOf 2).Hex, UserID := (idOf 1).Hex, FileName := "cv.pdf" }

/-- The job the scenario upload creates. -/
def pendingJob : ResumeParseJob :=
  { ID := idOf 2, UserID := idOf 1, FileName := "cv.pdf", FileData := [37, 80],
    Status := .Pending, ErrorMessage := "", ResumeID := NilObjectID, CreatedAt := 0,
    UpdatedAt := 1 }

/-- The scenario with a parse service that cannot be reached. -/
def parserDownEnv : Env :=
  { scenarioEnv with parser := fun _ _ => .doErr "connection refused" }

/-- The answer of the parse service in the scenario. -/
def scenarioParserResponse : ParserResponse :=
  { Success := true, CVData := scenarioCV, Message := "" }

/-- The user of the scenario as stored before any resume is saved. -/
def scenarioUser : Data.User := { ID := idOf 1, Resume := [], UpdatedAt := 0 }

/-- The resume the parse stage builds in the scenario: fresh id 33..3. -/
def scenarioStoredResume : Data.Resume :=
  (ResumeWorker.convertToDataResume scenarioEnv
    { worldUploaded with ticks := worldUploaded.ticks + 1 } scenarioParserResponse).1

/-- A message whose value is not JSON. -/
def garbageMessage : Message :=
  { Topic := "resume", Partition := 0, Offset := 1, Key := "k", Value := "garbage" }

/-- A Hub in which user U1 has two connections: client 1 with room in its buffer and
client 2 whose buffer of capacity one is full. -/
def crowdedHub : Hub :=
  { clients := [("U1", [{ id := 1, userID := "U1" }, { id := 2, userID := "U1" }])],
    chans := fun i =>
      if i = 2 then { buf := ["old"], cap := 1, closed := false }
      else { buf := [], cap := 256, closed := false },
    events := [] }

/-- The connection of the crowded Hub whose buffer is full. -/
def fullClient : Client := { id := 2, userID := "U1" }

/-- A notification event for the deliveries of the scenario. -/
def scenarioNotice : WSMessage :=
  notificationMessage
    { ID := "N1", Title := "Done", Content := "Grade B", Type_ := "evaluate", ObjectID := "D1",
      CreatedAt := "2024-01-01T00:00:00Z" }

/-- A stand-in for json.Unmarshal on inbound frames: the texts ping and pong decode to the
envelope of that type, any other text is not JSON. -/
def scenarioDec (frame : String) : Except String WSMessage :=
  if frame = "ping" then .ok { Type_ := "ping", Payload := .none }
  else if frame = "pong" then .ok { Type_ := "pong", Payload := .none }
  else .error "invalid character"

/-- A connection request that carries the token of the scenario in the query. -/
def wsRequest : WSRequest := { queryToken := "tok", Authorization := "" }

/-- The status query of the scenario user for the job of the scenario. -/
def statusRequest : JobStatusRequest :=
  { Authorization := "Bearer tok", job_id := (idOf 2).Hex }

/-- A status query whose job id is not a hexadecimal id. -/
def malformedStatusRequest : JobStatusRequest :=
  { Authorization := "Bearer tok", job_id := "J1" }

/-- A consumer configuration with two partitions and no worker count. -/
def twoLaneConfig : ConsumerConfig :=
  { Brokers := ["b:9092"], Username := "", Password := "", EnableSASL := false, Timeout := 0,
    Topic := "resume", GroupID := "g", NumPartitions := 2, NumWorkers := 0 }

/-- A consumer configuration with one partition and two workers on its reader. -/
def twoWorkerConfig : ConsumerConfig :=
  { Brokers := ["b:9092"], Username := "", Password := "", EnableSASL := false, Timeout := 0,
    Topic := "resume", GroupID := "g", NumPartitions := 1, NumWorkers := 2 }

/-- The first of two messages with the same key k. -/
def firstMessage : Message :=
  { Topic := "resume", Partition := 0, Offset := 0, Key := "k", Value := "first" }

/-- The second of two messages with the same key k. -/
def secondMessage : Message :=
  { Topic := "resume", Partition := 0, Offset := 1, Key := "k", Value := "second" }

/-- The scenario with a resume repository whose update matches no document. -/
def noMatchEnv : Env :=
  { scenarioEnv with updateResume := fun _ => .ok none }

/-- An edit suggested by the evaluate service. -/
def scenarioEdit : Biz.CVEdit :=
  { FieldPath := "summary", Action := "replace", CurrentValue := "", SuggestedValue := "x",
    Reason := "r", Priority := "high", ImpactScore := 1 }

/-- The scenario with a clock in milliseconds (Unix time is the reading divided by 1000)
and an evaluate service that suggests one edit. -/
def quickEnv : Env :=
  { scenarioEnv with
    unix := fun t => t / 1000
    evaluateResume := fun _ _ => .ok { scenarioResponse with CVEdits := [scenarioEdit] } }

/-- The resume of the scenario after a first evaluation in the quick scenario. -/
def onceEvaluated : Option Biz.Resume :=
  match (ResumeUseCase.EvaluateAndSaveResume quickEnv scenarioWorld (idOf 3).Hex
      (idOf 1).Hex).1 with
  | .ok r => r
  | _ => none

/-- The quick scenario once the repository holds the resume evaluated once. -/
def quickEnvAfter : Env :=
  { quickEnv with getResume := fun _ => .ok onceEvaluated }

/-- The resume of the scenario after a second evaluation within the same second. -/
def twiceEvaluated : Option Biz.Resume :=
  match (ResumeUseCase.EvaluateAndSaveResume quickEnvAfter
      (ResumeUseCase.EvaluateAndSaveResume quickEnv scenarioWorld (idOf 3).Hex (idOf 1).Hex).2
      (idOf 3).Hex (idOf 1).Hex).1 with
  | .ok r => r
  | _ => none

/-- The one connection of the eviction scenario. -/
def slowClient : Client := { id := 1, userID := "U1" }

/-- The operations of the eviction scenario: one client of U1 registers and 257 events
are sent to U1 while nothing is taken from the buffer of the client. -/
def evictionOps : List HubOp :=
  HubOp.register slowClient :: List.replicate 257 (HubOp.send "U1" scenarioNotice)

/-- A parser response with an education entry that has a description, and an achievement. -/
def describedResponse : ParserResponse :=
  { Success := true,
    CVData := { scenarioCV with
      Education := [{ Degree := "BSc", Institution := "HCMUS", GraduationYear := 2020,
                      Description := "honours", GPA := 0 }]
      Achievements := ["award"] },
    Message := "" }

/-- The second of the two messages with key k, when the broker has put it on partition 1. -/
def secondOnOther : Message :=
  { Topic := "resume", Partition := 1, Offset := 0, Key := "k", Value := "second" }

/-- The state after an upload whose write to the broker reported an error. -/
def worldQueueFailed : World :=
  (UploadHandler.HandleUploadResumeAsync brokerDownEnv "resume" scenarioWorld scenarioRequest).2

/-- The scenario with a token validator that returns no claims and no error. -/
def nilClaimsEnv : Env :=
  { scenarioEnv with validateAccessToken := fun _ => .ok none }

/-- The operations that fill the buffer of the slow client: it registers and 256 events
are sent to its user while nothing is taken from the buffer. -/
def fillingOps : List HubOp :=
  HubOp.register slowClient :: List.replicate 256 (HubOp.send "U1" scenarioNotice)

/-- A notification for the scenario user that arrives with its IsRead flag set. -/
def readNotification : Biz.Notification :=
  { ID := "", UserID := (idOf 1).Hex, Title := "Done", Content := "Grade B",
    Type_ := "evaluate", ObjectID := (idOf 3).Hex, IsRead := true, CreatedAt := 0 }

/-! ## Theorems -/

/-- C1: for every handler (whatever it returns), every handler state and every script,
the calls Consumer.worker makes are, for each fetched message in fetch order, one handler
invocation on it immediately followed by one CommitMessages on the same message; so the
handler and the commit each run on a message exactly as many times as it was fetched, and
the handler state at the end is the one reached by running the handler once on each fetched
message in order. -/
theorem worker_handles_and_commits_once {σ : Type}
    (handler : σ → Message → Option String × σ) (s : σ) (script : List Step) :
    (worker handler s script).1
        = (fetched script).flatMap (fun m => [ConsumerEvent.handle m, ConsumerEvent.commit m])
      ∧ (worker handler s script).2
        = (fetched script).foldl (fun st m => (handler st m).2) s
      ∧ ∀ m : Message,
          ((worker handler s script).1).count (ConsumerEvent.handle m) = (fetched script).count m
          ∧ ((worker handler s script).1).count (ConsumerEvent.commit m)
              = (fetched script).count m := by
  induction script generalizing s with
  | nil => simp [worker, fetched]
  | cons st rest ih =>
    by_cases hd : st.done = true
    · simp [worker, fetched, hd]
    · cases hf : st.fetch with
      | canceled => simp [worker, fetched, hd, hf]
      | failed e => simpa [worker, fetched, hd, hf] using ih s
      | message msg =>
        have h := ih (handler s msg).2
        refine ⟨?_, ?_, fun m => ?_⟩
        · simp [worker, fetched, hd, hf, h.1]
        · simp [worker, fetched, hd, hf, h.2.1]
        · have hm := h.2.2 m
          by_cases e : msg = m
          · subst e
            simp [worker, fetched, hd, hf, hm.1, hm.2, List.count_cons]
          · have e2 : ¬ (m = msg) := fun h2 => e h2.symm
            simp [worker, fetched, hd, hf, hm.1, hm.2, List.count_cons, e, e2]

/-! ### Real-Time Hub -/

/-- C10: for every Hub state, every message and every user with no entry in the registry,
SendToUser returns normally with the Hub unchanged: same registry, same channel contents,
no channel operation. -/
theorem SendToUser_without_entry (enc : WSMessage → Except String String) (h : Hub)
    (userID : String) (message : WSMessage) (hno : h.clients.lookup userID = none) :
    Hub.SendToUser enc h userID message = some h := by
  unfold Hub.SendToUser
  cases enc message <;> simp [hno]

/-- Witness for C10: in the scenario Hub only U2 is registered, and a delivery to U1
leaves it as it is. -/
theorem SendToUser_without_entry_witness :
    scenarioHub.clients.lookup "U1" = none
      ∧ Hub.SendToUser scenarioEnc scenarioHub "U1"
          (jobStatusMessage { JobID := "J1", Status := "completed", ErrorMessage := "",
                              ResumeID := "D1", CVData := none }) = some scenarioHub :=
  ⟨by decide, SendToUser_without_entry _ _ _ _ (by decide)⟩

/-! ### Evaluate stage -/

set_option maxRecDepth 100000 in
/-- C9, as stated, fails: for score 87 and grade B the content of the notification does not
contain 87, and it is the same notification as for score 12. -/
theorem evaluation_notification_omits_score :
    ¬ ("87".data <:+: (CreateEvaluationCompleteNotification "U1" "D1" "cv" 87 "B").Content.data)
      ∧ CreateEvaluationCompleteNotification "U1" "D1" "cv" 87 "B"
          = CreateEvaluationCompleteNotification "U1" "D1" "cv" 12 "B" := by
  constructor
  · decide
  · rfl

/-- C9, amended: for every score and grade the notification built by
CreateEvaluationCompleteNotification carries the grade in its content (after the fixed
opening and, when the CV name is not empty, the name), is of type evaluate for the given user
and resume, and does not depend on the score. -/
theorem evaluation_notification_carries_grade (userID resumeID cvName grade : String)
    (score : Float64) :
    (CreateEvaluationCompleteNotification userID resumeID cvName score grade).Content
        = "CV của bạn đã được đánh giá thành công. "
          ++ (if cvName ≠ "" then "CV: " ++ cvName ++ ". " else "")
          ++ ("Điểm đánh giá: " ++ grade ++ ". ")
          ++ "Vui lòng xem chi tiết để biết thêm thông tin và các đề xuất cải thiện."
      ∧ grade.data <:+:
          (CreateEvaluationCompleteNotification userID resumeID cvName score grade).Content.data
      ∧ (CreateEvaluationCompleteNotification userID resumeID cvName score grade).UserID = userID
      ∧ (CreateEvaluationCompleteNotification userID resumeID cvName score grade).ObjectID
          = resumeID
      ∧ (CreateEvaluationCompleteNotification userID resumeID cvName score grade).Type_
          = Biz.NotificationTypeEvaluate
      ∧ ∀ other : Float64,
          CreateEvaluationCompleteNotification userID resumeID cvName other grade
            = CreateEvaluationCompleteNotification userID resumeID cvName score grade := by
  refine ⟨?_, ?_, rfl, rfl, rfl, fun _ => rfl⟩
  · unfold CreateEvaluationCompleteNotification
    by_cases h : cvName = "" <;> simp [h, String.append_assoc]
  · unfold CreateEvaluationCompleteNotification
    simp only [String.data_append]
    exact (List.infix_append _ _ _).trans (List.infix_append _ _ _)

/-- The edit conversion only reads the clock: the trace is unchanged. -/
theorem convertCVEdits_trace (env : Env) (resumeID : String) (w : World) (i : Nat)
    (l : List Biz.CVEdit) : (convertCVEdits env resumeID w i l).2.trace = w.trace := by
  induction l generalizing w i with
  | nil => rfl
  | cons edit rest ih => simp [convertCVEdits, timeNow, ih]

/-- Building the evaluation record only reads the clock: the trace is unchanged. -/
theorem buildEvaluation_trace (env : Env) (w : World) (resumeID : String)
    (resp : Biz.EvaluateResponse) : (buildEvaluation env w resumeID resp).2.trace = w.trace := by
  simp [buildEvaluation, convertCVEdits_trace, timeNow]

/-- EvaluateAndSaveResume neither creates nor delivers a notification. -/
theorem EvaluateAndSaveResume_quiet (env : Env) (w : World) (resumeID userID : String) :
    createdNotifications (ResumeUseCase.EvaluateAndSaveResume env w resumeID userID).2.trace
        = createdNotifications w.trace
      ∧ hubMessages (ResumeUseCase.EvaluateAndSaveResume env w resumeID userID).2.trace
        = hubMessages w.trace := by
  unfold ResumeUseCase.EvaluateAndSaveResume
  constructor <;>
  · simp only [record]
    repeat' split
    all_goals
      simp [createdNotifications, hubMessages, createdNotification?, hubMessage?,
        buildEvaluation_trace, List.filterMap_append]

/-- C8: for every resume with detail and evaluation list E that the repository returns
to its owner, and every successful answer of the evaluate service, EvaluateAndSaveResume
makes exactly one repository update, and the resume it hands over has the evaluation list
E followed by one new entry that carries the overall score and the grade of the answer: the
length grows by one and the first entries are E unchanged and in order. -/
theorem EvaluateAndSaveResume_appends (env : Env) (w : World) (resumeID userID : String)
    (resume : Biz.Resume) (detail : Biz.ResumeDetail) (resp : Biz.EvaluateResponse)
    (hget : env.getResume resumeID = .ok (some resume))
    (hown : resume.UserID = userID)
    (hclient : env.parserClientAvailable = true)
    (hdetail : resume.ResumeDetail = some detail)
    (heval : env.evaluateResume userID (some detail) = .ok resp)
    (hsuccess : resp.Success = true) :
    ∃ e : Biz.ResumeEvaluation,
      (ResumeUseCase.EvaluateAndSaveResume env w resumeID userID).2.trace
          = w.trace ++ [Call.RepoGetResume resumeID, Call.EvaluateResume userID (some detail),
              Call.RepoUpdateResume
                { resume with
                  ResumeDetail := some { detail with Evaluations := detail.Evaluations ++ [e] } }]
        ∧ e.OverallScore = resp.OverallScore
        ∧ e.Grade = resp.Grade
        ∧ (detail.Evaluations ++ [e]).length = detail.Evaluations.length + 1
        ∧ (detail.Evaluations ++ [e]).take detail.Evaluations.length = detail.Evaluations
        ∧ (detail.Evaluations ++ [e]).getLast? = some e := by
  subst hown
  refine ⟨(buildEvaluation env
      (record (.EvaluateResume resume.UserID (some detail)) (record (.RepoGetResume resumeID) w))
      resumeID resp).1, ?_, rfl, rfl, by simp, by simp, by simp⟩
  unfold ResumeUseCase.EvaluateAndSaveResume
  simp only [hget, hclient, hdetail, heval, hsuccess]
  simp only [ne_eq, not_true_eq_false, ↓reduceIte, Bool.not_true, Bool.false_eq_true]
  split <;> simp [record, buildEvaluation_trace]

/-- Witness for C8: the scenario resume with one earlier evaluation and the answer 87 / B. -/
theorem EvaluateAndSaveResume_appends_witness :
    scenarioEnv.getResume (idOf 3).Hex = .ok (some scenarioResume)
      ∧ scenarioResume.UserID = (idOf 1).Hex
      ∧ scenarioEnv.parserClientAvailable = true
      ∧ scenarioResume.ResumeDetail = some scenarioDetail
      ∧ scenarioEnv.evaluateResume (idOf 1).Hex (some scenarioDetail) = .ok scenarioResponse
      ∧ scenarioResponse.Success = true
      ∧ ∃ e : Biz.ResumeEvaluation,
          (ResumeUseCase.EvaluateAndSaveResume scenarioEnv scenarioWorld (idOf 3).Hex
              (idOf 1).Hex).2.trace
            = scenarioWorld.trace ++ [Call.RepoGetResume (idOf 3).Hex,
                Call.EvaluateResume (idOf 1).Hex (some scenarioDetail),
                Call.RepoUpdateResume
                  { scenarioResume with
                    ResumeDetail := some { scenarioDetail with
                                           Evaluations := scenarioDetail.Evaluations ++ [e] } }]
          ∧ e.OverallScore = scenarioResponse.OverallScore
          ∧ e.Grade = scenarioResponse.Grade
          ∧ (scenarioDetail.Evaluations ++ [e]).length = scenarioDetail.Evaluations.length + 1
          ∧ (scenarioDetail.Evaluations ++ [e]).take scenarioDetail.Evaluations.length
              = scenarioDetail.Evaluations
          ∧ (scenarioDetail.Evaluations ++ [e]).getLast? = some e :=
  ⟨by decide, by decide, rfl, rfl, rfl, rfl,
    EvaluateAndSaveResume_appends scenarioEnv scenarioWorld (idOf 3).Hex (idOf 1).Hex
      scenarioResume scenarioDetail scenarioResponse (by decide) (by decide) rfl rfl rfl rfl⟩

/-- C7, as stated, fails: when the resume cannot be loaded, EvaluateAndSaveResume returns an
error, the handler returns it, and no notification is created or delivered. -/
theorem evaluate_failure_sends_no_fallback :
    (ResumeUseCase.EvaluateAndSaveResume repoDownEnv scenarioWorld (idOf 3).Hex (idOf 1).Hex).1
        = .err "connection refused"
      ∧ (EvaluateWorker.handleMessage repoDownEnv scenarioWorld evaluateMessage).1
        = .err "connection refused"
      ∧ createdNotifications
          (EvaluateWorker.handleMessage repoDownEnv scenarioWorld evaluateMessage).2.trace = []
      ∧ hubMessages
          (EvaluateWorker.handleMessage repoDownEnv scenarioWorld evaluateMessage).2.trace = [] := by
  decide

/-- C7, amended: whenever the evaluate message decodes and EvaluateAndSaveResume returns an
error, EvaluateWorker.handleMessage returns that error to the consumer right away: the
state is the one EvaluateAndSaveResume left, and no notification has been handed to the
Notification Store or to the Hub. -/
theorem evaluate_error_returns_without_notification (env : Env) (w : World) (msg : Message)
    (evaluateMsg : EvaluateMessage) (e : String)
    (hdecode : env.unmarshalEvaluate msg.Value = .ok evaluateMsg)
    (herr : (ResumeUseCase.EvaluateAndSaveResume env w evaluateMsg.ResumeID
              evaluateMsg.UserID).1 = .err e) :
    EvaluateWorker.handleMessage env w msg
        = (.err e, (ResumeUseCase.EvaluateAndSaveResume env w evaluateMsg.ResumeID
                      evaluateMsg.UserID).2)
      ∧ createdNotifications (EvaluateWorker.handleMessage env w msg).2.trace
          = createdNotifications w.trace
      ∧ hubMessages (EvaluateWorker.handleMessage env w msg).2.trace = hubMessages w.trace := by
  have h : EvaluateWorker.handleMessage env w msg
      = (.err e, (ResumeUseCase.EvaluateAndSaveResume env w evaluateMsg.ResumeID
                    evaluateMsg.UserID).2) := by
    unfold EvaluateWorker.handleMessage
    simp only [hdecode]
    generalize ResumeUseCase.EvaluateAndSaveResume env w evaluateMsg.ResumeID
      evaluateMsg.UserID = r at herr
    obtain ⟨r1, r2⟩ := r
    simp only at herr
    subst herr
    rfl
  have q := EvaluateAndSaveResume_quiet env w evaluateMsg.ResumeID evaluateMsg.UserID
  rw [h]
  exact ⟨rfl, q.1, q.2⟩

/-- Witness for C7, amended: the scenario with the repository down. -/
theorem evaluate_error_returns_without_notification_witness :
    repoDownEnv.unmarshalEvaluate evaluateMessage.Value
        = .ok { ResumeID := (idOf 3).Hex, UserID := (idOf 1).Hex }
      ∧ (ResumeUseCase.EvaluateAndSaveResume repoDownEnv scenarioWorld (idOf 3).Hex
            (idOf 1).Hex).1 = .err "connection refused"
      ∧ (EvaluateWorker.handleMessage repoDownEnv scenarioWorld evaluateMessage
            = (.err "connection refused",
                (ResumeUseCase.EvaluateAndSaveResume repoDownEnv scenarioWorld (idOf 3).Hex
                  (idOf 1).Hex).2)
          ∧ createdNotifications
              (EvaluateWorker.handleMessage repoDownEnv scenarioWorld evaluateMessage).2.trace
              = createdNotifications scenarioWorld.trace
          ∧ hubMessages
              (EvaluateWorker.handleMessage repoDownEnv scenarioWorld evaluateMessage).2.trace
              = hubMessages scenarioWorld.trace) :=
  ⟨by decide, by decide,
    evaluate_error_returns_without_notification repoDownEnv scenarioWorld evaluateMessage
      { ResumeID := (idOf 3).Hex, UserID := (idOf 1).Hex } "connection refused"
      (by decide) (by decide)⟩

/-! ### Job Store and parse stage -/

/-- Decoding the digit of a nibble gives the nibble back. -/
theorem hexVal_hexDigit (n : Fin 16) : hexVal (hexDigit n) = n := by
  revert n; decide

/-- The digit of a nibble is a hexadecimal character. -/
theorem isHexChar_hexDigit (n : Fin 16) : isHexChar (hexDigit n) = true := by
  revert n; decide

/-- Parsing the hexadecimal rendering of an ObjectID gives the ObjectID back. -/
theorem ObjectIDFromHex_Hex (id : ObjectID) : ObjectIDFromHex id.Hex = .ok id := by
  obtain ⟨ns, hl⟩ := id
  have h1 : (ns.map hexDigit).length = 24 := by simp [hl]
  have h2 : (ns.map hexDigit).all isHexChar = true := by
    simp [List.all_eq_true, isHexChar_hexDigit]
  have h3 : (ns.map hexDigit).map hexVal = ns := by
    simp [List.map_map, Function.comp_def, hexVal_hexDigit]
  unfold ObjectIDFromHex ObjectID.Hex
  simp only [h1, h2, and_self, dite_true]
  congr 1
  simp [h3]

/-- A character whose UTF-8 bytes are all hexadecimal digits is a hexadecimal character of
one byte. -/
theorem hexChar_of_hexBytes (c : Char) (h : ∀ b ∈ utf8Bytes c, isHexByte b = true) :
    utf8Bytes c = [c.toNat] ∧ isHexChar c = true := by
  unfold utf8Bytes at h ⊢
  by_cases h1 : c.toNat < 0x80
  · simp only [h1, if_true] at h ⊢
    refine ⟨trivial, ?_⟩
    have hb := h c.toNat (List.mem_singleton.mpr rfl)
    simp only [isHexByte, Bool.or_eq_true, Bool.and_eq_true, decide_eq_true_eq,
      Bool.decide_and] at hb
    simp only [isHexChar, Bool.or_eq_true, Bool.and_eq_true, decide_eq_true_eq,
      Bool.decide_and, Char.le_def, UInt32.le_def]
    simp only [BitVec.le_def]
    exact hb
  · exfalso
    simp only [h1, if_false] at h
    by_cases h2 : c.toNat < 0x800
    · simp only [h2, if_true] at h
      have hb := h _ (List.mem_cons_self _ _)
      simp only [isHexByte, Bool.or_eq_true, Bool.and_eq_true, decide_eq_true_eq,
        Bool.decide_and] at hb
      omega
    · simp only [h2, if_false] at h
      by_cases h3 : c.toNat < 0x10000
      · simp only [h3, if_true] at h
        have hb := h _ (List.mem_cons_self _ _)
        simp only [isHexByte, Bool.or_eq_true, Bool.and_eq_true, decide_eq_true_eq,
          Bool.decide_and] at hb
        omega
      · simp only [h3, if_false] at h
        have hb := h _ (List.mem_cons_self _ _)
        simp only [isHexByte, Bool.or_eq_true, Bool.and_eq_true, decide_eq_true_eq,
          Bool.decide_and] at hb
        omega

/-- Characters whose UTF-8 bytes are all hexadecimal digits have one byte each and are
hexadecimal characters. -/
theorem hexChars_of_hexBytes : ∀ cs : List Char,
    (∀ b ∈ cs.flatMap utf8Bytes, isHexByte b = true) →
      (cs.flatMap utf8Bytes).length = cs.length ∧ cs.all isHexChar = true
  | [], _ => by simp
  | c :: rest, h => by
    have hc := hexChar_of_hexBytes c (fun b hb => h b (by
      rw [List.flatMap_cons]; exact List.mem_append_left _ hb))
    have hr := hexChars_of_hexBytes rest (fun b hb => h b (by
      rw [List.flatMap_cons]; exact List.mem_append_right _ hb))
    rw [List.flatMap_cons, List.length_append, hc.1, hr.1]
    refine ⟨by simp; omega, ?_⟩
    simp only [List.all_cons, hc.2, hr.2, Bool.and_self]

/-- The three outcomes of ObjectIDFromHex: an ObjectID, ErrInvalidHex for a string that is
not 24 bytes long, and for a string of 24 bytes the error naming its first byte that is no
hexadecimal digit. -/
theorem ObjectIDFromHex_outcomes (s : String) :
    (∃ id, ObjectIDFromHex s = .ok id)
      ∨ ((s.data.flatMap utf8Bytes).length ≠ 24 ∧ ObjectIDFromHex s = .error ErrInvalidHex)
      ∨ ((s.data.flatMap utf8Bytes).length = 24
          ∧ ∃ b, (s.data.flatMap utf8Bytes).find? (fun b => !isHexByte b) = some b
            ∧ ObjectIDFromHex s = .error (InvalidByteError b)) := by
  unfold ObjectIDFromHex
  by_cases h : s.data.length = 24 ∧ s.data.all isHexChar = true
  · left; rw [dif_pos h]; exact ⟨_, rfl⟩
  · right
    rw [dif_neg h]
    by_cases hl : (s.data.flatMap utf8Bytes).length ≠ 24
    · left; rw [if_pos hl]; exact ⟨hl, rfl⟩
    · right
      rw [if_neg hl]
      have hl2 : (s.data.flatMap utf8Bytes).length = 24 := not_not.mp hl
      refine ⟨hl2, ?_⟩
      cases hf : (s.data.flatMap utf8Bytes).find? (fun b => !isHexByte b) with
      | some b => exact ⟨b, rfl, rfl⟩
      | none =>
        exfalso
        have hall : ∀ b ∈ s.data.flatMap utf8Bytes, isHexByte b = true := by
          intro b hb
          have := List.find?_eq_none.mp hf b hb
          simpa using this
        have := hexChars_of_hexBytes s.data hall
        exact h ⟨by rw [← this.1]; exact hl2, this.2⟩

/-- The rendering of an ObjectID is never the empty string. -/
theorem Hex_ne_empty (id : ObjectID) : id.Hex ≠ "" := by
  intro h
  have hl : id.Hex.data.length = 24 := by simp [ObjectID.Hex, id.len]
  rw [h] at hl
  simp at hl

/-- Looking a document up after UpdateOne with the same filter: the update has been
applied to the document found, provided the update keeps the filter's verdict. -/
theorem find?_updateOne {α : Type} (p : α → Bool) (f : α → α) (hp : ∀ x, p (f x) = p x)
    (l : List α) : (updateOne p f l).find? p = (l.find? p).map f := by
  induction l with
  | nil => rfl
  | cons x xs ih =>
    by_cases hx : p x = true
    · simp [updateOne, hx, hp]
    · simp [updateOne, hx, ih]

/-- The status update keeps the id of a job. -/
theorem statusUpdate_ID (status : ResumeParseStatus) (t : Time) (errorMsg resumeID : String)
    (j : ResumeParseJob) : (statusUpdate status t errorMsg resumeID j).ID = j.ID := by
  unfold statusUpdate
  repeat' split
  all_goals rfl

/-- The status update writes the status it is given. -/
theorem statusUpdate_Status (status : ResumeParseStatus) (t : Time) (errorMsg resumeID : String)
    (j : ResumeParseJob) : (statusUpdate status t errorMsg resumeID j).Status = status := by
  unfold statusUpdate
  repeat' split
  all_goals rfl

/-- Looking a job up by id after a status update on that id: the job found before, with
the update applied. -/
theorem find?_statusUpdate (jobID : ObjectID) (status : ResumeParseStatus) (t : Time)
    (errorMsg resumeID : String) (jobs : List ResumeParseJob) :
    (updateOne (fun j => j.ID == jobID) (statusUpdate status t errorMsg resumeID) jobs).find?
        (fun j => j.ID == jobID)
      = (jobs.find? (fun j => j.ID == jobID)).map (statusUpdate status t errorMsg resumeID) :=
  find?_updateOne _ _ (fun x => by simp [statusUpdate_ID]) _

/-- The status update with the rendering of an id as result reference writes that id. -/
theorem statusUpdate_ResumeID (status : ResumeParseStatus) (t : Time) (errorMsg : String)
    (id : ObjectID) (j : ResumeParseJob) :
    (statusUpdate status t errorMsg id.Hex j).ResumeID = id := by
  unfold statusUpdate
  simp only [ne_eq, Hex_ne_empty, not_false_eq_true, ↓reduceIte, ObjectIDFromHex_Hex]

/-- Looking a job up by id after its payload was cleared. -/
theorem find?_clearUpdate (jobID : ObjectID) (t : Time) (jobs : List ResumeParseJob) :
    (updateOne (fun j => j.ID == jobID) (clearUpdate t) jobs).find? (fun j => j.ID == jobID)
      = (jobs.find? (fun j => j.ID == jobID)).map (clearUpdate t) :=
  find?_updateOne (fun j => j.ID == jobID) (clearUpdate t) (fun _ => rfl) jobs

/-- The status update writes a non-empty error message. -/
theorem statusUpdate_ErrorMessage (status : ResumeParseStatus) (t : Time)
    (errorMsg resumeID : String) (j : ResumeParseJob) (h : errorMsg ≠ "") :
    (statusUpdate status t errorMsg resumeID j).ErrorMessage = errorMsg := by
  unfold statusUpdate
  simp only [h, ne_eq, not_false_eq_true, ↓reduceIte]
  repeat' split
  all_goals rfl

/-- The status update keeps the payload and the file name of a job. -/
theorem statusUpdate_File (status : ResumeParseStatus) (t : Time) (errorMsg resumeID : String)
    (j : ResumeParseJob) :
    (statusUpdate status t errorMsg resumeID j).FileData = j.FileData
      ∧ (statusUpdate status t errorMsg resumeID j).FileName = j.FileName := by
  unfold statusUpdate
  repeat' split
  all_goals exact ⟨rfl, rfl⟩

/-- A string that starts with a non-empty string is not empty. -/
theorem append_ne_empty (a b : String) (ha : a.data ≠ []) : a ++ b ≠ "" := by
  intro h
  have hd : (a ++ b).data = [] := by rw [h]
  rw [String.data_append] at hd
  exact ha (List.append_eq_nil.mp hd).1

/-- Every error text of sendToParserService is a fixed non-empty opening followed by the
detail, so it is never empty. -/
theorem sendToParserService_error_ne_empty (o : ParserOutcome) (e : String)
    (h : ResumeWorker.sendToParserService o = .error e) : e ≠ "" := by
  cases o with
  | decoded r =>
    by_cases hs : r.Success = true
    · simp [ResumeWorker.sendToParserService, hs] at h
    · simp only [ResumeWorker.sendToParserService, hs, Bool.not_false, ↓reduceIte,
        Except.error.injEq] at h
      subst h
      exact append_ne_empty _ _ (by decide)
  | _ x =>
    simp only [ResumeWorker.sendToParserService, Except.error.injEq] at h
    subst h
    exact append_ne_empty _ _ (by decide)

/-- What handleJobFailure does, for a job id that parses: its three calls, no producer
call, broker and users untouched; a job stored under the id stays stored, gets status
failed and (for a non-empty text) that error message when the store accepts the status
update, and gets an empty payload when the store accepts ClearFileData. -/
theorem handleJobFailure_spec (env : Env) (w : World) (jobID userID errorMsg : String)
    (objID : ObjectID) (job : ResumeParseJob)
    (hid : ObjectIDFromHex jobID = .ok objID)
    (hjob : w.jobs.find? (fun j => j.ID == objID) = some job) :
    (ResumeWorker.handleJobFailure env w jobID userID errorMsg).trace
        = w.trace ++
          [Call.JobUpdateStatus jobID .Failed errorMsg "",
           Call.JobClearFileData jobID,
           Call.HubSendJobStatus userID
             { JobID := jobID, Status := "failed", ErrorMessage := errorMsg,
               ResumeID := "", CVData := none }]
      ∧ (ResumeWorker.handleJobFailure env w jobID userID errorMsg).broker = w.broker
      ∧ (ResumeWorker.handleJobFailure env w jobID userID errorMsg).users = w.users
      ∧ ∃ j, (ResumeWorker.handleJobFailure env w jobID userID errorMsg).jobs.find?
                (fun j => j.ID == objID) = some j
          ∧ (env.dbErr (.JobUpdateStatus jobID .Failed errorMsg "") = none →
              j.Status = .Failed ∧ (errorMsg ≠ "" → j.ErrorMessage = errorMsg))
          ∧ (env.dbErr (.JobClearFileData jobID) = none → j.FileData = []) := by
  unfold ResumeWorker.handleJobFailure
  simp only [ResumeParseJobRepo.UpdateStatus, ResumeParseJobRepo.ClearFileData, hid, record,
    timeNow]
  cases h2 : env.dbErr (.JobUpdateStatus jobID .Failed errorMsg "") <;>
  cases h3 : env.dbErr (.JobClearFileData jobID) <;>
  simp only [find?_statusUpdate, find?_clearUpdate, hjob, Option.map_some'] <;>
  refine ⟨by simp [ResumeParseStatus.toString], trivial, trivial, _, rfl, ?_, ?_⟩ <;>
  intro h <;>
  first
    | (cases h <;> done)
    | exact ⟨by simp [clearUpdate, statusUpdate_Status],
        fun hne => by simp [clearUpdate, statusUpdate_ErrorMessage _ _ _ _ _ hne]⟩
    | simp [clearUpdate]

/-- The run of handleMessage up to a failing parse call: the handler returns the error and
hands over to handleJobFailure in a state that has the four calls made so far, the same
broker and users, and the job still stored. -/
theorem handleMessage_parse_error (env : Env) (w : World) (msg : Message)
    (parseMsg : ResumeParseMessage) (jobID : ObjectID) (job : ResumeParseJob) (e : String)
    (hdecode : env.unmarshalParse msg.Value = .ok parseMsg)
    (hid : ObjectIDFromHex parseMsg.JobID = .ok jobID)
    (hget : env.dbErr (.JobGetByID parseMsg.JobID) = none)
    (hjob : w.jobs.find? (fun j => j.ID == jobID) = some job)
    (hparse : ResumeWorker.sendToParserService (env.parser job.FileData job.FileName)
                = .error e) :
    ∃ w4 : World,
      ResumeWorker.handleMessage env w msg
          = (some e, ResumeWorker.handleJobFailure env w4 parseMsg.JobID parseMsg.UserID e)
        ∧ w4.trace = w.trace ++
            [Call.JobUpdateStatus parseMsg.JobID .Processing "" "",
             Call.HubSendJobStatus parseMsg.UserID
               { JobID := parseMsg.JobID, Status := "processing", ErrorMessage := "",
                 ResumeID := "", CVData := none },
             Call.JobGetByID parseMsg.JobID,
             Call.ParserService job.FileData job.FileName]
        ∧ w4.broker = w.broker
        ∧ w4.users = w.users
        ∧ ∃ j4, w4.jobs.find? (fun j => j.ID == jobID) = some j4 := by
  unfold ResumeWorker.handleMessage
  simp only [hdecode, ResumeParseJobRepo.UpdateStatus, ResumeParseJobRepo.GetByID, hid, hget,
    record, timeNow]
  cases h1 : env.dbErr (.JobUpdateStatus parseMsg.JobID .Processing "" "") <;>
  simp only [find?_statusUpdate, hjob, Option.map_some', statusUpdate_File, hparse] <;>
  refine ⟨_, rfl, by simp [ResumeParseStatus.toString], rfl, rfl, ?_⟩
  · exact ⟨statusUpdate .Processing (env.clock w.ticks) "" "" job,
      by simp only [find?_statusUpdate, hjob, Option.map_some']⟩
  · exact ⟨_, hjob⟩

/-- C4: when the upload message decodes, the job is fetched, and sendToParserService
returns the error e, ResumeWorker.handleMessage returns e, which is not empty; its calls are
exactly: processing update, processing event, job fetch, parse call, UpdateStatus with
status failed and error message e, ClearFileData, failed event carrying e; nothing is handed
to the producer and the broker is unchanged; and when the store accepts the failed update,
the stored job has status failed and error message e. -/
theorem parse_error_marks_job_failed (env : Env) (w : World) (msg : Message)
    (parseMsg : ResumeParseMessage) (jobID : ObjectID) (job : ResumeParseJob) (e : String)
    (hdecode : env.unmarshalParse msg.Value = .ok parseMsg)
    (hid : ObjectIDFromHex parseMsg.JobID = .ok jobID)
    (hget : env.dbErr (.JobGetByID parseMsg.JobID) = none)
    (hjob : w.jobs.find? (fun j => j.ID == jobID) = some job)
    (hparse : ResumeWorker.sendToParserService (env.parser job.FileData job.FileName)
                = .error e) :
    (ResumeWorker.handleMessage env w msg).1 = some e
      ∧ e ≠ ""
      ∧ (ResumeWorker.handleMessage env w msg).2.trace
          = w.trace ++
            [Call.JobUpdateStatus parseMsg.JobID .Processing "" "",
             Call.HubSendJobStatus parseMsg.UserID
               { JobID := parseMsg.JobID, Status := "processing", ErrorMessage := "",
                 ResumeID := "", CVData := none },
             Call.JobGetByID parseMsg.JobID,
             Call.ParserService job.FileData job.FileName,
             Call.JobUpdateStatus parseMsg.JobID .Failed e "",
             Call.JobClearFileData parseMsg.JobID,
             Call.HubSendJobStatus parseMsg.UserID
               { JobID := parseMsg.JobID, Status := "failed", ErrorMessage := e,
                 ResumeID := "", CVData := none }]
      ∧ sentMessages (ResumeWorker.handleMessage env w msg).2.trace = sentMessages w.trace
      ∧ (ResumeWorker.handleMessage env w msg).2.broker = w.broker
      ∧ (env.dbErr (.JobUpdateStatus parseMsg.JobID .Failed e "") = none →
          ∃ j, (ResumeWorker.handleMessage env w msg).2.jobs.find? (fun j => j.ID == jobID)
                  = some j
            ∧ j.Status = .Failed ∧ j.ErrorMessage = e) := by
  have hne := sendToParserService_error_ne_empty _ _ hparse
  obtain ⟨w4, hrun, htrace, hbroker, _, j4, hj4⟩ :=
    handleMessage_parse_error env w msg parseMsg jobID job e hdecode hid hget hjob hparse
  obtain ⟨ft, fb, _, j, hj, hstatus, _⟩ :=
    handleJobFailure_spec env w4 parseMsg.JobID parseMsg.UserID e jobID j4 hid hj4
  rw [hrun]
  refine ⟨rfl, hne, ?_, ?_, ?_, ?_⟩
  · simp [ft, htrace]
  · simp [ft, htrace, sentMessages, List.filterMap_append]
  · simp [fb, hbroker]
  · intro hok
    exact ⟨j, hj, (hstatus hok).1, (hstatus hok).2 hne⟩

/-- Witness for C4: the uploaded job of the scenario, handled while the parse service is
unreachable. -/
theorem parse_error_marks_job_failed_witness :
    parserDownEnv.unmarshalParse uploadMessage.Value = .ok scenarioParseMessage
      ∧ ObjectIDFromHex scenarioParseMessage.JobID = .ok (idOf 2)
      ∧ parserDownEnv.dbErr (.JobGetByID scenarioParseMessage.JobID) = none
      ∧ worldUploaded.jobs.find? (fun j => j.ID == idOf 2) = some pendingJob
      ∧ ResumeWorker.sendToParserService
          (parserDownEnv.parser pendingJob.FileData pendingJob.FileName)
          = .error "failed to send request: connection refused"
      ∧ ((ResumeWorker.handleMessage parserDownEnv worldUploaded uploadMessage).1
            = some "failed to send request: connection refused"
        ∧ "failed to send request: connection refused" ≠ ""
        ∧ (ResumeWorker.handleMessage parserDownEnv worldUploaded uploadMessage).2.trace
            = worldUploaded.trace ++
              [Call.JobUpdateStatus scenarioParseMessage.JobID .Processing "" "",
               Call.HubSendJobStatus scenarioParseMessage.UserID
                 { JobID := scenarioParseMessage.JobID, Status := "processing",
                   ErrorMessage := "", ResumeID := "", CVData := none },
               Call.JobGetByID scenarioParseMessage.JobID,
               Call.ParserService pendingJob.FileData pendingJob.FileName,
               Call.JobUpdateStatus scenarioParseMessage.JobID .Failed
                 "failed to send request: connection refused" "",
               Call.JobClearFileData scenarioParseMessage.JobID,
               Call.HubSendJobStatus scenarioParseMessage.UserID
                 { JobID := scenarioParseMessage.JobID, Status := "failed",
                   ErrorMessage := "failed to send request: connection refused",
                   ResumeID := "", CVData := none }]
        ∧ sentMessages (ResumeWorker.handleMessage parserDownEnv worldUploaded uploadMessage).2.trace
            = sentMessages worldUploaded.trace
        ∧ (ResumeWorker.handleMessage parserDownEnv worldUploaded uploadMessage).2.broker
            = worldUploaded.broker
        ∧ (parserDownEnv.dbErr (.JobUpdateStatus scenarioParseMessage.JobID .Failed
              "failed to send request: connection refused" "") = none →
            ∃ j, (ResumeWorker.handleMessage parserDownEnv worldUploaded uploadMessage).2.jobs.find?
                    (fun j => j.ID == idOf 2) = some j
              ∧ j.Status = .Failed
              ∧ j.ErrorMessage = "failed to send request: connection refused")) :=
  ⟨by decide, by decide, rfl, by decide, by decide,
    parse_error_marks_job_failed parserDownEnv worldUploaded uploadMessage scenarioParseMessage
      (idOf 2) pendingJob "failed to send request: connection refused"
      (by decide) (by decide) rfl (by decide) (by decide)⟩

/-- Closed form of UpdateStatus for an id that parses. -/
theorem UpdateStatus_eq (env : Env) (objID : ObjectID) (id : String)
    (hid : ObjectIDFromHex id = .ok objID) (w : World) (status : ResumeParseStatus)
    (errorMsg resumeID : String) :
    ResumeParseJobRepo.UpdateStatus env w id status errorMsg resumeID
      = (env.dbErr (.JobUpdateStatus id status errorMsg resumeID),
          { jobs := match env.dbErr (.JobUpdateStatus id status errorMsg resumeID) with
                    | none => updateOne (fun j => j.ID == objID)
                                (statusUpdate status (env.clock w.ticks) errorMsg resumeID) w.jobs
                    | some _ => w.jobs
            users := w.users, broker := w.broker,
            trace := w.trace ++ [Call.JobUpdateStatus id status errorMsg resumeID],
            ticks := w.ticks + 1, ids := w.ids }) := by
  simp only [ResumeParseJobRepo.UpdateStatus, hid, record, timeNow]
  cases env.dbErr (.JobUpdateStatus id status errorMsg resumeID) <;> rfl

/-- Closed form of ClearFileData for an id that parses. -/
theorem ClearFileData_eq (env : Env) (objID : ObjectID) (id : String)
    (hid : ObjectIDFromHex id = .ok objID) (w : World) :
    ResumeParseJobRepo.ClearFileData env w id
      = (env.dbErr (.JobClearFileData id),
          { jobs := match env.dbErr (.JobClearFileData id) with
                    | none => updateOne (fun j => j.ID == objID)
                                (clearUpdate (env.clock w.ticks)) w.jobs
                    | some _ => w.jobs
            users := w.users, broker := w.broker,
            trace := w.trace ++ [Call.JobClearFileData id],
            ticks := w.ticks + 1, ids := w.ids }) := by
  simp only [ResumeParseJobRepo.ClearFileData, hid, record, timeNow]
  cases env.dbErr (.JobClearFileData id) <;> rfl

/-- Closed form of GetByID for an id that parses, when the driver does not fail. -/
theorem GetByID_eq (env : Env) (objID : ObjectID) (id : String)
    (hid : ObjectIDFromHex id = .ok objID) (hget : env.dbErr (.JobGetByID id) = none)
    (w : World) :
    ResumeParseJobRepo.GetByID env w id
      = (.ok (w.jobs.find? (fun j => j.ID == objID)),
          { w with trace := w.trace ++ [Call.JobGetByID id] }) := by
  simp only [ResumeParseJobRepo.GetByID, hid, hget, record]

/-- The calls Producer.SendMessage makes on the writer: one WriteMessages when the value
marshals, none otherwise. -/
theorem SendMessage_eq (env : Env) (w : World) (topic key : String) (value : SendValue) :
    (Producer.SendMessage env w topic key value).2
      = { w with
          trace := w.trace ++ [Call.SendMessage topic key value] ++
            (match env.marshal value with
             | .ok bytes => [Call.WriteMessages { Topic := topic, Key := key, Value := bytes }]
             | .error _ => []),
          broker := w.broker ++
            (match env.marshal value with
             | .ok bytes =>
               (match env.writeErr { Topic := topic, Key := key, Value := bytes } with
                | none => [{ Topic := topic, Key := key, Value := bytes }]
                | some _ => [])
             | .error _ => []) } := by
  simp only [Producer.SendMessage, record]
  cases env.marshal value with
  | error e => simp
  | ok bytes =>
    cases h : env.writeErr { Topic := topic, Key := key, Value := bytes } <;> simp [h]

/-- Closed form of saveResumeToUser when the user id parses, the user exists and the
driver does not fail. -/
theorem saveResumeToUser_eq (env : Env) (w : World) (userID : String) (resume : Data.Resume)
    (userObjID : ObjectID) (user : Data.User)
    (huid : ObjectIDFromHex userID = .ok userObjID)
    (hfind : env.dbErr (.UserFindOne userObjID) = none)
    (huser : w.users.find? (fun u => u.ID == userObjID) = some user)
    (hpush : env.dbErr (.UserPushResume userObjID resume) = none) :
    ResumeWorker.saveResumeToUser env w userID resume
      = (.ok resume.ID.Hex,
          { jobs := w.jobs,
            users := updateOne (fun u => u.ID == userObjID)
              (fun u => { u with Resume := u.Resume ++ [resume],
                                 UpdatedAt := env.clock w.ticks }) w.users,
            broker := w.broker,
            trace := w.trace ++ [Call.UserFindOne userObjID,
                                 Call.UserPushResume userObjID resume],
            ticks := w.ticks + 1, ids := w.ids }) := by
  simp [ResumeWorker.saveResumeToUser, huid, hfind, huser, hpush, record, timeNow]


/-- C5: when the upload message decodes, the job is fetched, the parse call succeeds and
the converted resume is stored on the user under the fresh id whose rendering is D, then
ResumeWorker.handleMessage returns nil; it issues UpdateStatus with status completed and
result reference D; it hands exactly one message to the producer, on the topic evaluate,
with key D and the value with resume_id D and user_id the user id of the upload message;
when the store accepts the completed update the stored job has status completed and result
reference D; and when the producer can marshal and write, the broker gains exactly that
message. -/
theorem parse_success_completes_and_chains (env : Env) (w : World) (msg : Message)
    (parseMsg : ResumeParseMessage) (jobID : ObjectID) (job : ResumeParseJob)
    (parserResp : ParserResponse) (userObjID : ObjectID) (user : Data.User)
    (resume : Data.Resume)
    (hdecode : env.unmarshalParse msg.Value = .ok parseMsg)
    (hid : ObjectIDFromHex parseMsg.JobID = .ok jobID)
    (hget : env.dbErr (.JobGetByID parseMsg.JobID) = none)
    (hjob : w.jobs.find? (fun j => j.ID == jobID) = some job)
    (hparse : ResumeWorker.sendToParserService (env.parser job.FileData job.FileName)
                = .ok parserResp)
    (hresume : resume
        = (ResumeWorker.convertToDataResume env { w with ticks := w.ticks + 1 } parserResp).1)
    (huid : ObjectIDFromHex parseMsg.UserID = .ok userObjID)
    (hfind : env.dbErr (.UserFindOne userObjID) = none)
    (huser : w.users.find? (fun u => u.ID == userObjID) = some user)
    (hpush : env.dbErr (.UserPushResume userObjID resume) = none) :
    resume.ID = env.newObjectID w.ids
      ∧ (ResumeWorker.handleMessage env w msg).1 = none
      ∧ (ResumeWorker.handleMessage env w msg).2.users.find? (fun u => u.ID == userObjID)
          = some { user with Resume := user.Resume ++ [resume],
                             UpdatedAt := env.clock (w.ticks + 2) }
      ∧ statusWrites parseMsg.JobID (ResumeWorker.handleMessage env w msg).2.trace
          = statusWrites parseMsg.JobID w.trace ++ [.Processing, .Completed]
      ∧ Call.JobUpdateStatus parseMsg.JobID .Completed "" resume.ID.Hex
          ∈ (ResumeWorker.handleMessage env w msg).2.trace
      ∧ sentMessages (ResumeWorker.handleMessage env w msg).2.trace
          = sentMessages w.trace ++
              [("evaluate", resume.ID.Hex,
                SendValue.object [("resume_id", resume.ID.Hex), ("user_id", parseMsg.UserID)])]
      ∧ (env.dbErr (.JobUpdateStatus parseMsg.JobID .Completed "" resume.ID.Hex) = none →
          ∃ j, (ResumeWorker.handleMessage env w msg).2.jobs.find? (fun j => j.ID == jobID)
                  = some j
            ∧ j.Status = .Completed ∧ j.ResumeID = resume.ID)
      ∧ (∀ bytes : String,
          env.marshal (.object [("resume_id", resume.ID.Hex), ("user_id", parseMsg.UserID)])
              = .ok bytes →
          env.writeErr { Topic := "evaluate", Key := resume.ID.Hex, Value := bytes } = none →
          (ResumeWorker.handleMessage env w msg).2.broker
            = w.broker ++ [{ Topic := "evaluate", Key := resume.ID.Hex, Value := bytes }]) := by
  have hrid : resume.ID = env.newObjectID w.ids := by
    rw [hresume]; rfl
  have hconv : ∀ w1 : World, w1.ticks = w.ticks + 1 → w1.ids = w.ids →
      ResumeWorker.convertToDataResume env w1 parserResp
        = (resume, { w1 with ticks := w1.ticks + 1, ids := w1.ids + 1 }) := by
    intro w1 ht hi
    rw [hresume]
    simp [ResumeWorker.convertToDataResume, NewObjectID, timeNow, ht, hi]
  unfold ResumeWorker.handleMessage
  cases h1 : env.dbErr (.JobUpdateStatus parseMsg.JobID .Processing "" "") <;>
  simp only [hdecode, UpdateStatus_eq env jobID parseMsg.JobID hid,
    GetByID_eq env jobID parseMsg.JobID hid hget,
    ClearFileData_eq env jobID parseMsg.JobID hid, record, h1,
    find?_statusUpdate, hjob, Option.map_some', statusUpdate_File, hparse, hconv] <;>
  simp only [saveResumeToUser_eq env _ parseMsg.UserID resume userObjID user huid hfind,
    huser, hpush, SendMessage_eq] <;>
  (refine ⟨hrid, trivial, ?_, ?_, ?_, ?_, ?_, ?_⟩
   · refine (find?_updateOne _ _ ?_ _).trans ?_
     · intro x; rfl
     · rw [huser]; simp [Nat.add_assoc]
   · cases env.marshal (.object [("resume_id", resume.ID.Hex), ("user_id", parseMsg.UserID)]) <;>
       simp [statusWrites, statusWrite?, List.filterMap_append]
   · simp
   · cases env.marshal (.object [("resume_id", resume.ID.Hex), ("user_id", parseMsg.UserID)]) <;>
       simp [sentMessages, List.filterMap_append]
   · intro h2
     cases h3 : env.dbErr (.JobClearFileData parseMsg.JobID) <;>
       simp only [h2, find?_statusUpdate, find?_clearUpdate, hjob, Option.map_some'] <;>
       exact ⟨_, rfl, by simp [clearUpdate, statusUpdate_Status],
         by simp [clearUpdate, statusUpdate_ResumeID]⟩
   · intro bytes hm hw
     simp [hm, hw])

/-- Witness for C5: the uploaded job of the scenario, handled with every collaborator
answering. -/
theorem parse_success_completes_and_chains_witness :
    scenarioEnv.unmarshalParse uploadMessage.Value = .ok scenarioParseMessage
      ∧ ObjectIDFromHex scenarioParseMessage.JobID = .ok (idOf 2)
      ∧ scenarioEnv.dbErr (.JobGetByID scenarioParseMessage.JobID) = none
      ∧ worldUploaded.jobs.find? (fun j => j.ID == idOf 2) = some pendingJob
      ∧ ResumeWorker.sendToParserService
          (scenarioEnv.parser pendingJob.FileData pendingJob.FileName)
          = .ok scenarioParserResponse
      ∧ ObjectIDFromHex scenarioParseMessage.UserID = .ok (idOf 1)
      ∧ scenarioEnv.dbErr (.UserFindOne (idOf 1)) = none
      ∧ worldUploaded.users.find? (fun u => u.ID == idOf 1) = some scenarioUser
      ∧ scenarioEnv.dbErr (.UserPushResume (idOf 1) scenarioStoredResume) = none
      ∧ (
        scenarioStoredResume.ID = scenarioEnv.newObjectID worldUploaded.ids
          ∧ (ResumeWorker.handleMessage scenarioEnv worldUploaded uploadMessage).1 = none
          ∧ (ResumeWorker.handleMessage scenarioEnv worldUploaded uploadMessage).2.users.find? (fun u => u.ID == idOf 1)
              = some { scenarioUser with
                       Resume := scenarioUser.Resume ++ [scenarioStoredResume],
                       UpdatedAt := scenarioEnv.clock (worldUploaded.ticks + 2) }
          ∧ statusWrites scenarioParseMessage.JobID (ResumeWorker.handleMessage scenarioEnv worldUploaded uploadMessage).2.trace
              = statusWrites scenarioParseMessage.JobID worldUploaded.trace ++ [.Processing, .Completed]
          ∧ Call.JobUpdateStatus scenarioParseMessage.JobID .Completed "" scenarioStoredResume.ID.Hex
              ∈ (ResumeWorker.handleMessage scenarioEnv worldUploaded uploadMessage).2.trace
          ∧ sentMessages (ResumeWorker.handleMessage scenarioEnv worldUploaded uploadMessage).2.trace
              = sentMessages worldUploaded.trace ++
                  [("evaluate", scenarioStoredResume.ID.Hex,
                    SendValue.object [("resume_id", scenarioStoredResume.ID.Hex), ("user_id", scenarioParseMessage.UserID)])]
          ∧ (scenarioEnv.dbErr (.JobUpdateStatus scenarioParseMessage.JobID .Completed "" scenarioStoredResume.ID.Hex) = none →
              ∃ j, (ResumeWorker.handleMessage scenarioEnv worldUploaded uploadMessage).2.jobs.find? (fun j => j.ID == idOf 2)
                      = some j
                ∧ j.Status = .Completed ∧ j.ResumeID = scenarioStoredResume.ID)
          ∧ (∀ bytes : String,
              scenarioEnv.marshal (.object [("resume_id", scenarioStoredResume.ID.Hex), ("user_id", scenarioParseMessage.UserID)])
                  = .ok bytes →
              scenarioEnv.writeErr { Topic := "evaluate", Key := scenarioStoredResume.ID.Hex, Value := bytes } = none →
              (ResumeWorker.handleMessage scenarioEnv worldUploaded uploadMessage).2.broker
                = worldUploaded.broker ++ [{ Topic := "evaluate", Key := scenarioStoredResume.ID.Hex, Value := bytes }])) :=
  ⟨by decide, by decide, rfl, by decide, by decide, by decide, rfl, by decide, rfl,
    parse_success_completes_and_chains scenarioEnv worldUploaded uploadMessage
      scenarioParseMessage (idOf 2) pendingJob scenarioParserResponse (idOf 1) scenarioUser
      scenarioStoredResume (by decide) (by decide) rfl (by decide) (by decide) rfl (by decide)
      rfl (by decide) rfl⟩

/-- UpdateStatus adds exactly its own call to the trace, whatever its outcome. -/
theorem UpdateStatus_trace (env : Env) (w : World) (id : String) (status : ResumeParseStatus)
    (errorMsg resumeID : String) :
    (ResumeParseJobRepo.UpdateStatus env w id status errorMsg resumeID).2.trace
      = w.trace ++ [Call.JobUpdateStatus id status errorMsg resumeID] := by
  simp only [ResumeParseJobRepo.UpdateStatus, record, timeNow]
  repeat' split
  all_goals rfl

/-- ClearFileData adds exactly its own call to the trace, whatever its outcome. -/
theorem ClearFileData_trace (env : Env) (w : World) (id : String) :
    (ResumeParseJobRepo.ClearFileData env w id).2.trace
      = w.trace ++ [Call.JobClearFileData id] := by
  simp only [ResumeParseJobRepo.ClearFileData, record, timeNow]
  repeat' split
  all_goals rfl

/-- GetByID adds exactly its own call to the trace, whatever its outcome. -/
theorem GetByID_trace (env : Env) (w : World) (id : String) :
    (ResumeParseJobRepo.GetByID env w id).2.trace = w.trace ++ [Call.JobGetByID id] := by
  simp only [ResumeParseJobRepo.GetByID, record]
  repeat' split
  all_goals rfl

/-- The calls of handleJobFailure, whatever the store answers. -/
theorem handleJobFailure_trace (env : Env) (w : World) (jobID userID errorMsg : String) :
    (ResumeWorker.handleJobFailure env w jobID userID errorMsg).trace
      = w.trace ++
        [Call.JobUpdateStatus jobID .Failed errorMsg "",
         Call.JobClearFileData jobID,
         Call.HubSendJobStatus userID
           { JobID := jobID, Status := "failed", ErrorMessage := errorMsg,
             ResumeID := "", CVData := none }] := by
  simp [ResumeWorker.handleJobFailure, record, ClearFileData_trace, UpdateStatus_trace,
    ResumeParseStatus.toString]

/-- The conversion to a stored resume only draws an id and a clock reading. -/
theorem convertToDataResume_trace (env : Env) (w : World) (parserResp : ParserResponse) :
    (ResumeWorker.convertToDataResume env w parserResp).2.trace = w.trace := rfl

/-- The calls of saveResumeToUser are user-collection calls only: no Hub delivery, no
status write, no producer call. -/
theorem saveResumeToUser_trace (env : Env) (w : World) (userID : String)
    (resume : Data.Resume) :
    ∃ mid : List Call,
      (ResumeWorker.saveResumeToUser env w userID resume).2.trace = w.trace ++ mid
        ∧ hubMessages mid = [] ∧ (∀ id, statusWrites id mid = []) ∧ sentMessages mid = [] := by
  cases h0 : ObjectIDFromHex userID with
  | error e =>
    exact ⟨[], by simp [ResumeWorker.saveResumeToUser, h0], rfl, fun _ => rfl, rfl⟩
  | ok uid =>
    cases h1 : env.dbErr (.UserFindOne uid) with
    | some e =>
      exact ⟨[Call.UserFindOne uid],
        by simp [ResumeWorker.saveResumeToUser, h0, h1, record], rfl, fun _ => rfl, rfl⟩
    | none =>
      cases h2 : w.users.find? (fun u => u.ID == uid) with
      | none =>
        exact ⟨[Call.UserFindOne uid],
          by simp [ResumeWorker.saveResumeToUser, h0, h1, h2, record], rfl, fun _ => rfl, rfl⟩
      | some u =>
        refine ⟨[Call.UserFindOne uid, Call.UserPushResume uid resume], ?_, rfl,
          fun _ => rfl, rfl⟩
        cases h3 : env.dbErr (.UserPushResume uid resume) <;>
          simp [ResumeWorker.saveResumeToUser, h0, h1, h2, h3, record, timeNow]

/-- The calls of Producer.SendMessage are producer calls only: no Hub delivery, no status
write, and exactly one SendMessage. -/
theorem SendMessage_trace (env : Env) (w : World) (topic key : String) (value : SendValue) :
    ∃ tail : List Call,
      (Producer.SendMessage env w topic key value).2.trace = w.trace ++ tail
        ∧ hubMessages tail = [] ∧ (∀ id, statusWrites id tail = [])
        ∧ sentMessages tail = [(topic, key, value)] := by
  rw [SendMessage_eq]
  cases env.marshal value with
  | error e => exact ⟨[Call.SendMessage topic key value], by simp, rfl, fun _ => rfl, rfl⟩
  | ok bytes =>
    exact ⟨[Call.SendMessage topic key value,
        Call.WriteMessages { Topic := topic, Key := key, Value := bytes }],
      by simp, rfl, fun _ => rfl, rfl⟩

/-- The calls of ResumeWorker.handleMessage on a message that decodes, on every path: the
processing update and event, the job fetch, then calls that write no status and deliver
nothing (parse service, user collection), one UpdateStatus with a terminal status, one
ClearFileData, the producer calls (none on the failure paths), and one closing event that
carries the terminal status. -/
theorem handleMessage_calls (env : Env) (w : World) (msg : Message)
    (parseMsg : ResumeParseMessage) (hdecode : env.unmarshalParse msg.Value = .ok parseMsg) :
    ∃ (mid tail : List Call) (status : ResumeParseStatus) (errorMsg resumeID : String)
      (cv : Option CVData),
      (ResumeWorker.handleMessage env w msg).2.trace
          = w.trace ++
            ([Call.JobUpdateStatus parseMsg.JobID .Processing "" "",
              Call.HubSendJobStatus parseMsg.UserID
                { JobID := parseMsg.JobID, Status := "processing", ErrorMessage := "",
                  ResumeID := "", CVData := none },
              Call.JobGetByID parseMsg.JobID] ++ mid ++
             [Call.JobUpdateStatus parseMsg.JobID status errorMsg resumeID,
              Call.JobClearFileData parseMsg.JobID] ++ tail ++
             [Call.HubSendJobStatus parseMsg.UserID
                { JobID := parseMsg.JobID, Status := status.toString, ErrorMessage := errorMsg,
                  ResumeID := resumeID, CVData := cv }])
        ∧ (status = .Completed ∨ status = .Failed)
        ∧ hubMessages mid = [] ∧ hubMessages tail = []
        ∧ (∀ id, statusWrites id mid = []) ∧ (∀ id, statusWrites id tail = [])
        ∧ sentMessages mid = [] := by
  unfold ResumeWorker.handleMessage
  simp only [hdecode]
  rcases h1 : ResumeParseJobRepo.UpdateStatus env w parseMsg.JobID .Processing "" ""
    with ⟨e1, w1⟩
  have t1 : w1.trace = w.trace ++ [Call.JobUpdateStatus parseMsg.JobID .Processing "" ""] := by
    have := UpdateStatus_trace env w parseMsg.JobID .Processing "" ""
    rwa [h1] at this
  simp only []
  rcases h2 : ResumeParseJobRepo.GetByID env
      (record (.HubSendJobStatus parseMsg.UserID
        { JobID := parseMsg.JobID, Status := ResumeParseStatus.Processing.toString,
          ErrorMessage := "", ResumeID := "", CVData := none }) w1) parseMsg.JobID
    with ⟨got, w2⟩
  have t2 : w2.trace = w.trace ++
      [Call.JobUpdateStatus parseMsg.JobID .Processing "" "",
       Call.HubSendJobStatus parseMsg.UserID
         { JobID := parseMsg.JobID, Status := "processing", ErrorMessage := "",
           ResumeID := "", CVData := none },
       Call.JobGetByID parseMsg.JobID] := by
    have := GetByID_trace env (record (.HubSendJobStatus parseMsg.UserID
        { JobID := parseMsg.JobID, Status := ResumeParseStatus.Processing.toString,
          ErrorMessage := "", ResumeID := "", CVData := none }) w1) parseMsg.JobID
    rw [h2] at this
    simp only [] at this
    rw [this]
    simp [record, t1, ResumeParseStatus.toString]
  rcases got with e | _ | job
  · refine ⟨[], [], .Failed, "Job not found", "", none, ?_, Or.inr rfl, rfl, rfl,
      fun _ => rfl, fun _ => rfl, rfl⟩
    simp [handleJobFailure_trace, t2, ResumeParseStatus.toString]
  · refine ⟨[], [], .Failed, "Job not found", "", none, ?_, Or.inr rfl, rfl, rfl,
      fun _ => rfl, fun _ => rfl, rfl⟩
    simp [handleJobFailure_trace, t2, ResumeParseStatus.toString]
  · simp only []
    cases hp : ResumeWorker.sendToParserService (env.parser job.FileData job.FileName) with
    | error e =>
      refine ⟨[Call.ParserService job.FileData job.FileName], [], .Failed, e, "", none, ?_,
        Or.inr rfl, rfl, rfl, fun _ => rfl, fun _ => rfl, rfl⟩
      simp [handleJobFailure_trace, record, t2, ResumeParseStatus.toString]
    | ok parserResp =>
      simp only []
      rcases h3 : ResumeWorker.convertToDataResume env
          (record (.ParserService job.FileData job.FileName) w2) parserResp with ⟨resume, w3⟩
      have t3 : w3.trace = w2.trace ++ [Call.ParserService job.FileData job.FileName] := by
        have := convertToDataResume_trace env
          (record (.ParserService job.FileData job.FileName) w2) parserResp
        rw [h3] at this
        simpa [record] using this
      simp only []
      obtain ⟨mid, hmid, q1, q2, q3⟩ := saveResumeToUser_trace env w3 parseMsg.UserID resume
      have qh : hubMessages (Call.ParserService job.FileData job.FileName :: mid) = [] := by
        simpa [hubMessages, hubMessage?] using q1
      have qs : ∀ id, statusWrites id (Call.ParserService job.FileData job.FileName :: mid)
          = [] := by
        intro id
        simpa [statusWrites, statusWrite?] using q2 id
      have qm : sentMessages (Call.ParserService job.FileData job.FileName :: mid) = [] := by
        simpa [sentMessages] using q3
      rcases h4 : ResumeWorker.saveResumeToUser env w3 parseMsg.UserID resume with ⟨saved, w4⟩
      rw [h4] at hmid
      simp only [] at hmid
      simp only []
      cases saved with
      | error e =>
        refine ⟨Call.ParserService job.FileData job.FileName :: mid, [], .Failed, e, "", none,
          ?_, Or.inr rfl, qh, rfl, qs, fun _ => rfl, qm⟩
        simp [handleJobFailure_trace, hmid, t3, t2, ResumeParseStatus.toString]
      | ok resumeID =>
        simp only []
        rcases h5 : ResumeParseJobRepo.UpdateStatus env w4 parseMsg.JobID .Completed "" resumeID
          with ⟨e5, w5⟩
        have t5 : w5.trace
            = w4.trace ++ [Call.JobUpdateStatus parseMsg.JobID .Completed "" resumeID] := by
          have := UpdateStatus_trace env w4 parseMsg.JobID .Completed "" resumeID
          rwa [h5] at this
        simp only []
        rcases h6 : ResumeParseJobRepo.ClearFileData env w5 parseMsg.JobID with ⟨e6, w6⟩
        have t6 : w6.trace = w5.trace ++ [Call.JobClearFileData parseMsg.JobID] := by
          have := ClearFileData_trace env w5 parseMsg.JobID
          rwa [h6] at this
        simp only []
        obtain ⟨tail, htail, r1, r2, _⟩ := SendMessage_trace env w6 "evaluate" resumeID
          (.object [("resume_id", resumeID), ("user_id", parseMsg.UserID)])
        rcases h7 : Producer.SendMessage env w6 "evaluate" resumeID
          (.object [("resume_id", resumeID), ("user_id", parseMsg.UserID)]) with ⟨e7, w7⟩
        rw [h7] at htail
        simp only [] at htail
        refine ⟨Call.ParserService job.FileData job.FileName :: mid, tail, .Completed, "",
          resumeID, some parserResp.CVData, ?_, Or.inl rfl, qh, r1, qs, r2, qm⟩
        simp [record, htail, t6, t5, hmid, t3, t2, ResumeParseStatus.toString]

/-- The status writes of a concatenated trace. -/
theorem statusWrites_append (id : String) (a b : List Call) :
    statusWrites id (a ++ b) = statusWrites id a ++ statusWrites id b := by
  simp [statusWrites]

/-- The Hub deliveries of a concatenated trace. -/
theorem hubMessages_append (a b : List Call) :
    hubMessages (a ++ b) = hubMessages a ++ hubMessages b := by
  simp [hubMessages]

/-- When Producer.SendMessage returns an error, nothing was written to the broker. -/
theorem SendMessage_error_broker (env : Env) (w : World) (topic key : String)
    (value : SendValue) (e : String)
    (h : (Producer.SendMessage env w topic key value).1 = some e) :
    (Producer.SendMessage env w topic key value).2.broker = w.broker := by
  rw [SendMessage_eq]
  cases hm : env.marshal value with
  | error e1 => simp
  | ok bytes =>
    cases hw : env.writeErr { Topic := topic, Key := key, Value := bytes } with
    | some e2 => simp [hw]
    | none => simp [Producer.SendMessage, hm, hw] at h

/-- UpdateStatus does not touch the broker. -/
theorem UpdateStatus_broker (env : Env) (w : World) (id : String) (status : ResumeParseStatus)
    (errorMsg resumeID : String) :
    (ResumeParseJobRepo.UpdateStatus env w id status errorMsg resumeID).2.broker
      = w.broker := by
  simp only [ResumeParseJobRepo.UpdateStatus, record, timeNow]
  repeat' split
  all_goals rfl

/-- Create adds exactly its own call, with a job that has the status it was given. -/
theorem Create_trace (env : Env) (w : World) (job : ResumeParseJob) :
    ∃ created : ResumeParseJob,
      (ResumeParseJobRepo.Create env w job).2.trace = w.trace ++ [Call.JobCreate created]
        ∧ created.Status = job.Status
        ∧ (ResumeParseJobRepo.Create env w job).2.broker = w.broker
        ∧ ∀ j, (ResumeParseJobRepo.Create env w job).1 = .ok j → j = created := by
  simp only [ResumeParseJobRepo.Create, NewObjectID, timeNow, record]
  split
  · exact ⟨_, rfl, rfl, rfl, fun j h => by cases h⟩
  · exact ⟨_, rfl, rfl, rfl, fun j h => by cases h; rfl⟩

/-- The status writes of the ingestion handler for any job id: none, or the creation with
status pending, or the creation followed by failed, and in this last case nothing was written
to the broker. -/
theorem upload_status_writes (env : Env) (topic : String) (w : World) (r : UploadRequest)
    (id : String) :
    ∃ d : List ResumeParseStatus,
      statusWrites id (UploadHandler.HandleUploadResumeAsync env topic w r).2.trace
          = statusWrites id w.trace ++ d
        ∧ (d = [] ∨ d = [.Pending]
            ∨ (d = [.Pending, .Failed]
                ∧ (UploadHandler.HandleUploadResumeAsync env topic w r).2.broker = w.broker)) := by
  unfold UploadHandler.HandleUploadResumeAsync
  simp only []
  split
  · exact ⟨[], by simp, Or.inl rfl⟩
  split
  · exact ⟨[], by simp, Or.inl rfl⟩
  · exact ⟨[], by simp, Or.inl rfl⟩
  split
  · exact ⟨[], by simp, Or.inl rfl⟩
  split
  · exact ⟨[], by simp, Or.inl rfl⟩
  split
  · exact ⟨[], by simp, Or.inl rfl⟩
  split
  · exact ⟨[], by simp, Or.inl rfl⟩
  split
  · exact ⟨[], by simp [record, statusWrites, statusWrite?], Or.inl rfl⟩
  split
  · exact ⟨[], by simp [record, statusWrites, statusWrite?], Or.inl rfl⟩
  split
  · exact ⟨[], by simp [record, statusWrites, statusWrite?], Or.inl rfl⟩
  rename_i userID _ _ _ _ header _ _ _ userObjID _ _ _ _ _ _ _ fileData _
  obtain ⟨created, tC, sC, bC, okC⟩ := Create_trace env (record (.UserFindOne userObjID) w)
    { ID := NilObjectID, UserID := userObjID, FileName := header.Filename,
      FileData := fileData, Status := .Pending, ErrorMessage := "",
      ResumeID := NilObjectID, CreatedAt := 0, UpdatedAt := 0 }
  rcases hC : ResumeParseJobRepo.Create env (record (.UserFindOne userObjID) w)
    { ID := NilObjectID, UserID := userObjID, FileName := header.Filename,
      FileData := fileData, Status := .Pending, ErrorMessage := "",
      ResumeID := NilObjectID, CreatedAt := 0, UpdatedAt := 0 } with ⟨res, wC⟩
  rw [hC] at tC bC okC
  simp only [] at tC bC okC sC
  simp only []
  have hcreate : ∃ dC, statusWrites id wC.trace = statusWrites id w.trace ++ dC
      ∧ (dC = [] ∨ dC = [.Pending]) := by
    by_cases hid : created.ID.Hex = id
    · exact ⟨[.Pending], by simp [tC, record, statusWrites, statusWrite?, hid, sC], Or.inr rfl⟩
    · exact ⟨[], by simp [tC, record, statusWrites, statusWrite?, hid], Or.inl rfl⟩
  obtain ⟨dC, hdC, hdC2⟩ := hcreate
  cases res with
  | error e =>
    refine ⟨dC, hdC, ?_⟩
    rcases hdC2 with h | h
    · exact Or.inl h
    · exact Or.inr (Or.inl h)
  | ok createdJob =>
    have hcj := okC createdJob rfl
    subst hcj
    simp only []
    obtain ⟨tail, htail, _, r2, _⟩ := SendMessage_trace env wC topic createdJob.ID.Hex
      (.parseMessage { JobID := createdJob.ID.Hex, UserID := userID,
                       FileName := header.Filename })
    have hb := SendMessage_error_broker env wC topic createdJob.ID.Hex
      (.parseMessage { JobID := createdJob.ID.Hex, UserID := userID,
                       FileName := header.Filename })
    rcases hS : Producer.SendMessage env wC topic createdJob.ID.Hex
      (.parseMessage { JobID := createdJob.ID.Hex, UserID := userID,
                       FileName := header.Filename }) with ⟨sent, wS⟩
    rw [hS] at htail hb
    simp only [] at htail hb
    have hwS : statusWrites id wS.trace = statusWrites id w.trace ++ dC := by
      rw [htail, statusWrites_append, r2 id, hdC]
      simp
    cases sent with
    | none =>
      refine ⟨dC, hwS, ?_⟩
      rcases hdC2 with h | h
      · exact Or.inl h
      · exact Or.inr (Or.inl h)
    | some e =>
      simp only []
      have hbroker : (ResumeParseJobRepo.UpdateStatus env wS createdJob.ID.Hex .Failed
          "Failed to queue job" "").2.broker = w.broker := by
        rw [UpdateStatus_broker, hb e rfl, bC]
        rfl
      by_cases hid : createdJob.ID.Hex = id
      · refine ⟨[.Pending, .Failed], ?_, Or.inr (Or.inr ⟨rfl, hbroker⟩)⟩
        have hC2 : statusWrites id wC.trace = statusWrites id w.trace ++ [.Pending] := by
          simp [tC, record, statusWrites, statusWrite?, hid, sC]
        rw [UpdateStatus_trace, htail, statusWrites_append, statusWrites_append, r2 id, hC2]
        simp [statusWrites, statusWrite?, hid]
      · refine ⟨[], ?_, Or.inl rfl⟩
        have hC2 : statusWrites id wC.trace = statusWrites id w.trace := by
          simp [tC, record, statusWrites, statusWrite?, hid]
        rw [UpdateStatus_trace, htail, statusWrites_append, statusWrites_append, r2 id, hC2]
        simp [statusWrites, statusWrite?, hid]

/-- The status writes of one handling of a message by the parse handler, for any job id:
none, or processing followed by exactly one terminal status. -/
theorem handleMessage_status_writes (env : Env) (w : World) (msg : Message) (id : String) :
    ∃ d : List ResumeParseStatus,
      statusWrites id (ResumeWorker.handleMessage env w msg).2.trace
          = statusWrites id w.trace ++ d
        ∧ (d = [] ∨ d = [.Processing, .Completed] ∨ d = [.Processing, .Failed]) := by
  cases hdecode : env.unmarshalParse msg.Value with
  | error e =>
    exact ⟨[], by simp [ResumeWorker.handleMessage, hdecode], Or.inl rfl⟩
  | ok parseMsg =>
    obtain ⟨mid, tail, status, errorMsg, resumeID, cv, htrace, hstatus, _, _, q1, q2, _⟩ :=
      handleMessage_calls env w msg parseMsg hdecode
    rw [htrace]
    simp only [statusWrites_append, q1 id, q2 id, List.append_nil]
    by_cases hid : parseMsg.JobID = id
    · refine ⟨[.Processing, status], by simp [statusWrites, statusWrite?, hid], ?_⟩
      rcases hstatus with h | h <;> simp [h]
    · exact ⟨[], by simp [statusWrites, statusWrite?, hid], Or.inl rfl⟩

/-- C2, as stated, fails, in two ways. In the scenario the upload message is handled twice
(the broker delivers at least once): after the first handling the job is completed, the
second handling writes processing and then failed over it, and the status writes of the job
are pending, processing, completed, processing, failed. And when the write of the upload
message reports an error the ingestion handler marks the job failed; one handling of that
message (a write that reached the broker although it reported an error) then writes
processing and completed over failed: pending, failed, processing, completed. Neither is a
legal history. -/
theorem redelivery_rewrites_terminal_status :
    worldParsed.jobs.map (fun j => j.Status) = [.Completed]
      ∧ worldParsedTwice.jobs.map (fun j => j.Status) = [.Failed]
      ∧ statusWrites (idOf 2).Hex worldParsedTwice.trace
          = [.Pending, .Processing, .Completed, .Processing, .Failed]
      ∧ ¬ legalHistory (statusWrites (idOf 2).Hex worldParsedTwice.trace)
      ∧ worldQueueFailed.jobs.map (fun j => j.Status) = [.Failed]
      ∧ (ResumeWorker.handleMessage scenarioEnv worldQueueFailed uploadMessage).2.jobs.map
          (fun j => j.Status) = [.Completed]
      ∧ statusWrites (idOf 2).Hex
          (ResumeWorker.handleMessage scenarioEnv worldQueueFailed uploadMessage).2.trace
          = [.Pending, .Failed, .Processing, .Completed]
      ∧ ¬ legalHistory (statusWrites (idOf 2).Hex
          (ResumeWorker.handleMessage scenarioEnv worldQueueFailed uploadMessage).2.trace) := by
  decide

/-- C2, amended: for every job id, the status writes of the ingestion handler followed by
those of one handling of a message by the parse handler. The ingestion handler writes
nothing, or pending (the creation), or pending then failed; one handling writes nothing, or
processing then exactly one of completed and failed. Their concatenation is a subsequence of
pending, processing, completed or of pending, processing, failed exactly when it is not the
case that the ingestion handler wrote failed and the handling wrote a status after it; each
part is such a subsequence on its own. -/
theorem status_history_single_handling (envU envH : Env) (topic : String) (w : World)
    (r : UploadRequest) (msg : Message) (id : String) :
    ∃ dU dH : List ResumeParseStatus,
      statusWrites id (UploadHandler.HandleUploadResumeAsync envU topic w r).2.trace
          = statusWrites id w.trace ++ dU
        ∧ statusWrites id
            (ResumeWorker.handleMessage envH
              (UploadHandler.HandleUploadResumeAsync envU topic w r).2 msg).2.trace
          = statusWrites id w.trace ++ dU ++ dH
        ∧ (dU = [] ∨ dU = [.Pending] ∨ dU = [.Pending, .Failed])
        ∧ (dH = [] ∨ dH = [.Processing, .Completed] ∨ dH = [.Processing, .Failed])
        ∧ (legalHistory (dU ++ dH) ↔ ¬ (dU = [.Pending, .Failed] ∧ dH ≠ []))
        ∧ legalHistory dU
        ∧ legalHistory (.Pending :: dH) := by
  obtain ⟨dU, hU, cU⟩ := upload_status_writes envU topic w r id
  obtain ⟨dH, hH, cH⟩ := handleMessage_status_writes envH
    (UploadHandler.HandleUploadResumeAsync envU topic w r).2 msg id
  have cU2 : dU = [] ∨ dU = [.Pending] ∨ dU = [.Pending, .Failed] := by
    rcases cU with h | h | ⟨h, _⟩
    · exact Or.inl h
    · exact Or.inr (Or.inl h)
    · exact Or.inr (Or.inr h)
  refine ⟨dU, dH, hU, by rw [hH, hU], cU2, cH, ?_, ?_, ?_⟩
  · rcases cU2 with h | h | h <;> rcases cH with g | g | g <;> subst h <;> subst g <;> decide
  · rcases cU2 with h | h | h <;> subst h <;> decide
  · rcases cH with g | g | g <;> subst g <;> decide

/-- C3, the failing input: the scenario upload with a broker that refuses the write. The
ingestion handler answers 500 and marks the job failed, and the job still holds its two
payload bytes: ClearFileData is not called on this path. -/
theorem upload_enqueue_failure_keeps_payload :
    (UploadHandler.HandleUploadResumeAsync brokerDownEnv "resume" scenarioWorld
        scenarioRequest).1 = .error "Failed to queue resume parsing job" 500
      ∧ (UploadHandler.HandleUploadResumeAsync brokerDownEnv "resume" scenarioWorld
          scenarioRequest).2.jobs.map (fun j => (j.Status, j.FileData))
          = [(.Failed, [37, 80])]
      ∧ Call.JobClearFileData (idOf 2).Hex
          ∉ (UploadHandler.HandleUploadResumeAsync brokerDownEnv "resume" scenarioWorld
              scenarioRequest).2.trace := by
  decide

/-- C6, as stated, fails: in the scenario the handled upload ends completed, and the parse
handler made two Hub deliveries to the user, both of type job_status; none is of type
notification. -/
theorem parse_stage_sends_no_notification :
    worldParsed.jobs.map (fun j => j.Status) = [.Completed]
      ∧ (hubMessages worldParsed.trace).map (fun m => (m.1, m.2.Type_))
          = [((idOf 1).Hex, "job_status"), ((idOf 1).Hex, "job_status")]
      ∧ ((hubMessages worldParsed.trace).filter
            (fun m => m.2.Type_ = WSMessageTypeNotification)).length ≠ 1 := by
  decide

/-- C6, amended: for every upload message that decodes, whatever path the handling takes,
ResumeWorker.handleMessage makes exactly two Hub deliveries, both to the user of the
message and both of type job_status, never of type notification: first the processing
event, then exactly one event that carries the terminal status (completed or failed) of
the job. -/
theorem parse_stage_delivers_job_status (env : Env) (w : World) (msg : Message)
    (parseMsg : ResumeParseMessage) (hdecode : env.unmarshalParse msg.Value = .ok parseMsg) :
    ∃ (status : ResumeParseStatus) (errorMsg resumeID : String) (cv : Option CVData),
      hubMessages (ResumeWorker.handleMessage env w msg).2.trace
          = hubMessages w.trace ++
            [(parseMsg.UserID,
              { Type_ := WSMessageTypeJobStatus,
                Payload := .jobStatus
                  { JobID := parseMsg.JobID, Status := "processing", ErrorMessage := "",
                    ResumeID := "", CVData := none } }),
             (parseMsg.UserID,
              { Type_ := WSMessageTypeJobStatus,
                Payload := .jobStatus
                  { JobID := parseMsg.JobID, Status := status.toString,
                    ErrorMessage := errorMsg, ResumeID := resumeID, CVData := cv } })]
        ∧ (status = .Completed ∨ status = .Failed)
        ∧ WSMessageTypeJobStatus ≠ WSMessageTypeNotification := by
  obtain ⟨mid, tail, status, errorMsg, resumeID, cv, htrace, hstatus, q1, q2, _, _, _⟩ :=
    handleMessage_calls env w msg parseMsg hdecode
  refine ⟨status, errorMsg, resumeID, cv, ?_, hstatus, by decide⟩
  rw [htrace]
  simp only [hubMessages_append, q1, q2, List.append_nil]
  simp [hubMessages, hubMessage?, jobStatusMessage]

/-- Witness for C6, amended: the uploaded job of the scenario, handled once. -/
theorem parse_stage_delivers_job_status_witness :
    scenarioEnv.unmarshalParse uploadMessage.Value = .ok scenarioParseMessage
      ∧ ∃ (status : ResumeParseStatus) (errorMsg resumeID : String) (cv : Option CVData),
          hubMessages (ResumeWorker.handleMessage scenarioEnv worldUploaded uploadMessage).2.trace
              = hubMessages worldUploaded.trace ++
                [(scenarioParseMessage.UserID,
                  { Type_ := WSMessageTypeJobStatus,
                    Payload := .jobStatus
                      { JobID := scenarioParseMessage.JobID, Status := "processing",
                        ErrorMessage := "", ResumeID := "", CVData := none } }),
                 (scenarioParseMessage.UserID,
                  { Type_ := WSMessageTypeJobStatus,
                    Payload := .jobStatus
                      { JobID := scenarioParseMessage.JobID, Status := status.toString,
                        ErrorMessage := errorMsg, ResumeID := resumeID, CVData := cv } })]
            ∧ (status = .Completed ∨ status = .Failed)
            ∧ WSMessageTypeJobStatus ≠ WSMessageTypeNotification :=
  ⟨by decide,
    parse_stage_delivers_job_status scenarioEnv worldUploaded uploadMessage
      scenarioParseMessage (by decide)⟩

/-! ### Dispatch adapter, producer, malformed messages -/

/-- C13: for every user id and every biz.NotificationMessage m, HubAdapter.SendNotification
is exactly one Hub delivery: the SendToUser call for that user with the envelope of type
notification whose payload has the id, title, content, type, object id and created-at of
m. -/
theorem HubAdapter_delivers_notification (enc : WSMessage → Except String String) (h : Hub)
    (userID : String) (m : Biz.NotificationMessage) :
    HubAdapter.SendNotification enc h userID (.message m)
        = Hub.SendToUser enc h userID
            { Type_ := "notification",
              Payload := .notice
                { ID := m.ID, Title := m.Title, Content := m.Content, Type_ := m.Type_,
                  ObjectID := m.ObjectID, CreatedAt := m.CreatedAt } } := by
  rfl

/-- C17: Producer.SendMessage returns an error exactly when marshalling the value fails or
the value marshals and WriteMessages fails; when marshalling fails its only call is the
SendMessage call itself (no WriteMessages) and the broker is unchanged; when it returns nil
the value marshalled to some bytes, exactly one WriteMessages was made, and the broker
gained exactly the message with the given topic, the given key and those bytes. -/
theorem SendMessage_error_iff (env : Env) (w : World) (topic key : String)
    (value : SendValue) :
    ((Producer.SendMessage env w topic key value).1 ≠ none
        ↔ ((∃ e, env.marshal value = .error e)
            ∨ ∃ bytes e, env.marshal value = .ok bytes
                ∧ env.writeErr { Topic := topic, Key := key, Value := bytes } = some e))
      ∧ (∀ e, env.marshal value = .error e →
          (Producer.SendMessage env w topic key value).2.trace
              = w.trace ++ [Call.SendMessage topic key value]
            ∧ (Producer.SendMessage env w topic key value).2.broker = w.broker)
      ∧ ((Producer.SendMessage env w topic key value).1 = none →
          ∃ bytes, env.marshal value = .ok bytes
            ∧ (Producer.SendMessage env w topic key value).2.trace
                = w.trace ++ [Call.SendMessage topic key value,
                    Call.WriteMessages { Topic := topic, Key := key, Value := bytes }]
            ∧ (Producer.SendMessage env w topic key value).2.broker
                = w.broker ++ [{ Topic := topic, Key := key, Value := bytes }]) := by
  cases hm : env.marshal value with
  | error e => simp [Producer.SendMessage, hm, record]
  | ok bytes =>
    cases hw : env.writeErr { Topic := topic, Key := key, Value := bytes } with
    | some e => simp [Producer.SendMessage, hm, hw, record]
    | none => simp [Producer.SendMessage, hm, hw, record]

/-- C20: a message whose value does not decode as an upload message makes
ResumeWorker.handleMessage return the decode error with the state untouched: no Job Store
call, no parse call, no producer call, no Hub delivery; and a message whose value does not
decode as an evaluate message makes EvaluateWorker.handleMessage return the decode error
with the state untouched. -/
theorem undecodable_message_is_dropped (env : Env) (w : World) (msgP msgE : Message)
    (eP eE : String)
    (hP : env.unmarshalParse msgP.Value = .error eP)
    (hE : env.unmarshalEvaluate msgE.Value = .error eE) :
    ResumeWorker.handleMessage env w msgP = (some eP, w)
      ∧ EvaluateWorker.handleMessage env w msgE = (.err eE, w) := by
  constructor
  · simp [ResumeWorker.handleMessage, hP]
  · simp [EvaluateWorker.handleMessage, hE]

/-- Witness for C20: a message with the value garbage, in the scenario. -/
theorem undecodable_message_is_dropped_witness :
    scenarioEnv.unmarshalParse garbageMessage.Value = .error "invalid character"
      ∧ scenarioEnv.unmarshalEvaluate garbageMessage.Value = .error "invalid character"
      ∧ (ResumeWorker.handleMessage scenarioEnv worldUploaded garbageMessage
            = (some "invalid character", worldUploaded)
          ∧ EvaluateWorker.handleMessage scenarioEnv worldUploaded garbageMessage
            = (.err "invalid character", worldUploaded)) :=
  ⟨by decide, by decide,
    undecodable_message_is_dropped scenarioEnv worldUploaded garbageMessage garbageMessage
      "invalid character" "invalid character" (by decide) (by decide)⟩

/-! ### Ingestion handler and job status query -/

/-- C15: when HandleUploadResumeAsync accepts an upload (a token that validates to a user
id, a PDF file part that can be read, an existing user, a store that accepts the insert, a
value that marshals and a broker that accepts the write), the store gains exactly one job,
with status pending and the uploaded bytes; exactly one producer call is made, to the topic
of the handler, with the hex id of the new job as key and the value made of that job id, the
user id and the file name, and the broker gains exactly that message; the answer is 202 with
that job id and status pending. -/
theorem upload_accepted (env : Env) (topic : String) (w : World) (r : UploadRequest)
    (userID : String) (header : FilePart) (userObjID : ObjectID) (user : Data.User)
    (fileData : List Nat) (job : ResumeParseJob) (bytes : String)
    (htoken : extractToken r.Authorization ≠ "")
    (hvalid : env.validateAccessToken (extractToken r.Authorization) = .ok (some userID))
    (hform : r.multipartErr = none)
    (hfile : r.formFile = .ok header)
    (hpdf : header.ContentType = "application/pdf")
    (huid : ObjectIDFromHex userID = .ok userObjID)
    (hfind : env.dbErr (.UserFindOne userObjID) = none)
    (huser : w.users.find? (fun u => u.ID == userObjID) = some user)
    (hread : header.read = .ok fileData)
    (hjob : job = { ID := env.newObjectID w.ids, UserID := userObjID,
                    FileName := header.Filename, FileData := fileData, Status := .Pending,
                    ErrorMessage := "", ResumeID := NilObjectID,
                    CreatedAt := env.clock w.ticks, UpdatedAt := env.clock (w.ticks + 1) })
    (hcreate : env.dbErr (.JobCreate job) = none)
    (hmarshal : env.marshal (.parseMessage
        { JobID := job.ID.Hex, UserID := userID, FileName := job.FileName }) = .ok bytes)
    (hwrite : env.writeErr { Topic := topic, Key := job.ID.Hex, Value := bytes } = none) :
    UploadHandler.HandleUploadResumeAsync env topic w r
      = (.accepted 202
          { success := true,
            message := "Resume upload accepted. Processing will be done asynchronously.",
            job_id := job.ID.Hex, status := "pending" },
         { jobs := w.jobs ++ [job],
           users := w.users,
           broker := w.broker ++ [{ Topic := topic, Key := job.ID.Hex, Value := bytes }],
           trace := w.trace ++
             [Call.UserFindOne userObjID,
              Call.JobCreate job,
              Call.SendMessage topic job.ID.Hex
                (.parseMessage { JobID := job.ID.Hex, UserID := userID,
                                 FileName := job.FileName }),
              Call.WriteMessages { Topic := topic, Key := job.ID.Hex, Value := bytes }],
           ticks := w.ticks + 2,
           ids := w.ids + 1 }) := by
  subst hjob
  simp only [] at hcreate hmarshal hwrite
  simp [UploadHandler.HandleUploadResumeAsync, htoken, hvalid, hform, hfile, hpdf, huid, hfind,
    huser, hread, hcreate, hmarshal, hwrite, ResumeParseJobRepo.Create, Producer.SendMessage,
    record, NewObjectID, timeNow, ResumeParseStatus.toString]

/-- Witness for C15: the upload of the scenario creates the pending job 22..2 holding the
two uploaded bytes and enqueues one message keyed by its id. -/
theorem upload_accepted_witness :
    extractToken scenarioRequest.Authorization ≠ ""
      ∧ scenarioEnv.validateAccessToken (extractToken scenarioRequest.Authorization)
          = .ok (some (idOf 1).Hex)
      ∧ scenarioWorld.users.find? (fun u => u.ID == idOf 1) = some scenarioUser
      ∧ UploadHandler.HandleUploadResumeAsync scenarioEnv "resume" scenarioWorld scenarioRequest
          = (.accepted 202
              { success := true,
                message := "Resume upload accepted. Processing will be done asynchronously.",
                job_id := pendingJob.ID.Hex, status := "pending" },
             { jobs := scenarioWorld.jobs ++ [pendingJob],
               users := scenarioWorld.users,
               broker := scenarioWorld.broker
                 ++ [{ Topic := "resume", Key := pendingJob.ID.Hex, Value := "json" }],
               trace := scenarioWorld.trace ++
                 [Call.UserFindOne (idOf 1),
                  Call.JobCreate pendingJob,
                  Call.SendMessage "resume" pendingJob.ID.Hex
                    (.parseMessage { JobID := pendingJob.ID.Hex, UserID := (idOf 1).Hex,
                                     FileName := pendingJob.FileName }),
                  Call.WriteMessages
                    { Topic := "resume", Key := pendingJob.ID.Hex, Value := "json" }],
               ticks := scenarioWorld.ticks + 2,
               ids := scenarioWorld.ids + 1 }) :=
  ⟨by decide, by decide, by decide,
    upload_accepted scenarioEnv "resume" scenarioWorld scenarioRequest (idOf 1).Hex
      { Filename := "cv.pdf", ContentType := "application/pdf", read := .ok [37, 80] }
      (idOf 1) scenarioUser [37, 80] pendingJob "json"
      (by decide) (by decide) rfl rfl rfl (ObjectIDFromHex_Hex _) rfl (by decide) rfl
      (by decide) rfl rfl rfl⟩

/-- C14, as stated, fails: for the authenticated scenario user and the non-empty job id J1,
which no stored job has, HandleGetJobStatus answers 500 (Failed to get job), not 404: the id
is not a hexadecimal ObjectID and GetByID returns the conversion error. -/
theorem job_status_malformed_id_is_not_404 :
    extractToken malformedStatusRequest.Authorization ≠ ""
      ∧ scenarioEnv.validateAccessToken (extractToken malformedStatusRequest.Authorization)
          = .ok (some (idOf 1).Hex)
      ∧ malformedStatusRequest.job_id ≠ ""
      ∧ (∀ j ∈ worldUploaded.jobs, j.ID.Hex ≠ malformedStatusRequest.job_id)
      ∧ (UploadHandler.HandleGetJobStatus scenarioEnv worldUploaded malformedStatusRequest).1
          = .error "Failed to get job" 500 := by
  decide

/-- C14, amended: for an authenticated caller and a non-empty job id, HandleGetJobStatus
answers 500 when the id is not a hexadecimal ObjectID or the store read fails; when the id
is one and the read succeeds it answers 404 if no job has that id, 403 if the job found is
owned by another user, and otherwise 200 with job_id, status, file_name, created_at and
updated_at of the job, plus error_message exactly when the error of the job is not empty
and resume_id exactly when its resume id is not the zero id. -/
theorem job_status_answers (env : Env) (w : World) (r : JobStatusRequest) (caller : String)
    (htoken : extractToken r.Authorization ≠ "")
    (hvalid : env.validateAccessToken (extractToken r.Authorization) = .ok (some caller))
    (hne : r.job_id ≠ "") :
    (∀ e, ObjectIDFromHex r.job_id = .error e →
        (UploadHandler.HandleGetJobStatus env w r).1 = .error "Failed to get job" 500)
      ∧ (∀ e, env.dbErr (.JobGetByID r.job_id) = some e →
        (UploadHandler.HandleGetJobStatus env w r).1 = .error "Failed to get job" 500)
      ∧ (∀ objID, ObjectIDFromHex r.job_id = .ok objID →
          env.dbErr (.JobGetByID r.job_id) = none →
          ((∀ j ∈ w.jobs, j.ID ≠ objID) →
            (UploadHandler.HandleGetJobStatus env w r).1 = .error "Job not found" 404)
          ∧ (∀ job, w.jobs.find? (fun j => j.ID == objID) = some job →
              (job.UserID.Hex ≠ caller →
                (UploadHandler.HandleGetJobStatus env w r).1 = .error "Forbidden" 403)
              ∧ (job.UserID.Hex = caller →
                (UploadHandler.HandleGetJobStatus env w r).1
                  = .ok 200
                      { job_id := job.ID.Hex, status := job.Status.toString,
                        file_name := job.FileName, created_at := job.CreatedAt,
                        updated_at := job.UpdatedAt,
                        error_message :=
                          if job.ErrorMessage ≠ "" then some job.ErrorMessage else none,
                        resume_id :=
                          if job.ResumeID ≠ NilObjectID then some job.ResumeID.Hex
                          else none }))) := by
  refine ⟨?_, ?_, ?_⟩
  · intro e he
    simp [UploadHandler.HandleGetJobStatus, htoken, hvalid, hne, ResumeParseJobRepo.GetByID, he]
  · intro e he
    cases hid : ObjectIDFromHex r.job_id <;>
      simp [UploadHandler.HandleGetJobStatus, htoken, hvalid, hne, ResumeParseJobRepo.GetByID,
        he, hid]
  · intro objID hid hget
    refine ⟨?_, ?_⟩
    · intro hnone
      have hfind : w.jobs.find? (fun j => j.ID == objID) = none := by
        simpa using hnone
      simp [UploadHandler.HandleGetJobStatus, htoken, hvalid, hne,
        GetByID_eq env objID _ hid hget, hfind]
    · intro job hfind
      constructor
      · intro hown
        simp [UploadHandler.HandleGetJobStatus, htoken, hvalid, hne,
          GetByID_eq env objID _ hid hget, hfind, hown]
      · intro hown
        simp [UploadHandler.HandleGetJobStatus, htoken, hvalid, hne,
          GetByID_eq env objID _ hid hget, hfind, hown, ObjectID.IsZero]

/-- Witness for C14: the scenario user asks for the job just uploaded and gets 200 with the
five fields of the pending job and neither optional key. -/
theorem job_status_answers_witness :
    extractToken statusRequest.Authorization ≠ ""
      ∧ scenarioEnv.validateAccessToken (extractToken statusRequest.Authorization)
          = .ok (some (idOf 1).Hex)
      ∧ statusRequest.job_id ≠ ""
      ∧ (UploadHandler.HandleGetJobStatus scenarioEnv worldUploaded statusRequest).1
          = .ok 200
              { job_id := (idOf 2).Hex, status := "pending", file_name := "cv.pdf",
                created_at := 0, updated_at := 1, error_message := none, resume_id := none } :=
  ⟨by decide, by decide, by decide,
    (((job_status_answers scenarioEnv worldUploaded statusRequest (idOf 1).Hex
        (by decide) (by decide) (by decide)).2.2 (idOf 2) (ObjectIDFromHex_Hex _) rfl).2
      pendingJob (by decide)).2 (by decide)⟩

/-! ### Connections -/

/-- HandleWebSocket for a validator that returns claims whenever it returns no error on the
token read from the query parameter or else from the Bearer header. If a client is
registered then the token is not empty, it validates, the user id of the claims is not empty
and is the user id of the client, the upgrade succeeded, and the Hub is the old one with the
new client registered. If the token is empty, or does not validate, or yields an empty user
id, the answer is 401, the upgrade is not called and the Hub is unchanged. And when all
three hold and the upgrade succeeds the client is registered. -/
theorem HandleWebSocket_registers_only_authenticated (env : Env) (h : Hub) (r : WSRequest)
    (upgrade : Option String) (clientID : Nat) (token : String)
    (htoken : token = if r.queryToken = "" then extractToken r.Authorization else r.queryToken)
    (hclaims : env.validateAccessToken token ≠ .ok none) :
    (∀ client, (WebSocketHandler.HandleWebSocket env h r upgrade clientID).1 = .registered client →
        token ≠ "" ∧ client.userID ≠ "" ∧ client.id = clientID
          ∧ env.validateAccessToken token = .ok (some client.userID)
          ∧ upgrade = none
          ∧ (WebSocketHandler.HandleWebSocket env h r upgrade clientID).2
              = Hub.register
                  { h with chans := Function.update h.chans clientID
                                      { buf := [], cap := 256, closed := false } } client)
      ∧ (¬ (token ≠ "" ∧ ∃ userID, env.validateAccessToken token = .ok (some userID)
              ∧ userID ≠ "") →
          ∃ text, WebSocketHandler.HandleWebSocket env h r upgrade clientID
              = (.rejected text 401, h)
            ∧ (WebSocketHandler.HandleWebSocket env h r upgrade clientID).1.upgradeCalled = false)
      ∧ (∀ userID, token ≠ "" → env.validateAccessToken token = .ok (some userID) →
          userID ≠ "" → upgrade = none →
          (WebSocketHandler.HandleWebSocket env h r upgrade clientID).1
            = .registered { id := clientID, userID := userID }) := by
  have hdef : WebSocketHandler.HandleWebSocket env h r upgrade clientID
      = if token = "" then (.rejected "Unauthorized: token required" 401, h)
        else
          match env.validateAccessToken token with
          | .error _ => (.rejected "Unauthorized: invalid token" 401, h)
          | .ok none => (.panic, h)
          | .ok (some userID) =>
            if userID = "" then (.rejected "Unauthorized: user ID not found" 401, h)
            else
              match upgrade with
              | some _ => (.upgradeFailed, h)
              | none =>
                (.registered { id := clientID, userID := userID },
                  Hub.register
                    { h with chans := Function.update h.chans clientID
                                        { buf := [], cap := 256, closed := false } }
                    { id := clientID, userID := userID }) := by
    subst htoken; rfl
  rw [hdef]
  by_cases hne : token = ""
  · simp [hne, WSOutcome.upgradeCalled]
  · cases hv : env.validateAccessToken token with
    | error e => simp [hne, WSOutcome.upgradeCalled]
    | ok claims =>
      cases claims with
      | none => exact absurd hv hclaims
      | some userID =>
        by_cases hu : userID = ""
        · simp [hne, hu, WSOutcome.upgradeCalled]
        · cases upgrade with
          | some e => simp [hne, hu]
          | none =>
            simp only [hne, hu, if_false]
            refine ⟨?_, ?_, ?_⟩
            · intro client hreg
              simp only [WSOutcome.registered.injEq] at hreg
              subst hreg
              simp [hu, hne]
            · intro hnot
              exact absurd ⟨hne, userID, rfl, hu⟩ hnot
            · intro userID2 _ h2 _ _
              simp only [Except.ok.injEq, Option.some.injEq] at h2
              subst h2; rfl

/-- In the scenario the token in the query parameter registers client 7 for the scenario
user. -/
theorem HandleWebSocket_registers_only_authenticated_witness :
    "tok" = (if wsRequest.queryToken = "" then extractToken wsRequest.Authorization
              else wsRequest.queryToken)
      ∧ scenarioEnv.validateAccessToken "tok" ≠ .ok none
      ∧ (WebSocketHandler.HandleWebSocket scenarioEnv scenarioHub wsRequest none 7).1
          = .registered { id := 7, userID := (idOf 1).Hex } :=
  ⟨by decide, by decide,
    (HandleWebSocket_registers_only_authenticated scenarioEnv scenarioHub wsRequest none 7 "tok"
      (by decide) (by decide)).2.2 (idOf 1).Hex (by decide) (by decide) (by decide) rfl⟩

/-- C16 at its failing input: a connection request with a token for which the validator
returns no claims and no error. HandleWebSocket dereferences the claims and panics: it does
not answer 401. HandleGetJobStatus and HandleUploadResumeAsync, which check the claims,
answer 401 for the same validator. -/
theorem HandleWebSocket_nil_claims_panics :
    (if wsRequest.queryToken = "" then extractToken wsRequest.Authorization
        else wsRequest.queryToken) = "tok"
      ∧ nilClaimsEnv.validateAccessToken "tok" = .ok none
      ∧ (WebSocketHandler.HandleWebSocket nilClaimsEnv scenarioHub wsRequest none 7).1 = .panic
      ∧ (∀ text, (WebSocketHandler.HandleWebSocket nilClaimsEnv scenarioHub wsRequest none 7).1
          ≠ .rejected text 401)
      ∧ (UploadHandler.HandleGetJobStatus nilClaimsEnv worldUploaded statusRequest).1
          = .error "Unauthorized: invalid token" 401
      ∧ (UploadHandler.HandleUploadResumeAsync nilClaimsEnv "resume" scenarioWorld
          scenarioRequest).1 = .error "Unauthorized: invalid token" 401 := by
  refine ⟨by decide, rfl, by decide, ?_, by decide, by decide⟩
  intro text h
  have hp : (WebSocketHandler.HandleWebSocket nilClaimsEnv scenarioHub wsRequest none 7).1
      = .panic := by decide
  rw [hp] at h
  cases h

/-- One frame of the read loop, when the pong marshals to data: a ping frame is answered by
a send of data on the own channel, any other frame leaves the channel as it is. -/
theorem handleFrame_eq (dec : String → Except String WSMessage)
    (enc : WSMessage → Except String String) (ch : Chan) (frame data : String)
    (hpong : enc { Type_ := WSMessageTypePong, Payload := .none } = .ok data) :
    Client.handleFrame dec enc ch frame
      = if decodesAsPing dec frame then
          if ch.closed then .panic
          else if ch.buf.length < ch.cap then .done { ch with buf := ch.buf ++ [data] }
          else .blocked
        else .done ch := by
  unfold Client.handleFrame decodesAsPing
  cases dec frame with
  | error e => simp
  | ok msg =>
    by_cases hp : msg.Type_ = WSMessageTypePing
    · simp [hp, hpong]
    · simp [hp]

/-- The read loop over a list of frames, on an open channel with room for one pong per
ping frame: the channel gains one pong per ping frame and nothing else. -/
theorem readFrames_eq (dec : String → Except String WSMessage)
    (enc : WSMessage → Except String String) (data : String)
    (hpong : enc { Type_ := WSMessageTypePong, Payload := .none } = .ok data) :
    ∀ (frames : List String) (ch : Chan), ch.closed = false →
      ch.buf.length + (frames.filter (decodesAsPing dec)).length ≤ ch.cap →
      Client.readFrames dec enc ch frames
        = .done { ch with
            buf := ch.buf ++ (frames.filter (decodesAsPing dec)).map (fun _ => data) }
  | [], ch, _, _ => by simp [Client.readFrames]
  | frame :: rest, ch, hopen, hroom => by
    rw [Client.readFrames, handleFrame_eq dec enc ch frame data hpong]
    by_cases hp : decodesAsPing dec frame = true
    · simp only [hp, List.filter_cons_of_pos, List.length_cons, if_true, hopen] at hroom ⊢
      have hlt : ch.buf.length < ch.cap := by omega
      simp only [hlt, if_true, Bool.false_eq_true, if_false]
      rw [readFrames_eq dec enc data hpong rest
        { buf := ch.buf ++ [data], cap := ch.cap, closed := false } rfl
        (by simp only [List.length_append, List.length_singleton]; omega)]
      simp
    · simp only [hp, if_false, Bool.false_eq_true] at hroom ⊢
      rw [List.filter_cons_of_neg hp] at hroom ⊢
      exact readFrames_eq dec enc data hpong rest ch hopen hroom

set_option maxRecDepth 1000000 in
/-- C18, as stated, fails: after the slow client was evicted (one registration and 257
undelivered events) its send channel is closed, and a ping frame read then makes readPump
send on the closed channel, a panic; and when its buffer is full (256 undelivered events)
the send for a ping frame waits and nothing is enqueued. -/
theorem ping_on_closed_or_full_buffer :
    (Hub.run scenarioEnc (NewHub fun _ => { buf := [], cap := 256, closed := false })
        evictionOps).map
      (fun h => ((h.chans slowClient.id).closed,
        Client.handleFrame scenarioDec scenarioEnc (h.chans slowClient.id) "ping"))
      = some (true, .panic)
      ∧ (Hub.run scenarioEnc (NewHub fun _ => { buf := [], cap := 256, closed := false })
        fillingOps).map
      (fun h => ((h.chans slowClient.id).closed, (h.chans slowClient.id).buf.length,
        Client.handleFrame scenarioDec scenarioEnc (h.chans slowClient.id) "ping"))
      = some (false, 256, .blocked)
      ∧ decodesAsPing scenarioDec "ping" = true := by
  decide

/-- C18, amended: in the read loop of Client.readPump, a frame decodes as a ping exactly when
it decodes as an envelope with type ping. A frame that does not (undecodable, or of another
type) leaves the send channel unchanged. For a ping frame one send of the marshalled pong
envelope is made on the send channel of the same connection: on an open channel with room
exactly that pong is appended; on an open channel that is full the send waits and nothing
is enqueued; on a closed channel the send panics. Over a list of frames read on an open
channel with room for the answers, the channel gains exactly one pong per ping frame, in
order, and nothing else. -/
theorem readPump_pong_per_ping (dec : String → Except String WSMessage)
    (enc : WSMessage → Except String String) (ch : Chan) (frame : String) :
    (decodesAsPing dec frame = true
        ↔ ∃ msg, dec frame = .ok msg ∧ msg.Type_ = "ping")
      ∧ (decodesAsPing dec frame = false → Client.handleFrame dec enc ch frame = .done ch)
      ∧ (decodesAsPing dec frame = true →
          (ch.closed = false → ch.buf.length < ch.cap →
            Client.handleFrame dec enc ch frame
              = .done { ch with buf := ch.buf ++ [match enc { Type_ := "pong", Payload := .none } with
                                                    | .ok data => data
                                                    | .error _ => ""] })
          ∧ (ch.closed = false → ch.cap ≤ ch.buf.length →
            Client.handleFrame dec enc ch frame = .blocked)
          ∧ (ch.closed = true → Client.handleFrame dec enc ch frame = .panic))
      ∧ (∀ (frames : List String) (data : String),
          enc { Type_ := "pong", Payload := .none } = .ok data → ch.closed = false →
          ch.buf.length + (frames.filter (decodesAsPing dec)).length ≤ ch.cap →
          Client.readFrames dec enc ch frames
            = .done { ch with
                buf := ch.buf ++ (frames.filter (decodesAsPing dec)).map (fun _ => data) }) := by
  refine ⟨?_, ?_, ?_, ?_⟩
  · unfold decodesAsPing
    cases hd : dec frame with
    | error e => simp
    | ok msg => simp [WSMessageTypePing]
  · intro hp
    unfold Client.handleFrame
    unfold decodesAsPing at hp
    cases hd : dec frame with
    | error e => rfl
    | ok msg =>
      rw [hd] at hp
      simp only [decide_eq_false_iff_not] at hp
      simp [hp]
  · intro hp
    unfold decodesAsPing at hp
    cases hd : dec frame with
    | error e => rw [hd] at hp; cases hp
    | ok msg =>
      rw [hd] at hp
      simp only [decide_eq_true_eq] at hp
      unfold Client.handleFrame
      simp only [hd, hp, if_true]
      refine ⟨?_, ?_, ?_⟩
      · intro hop hlt
        cases he : enc { Type_ := "pong", Payload := .none } <;>
          simp [hop, hlt, WSMessageTypePong, he]
      · intro hop hle
        have : ¬ ch.buf.length < ch.cap := by omega
        simp [hop, this]
      · intro hcl
        simp [hcl]
  · intro frames data hpong hopen hroom
    exact readFrames_eq dec enc data hpong frames ch hopen hroom

/-- Witness for C18, amended: two pings among four frames put two pongs in an empty
buffer. -/
theorem readPump_pong_per_ping_witness :
    scenarioEnc { Type_ := "pong", Payload := .none } = .ok "pong"
      ∧ Client.readFrames scenarioDec scenarioEnc { buf := [], cap := 256, closed := false }
            ["ping", "hello", "pong", "ping"]
          = .done { buf := ["pong", "pong"], cap := 256, closed := false } :=
  ⟨rfl,
    (readPump_pong_per_ping scenarioDec scenarioEnc { buf := [], cap := 256, closed := false }
      "ping").2.2.2 ["ping", "hello", "pong", "ping"] "pong" rfl rfl (by decide)⟩

/-! ### Consumer lanes -/

/-- The go statements of Start all succeed when every pair names an existing reader. -/
theorem spawnWorkers_eq (readers : List Reader) (f : Nat → Reader) :
    ∀ pairs : List (Nat × Nat), (∀ p ∈ pairs, readers[p.1]? = some (f p.1)) →
      spawnWorkers readers pairs
        = some (pairs.map fun p => { consumerID := p.1, workerID := p.2, reader := f p.1 })
  | [], _ => rfl
  | (i, j) :: rest, h => by
    have hi : readers[i]? = some (f i) := h (i, j) (List.mem_cons_self _ _)
    have ih := spawnWorkers_eq readers f rest (fun p hp => h p (List.mem_cons_of_mem _ hp))
    simp [spawnWorkers, hi, ih]

/-- Length of a flatMap whose pieces all have the same length. -/
theorem length_flatMap_const {α β : Type} (f : α → List β) (n : Nat) :
    ∀ l : List α, (∀ a ∈ l, (f a).length = n) → (l.flatMap f).length = l.length * n
  | [], _ => by simp
  | a :: l, h => by
    have ih := length_flatMap_const f n l (fun b hb => h b (List.mem_cons_of_mem _ hb))
    simp [List.flatMap_cons, ih, h a (List.mem_cons_self _ _), Nat.succ_mul, Nat.add_comm]

/-- Selecting the piece of one index out of a flatMap over a range. -/
theorem flatMap_range_select {β : Type} (g : Nat → List β) (i : Nat) :
    ∀ L, (List.range L).flatMap (fun a => if a = i then g a else [])
      = if i < L then g i else []
  | 0 => by simp
  | L + 1 => by
    rw [List.range_succ, List.flatMap_append, flatMap_range_select g i L]
    by_cases h1 : i < L
    · have h2 : L ≠ i := by omega
      have h3 : i < L + 1 := by omega
      simp [h1, h2, h3]
    · by_cases h2 : L = i
      · subst h2; simp
      · have h3 : ¬ i < L + 1 := by omega
        simp [h1, h2, h3]

/-- C19: for every configuration, with L the partition count (1 when NumPartitions ≤ 0) and
W the worker count (1 when NumWorkers ≤ 0): NewConsumer creates the L readers 0 .. L-1 on
the topic and group of the configuration, and Start returns having spawned, lane by lane,
the workers 0 .. W-1 of each lane i with reader i as their reader: L × W workers in all,
exactly W on each lane, each with the reader found at its lane index in the readers of the
consumer. -/
theorem Start_spawns_workers_per_reader (config : ConsumerConfig) (L W : Nat)
    (hL : L = if config.NumPartitions ≤ 0 then 1 else config.NumPartitions.toNat)
    (hW : W = if config.NumWorkers ≤ 0 then 1 else config.NumWorkers.toNat) :
    (NewConsumer config).readers
        = (List.range L).map (fun i =>
            { index := i, Topic := config.Topic, GroupID := config.GroupID })
      ∧ (NewConsumer config).readers.length = L
      ∧ ∃ spawned, (NewConsumer config).Start = some spawned
          ∧ spawned = (List.range L).flatMap (fun i => (List.range W).map (fun j =>
              { consumerID := i, workerID := j,
                reader := { index := i, Topic := config.Topic, GroupID := config.GroupID } }))
          ∧ spawned.length = L * W
          ∧ (∀ i, i < L → (spawned.filter (fun s => s.consumerID = i)).length = W)
          ∧ (∀ s ∈ spawned, (NewConsumer config).readers[s.consumerID]? = some s.reader) := by
  have hP : (NewConsumer config).numPartitions.toNat = L := by
    subst hL; simp only [NewConsumer]; split <;> rfl
  have hWk : (NewConsumer config).numWorkers.toNat = W := by
    subst hW; simp only [NewConsumer]; split <;> rfl
  have hR : (NewConsumer config).readers
      = (List.range L).map (fun i =>
          ({ index := i, Topic := config.Topic, GroupID := config.GroupID } : Reader)) := by
    rw [← hP]; rfl
  have hget : ∀ i, i < L → (NewConsumer config).readers[i]?
      = some { index := i, Topic := config.Topic, GroupID := config.GroupID } := by
    intro i hi
    rw [hR, List.getElem?_map, List.getElem?_range hi]; rfl
  have hstart : (NewConsumer config).Start
      = some ((List.range L).flatMap (fun i => (List.range W).map (fun j =>
          ({ consumerID := i, workerID := j,
             reader := { index := i, Topic := config.Topic, GroupID := config.GroupID } }
            : WorkerSpawn)))) := by
    unfold Consumer.Start
    rw [hP, hWk, spawnWorkers_eq _
      (fun i => { index := i, Topic := config.Topic, GroupID := config.GroupID })]
    · simp only [List.map_flatMap, List.map_map]; rfl
    · intro p hp
      simp only [List.mem_flatMap, List.mem_range, List.mem_map] at hp
      obtain ⟨i, hi, j, _, rfl⟩ := hp
      exact hget i hi
  refine ⟨hR, by rw [hR]; simp, _, hstart, rfl, ?_, ?_, ?_⟩
  · rw [length_flatMap_const _ W _ (fun a _ => by simp), List.length_range]
  · intro i hi
    rw [List.filter_flatMap]
    have : ∀ a, List.filter (fun s => decide (s.consumerID = i)) ((List.range W).map (fun j =>
          ({ consumerID := a, workerID := j,
             reader := { index := a, Topic := config.Topic, GroupID := config.GroupID } }
            : WorkerSpawn)))
        = if a = i then (List.range W).map (fun j =>
          ({ consumerID := a, workerID := j,
             reader := { index := a, Topic := config.Topic, GroupID := config.GroupID } }
            : WorkerSpawn)) else [] := by
      intro a
      by_cases h : a = i <;> simp [List.filter_map, h, Function.comp_def]
    simp only [this]
    rw [flatMap_range_select (fun a => (List.range W).map (fun j =>
          ({ consumerID := a, workerID := j,
             reader := { index := a, Topic := config.Topic, GroupID := config.GroupID } }
            : WorkerSpawn))) i L]
    simp [hi]
  · intro s hs
    simp only [List.mem_flatMap, List.mem_range, List.mem_map] at hs
    obtain ⟨i, hi, j, _, rfl⟩ := hs
    exact hget i hi

/-- Witness for C19: two partitions and a worker count of zero give two readers and one
worker on each, two workers in all. -/
theorem Start_spawns_workers_per_reader_witness :
    (2 : Nat) = (if twoLaneConfig.NumPartitions ≤ 0 then 1
                  else twoLaneConfig.NumPartitions.toNat)
      ∧ (1 : Nat) = (if twoLaneConfig.NumWorkers ≤ 0 then 1 else twoLaneConfig.NumWorkers.toNat)
      ∧ (NewConsumer twoLaneConfig).readers.length = 2
      ∧ ∃ spawned, (NewConsumer twoLaneConfig).Start = some spawned ∧ spawned.length = 2 * 1 :=
  ⟨by decide, by decide,
    (Start_spawns_workers_per_reader twoLaneConfig 2 1 (by decide) (by decide)).2.1,
    (Start_spawns_workers_per_reader twoLaneConfig 2 1 (by decide) (by decide)).2.2.imp
      (fun _ h => ⟨h.1, h.2.2.1⟩)⟩

/-! ### Hub fan-out, eviction and unregister -/

/-- After an assignment the key holds the assigned value. -/
theorem lookup_mapSet_self {β : Type} (k : String) (v : β) :
    ∀ m : List (String × β), (mapSet k v m).lookup k = some v
  | [] => by simp [mapSet, List.lookup]
  | (k1, v1) :: rest => by
    by_cases h : k1 = k
    · simp [mapSet, h, List.lookup]
    · have h2 : (k == k1) = false := by simpa using fun e => h e.symm
      simp [mapSet, h, List.lookup, h2, lookup_mapSet_self k v rest]

/-- An assignment leaves every other key as it was. -/
theorem lookup_mapSet_of_ne {β : Type} (k k2 : String) (v : β) (hk : k2 ≠ k) :
    ∀ m : List (String × β), (mapSet k v m).lookup k2 = m.lookup k2
  | [] => by
    have h2 : (k2 == k) = false := by simpa using hk
    simp [mapSet, List.lookup, h2]
  | (k1, v1) :: rest => by
    by_cases h : k1 = k
    · subst h
      have h2 : (k2 == k1) = false := by simpa using hk
      simp [mapSet, List.lookup, h2]
    · simp only [mapSet, h, if_false, List.lookup]
      rw [lookup_mapSet_of_ne k k2 v hk rest]

/-- After a delete the key has no entry. -/
theorem lookup_mapDelete_self {β : Type} (k : String) :
    ∀ m : List (String × β), (mapDelete k m).lookup k = none
  | [] => by simp [mapDelete]
  | (k1, v1) :: rest => by
    have ih := lookup_mapDelete_self k rest
    unfold mapDelete at ih ⊢
    by_cases h : k1 = k
    · simp only [List.filter_cons, h, ne_eq, not_true_eq_false, decide_False]
      exact ih
    · have h2 : (k == k1) = false := by simpa using fun e => h e.symm
      simp only [List.filter_cons, h, ne_eq, not_false_eq_true, decide_True, if_true,
        List.lookup, h2]
      exact ih

/-- Two flatMaps agree when their functions agree on the members of the list. -/
theorem flatMap_congr_mem {α β : Type} (f g : α → List β) :
    ∀ l : List α, (∀ a ∈ l, f a = g a) → l.flatMap f = l.flatMap g
  | [], _ => rfl
  | a :: l, h => by
    rw [List.flatMap_cons, List.flatMap_cons, h a (List.mem_cons_self _ _),
      flatMap_congr_mem f g l (fun b hb => h b (List.mem_cons_of_mem _ hb))]

/-- Room in the buffer of a client only depends on its own channel. -/
theorem hasRoom_congr (h h1 : Hub) (x : Client) (hx : h1.chans x.id = h.chans x.id) :
    h1.hasRoom x = h.hasRoom x := by
  simp [Hub.hasRoom, hx]


/-- The loop of SendToUser over clients with pairwise different channels, all open, of a user
that has an entry: it ends normally; every client gets one attempt, a full one also a close;
a client with room gets the data appended, a full one is closed and leaves the set of the
user; nothing else changes. -/
theorem sendLoop_spec (userID data : String) :
    ∀ (rest : List Client) (h : Hub) (cs : List Client),
      (rest.map (fun x => x.id)).Nodup →
      (∀ x ∈ rest, (h.chans x.id).closed = false) →
      h.clients.lookup userID = some cs →
      ∃ h1, Hub.sendLoop userID data h rest = some h1
        ∧ h1.events = h.events ++ rest.flatMap (fun x =>
            if h.hasRoom x then [HubEvent.attempt x.id]
            else [HubEvent.attempt x.id, HubEvent.close x.id])
        ∧ (∀ x ∈ rest, h1.chans x.id
            = if h.hasRoom x then { h.chans x.id with buf := (h.chans x.id).buf ++ [data] }
              else { h.chans x.id with closed := true })
        ∧ (∀ i, i ∉ rest.map (fun x => x.id) → h1.chans i = h.chans i)
        ∧ h1.clients.lookup userID
            = some (cs.filter (fun y => decide (y ∉ rest) || h.hasRoom y))
        ∧ (∀ k, k ≠ userID → h1.clients.lookup k = h.clients.lookup k)
  | [], h, cs, _, _, hreg => by
    refine ⟨h, rfl, by simp, by simp, by simp, ?_, by simp⟩
    simp [hreg]
  | client :: rest, h, cs, hids, hopen, hreg => by
    have hnotin : client.id ∉ rest.map (fun x => x.id) := (List.nodup_cons.mp hids).1
    have hrest : (rest.map (fun x => x.id)).Nodup := (List.nodup_cons.mp hids).2
    have hne : ∀ x ∈ rest, x.id ≠ client.id := by
      intro x hx e
      exact hnotin (e ▸ List.mem_map_of_mem (fun x => x.id) hx)
    have hcl : client ∉ rest := fun hc => hne client hc rfl
    have hop : (h.chans client.id).closed = false := hopen client (List.mem_cons_self _ _)
    by_cases hroom : (h.chans client.id).buf.length < (h.chans client.id).cap
    · have hr : h.hasRoom client = true := by simp [Hub.hasRoom, hroom]
      obtain ⟨h2, hh2⟩ : ∃ h2 : Hub, h2 =
          { h with chans := Function.update h.chans client.id
                     { h.chans client.id with buf := (h.chans client.id).buf ++ [data] },
                   events := h.events ++ [HubEvent.attempt client.id] } := ⟨_, rfl⟩
      have hstep : Hub.sendLoop userID data h (client :: rest)
          = Hub.sendLoop userID data h2 rest := by
        rw [hh2]; simp [Hub.sendLoop, hop, hroom]
      have hc2 : ∀ i, i ≠ client.id → h2.chans i = h.chans i := by
        intro i hi; rw [hh2]; simp [Function.update_noteq hi]
      have hc2c : h2.chans client.id
          = { h.chans client.id with buf := (h.chans client.id).buf ++ [data] } := by
        rw [hh2]; simp
      have hreg2 : h2.clients.lookup userID = some cs := by rw [hh2]; exact hreg
      have hev2 : h2.events = h.events ++ [HubEvent.attempt client.id] := by rw [hh2]
      have hcl2 : h2.clients = h.clients := by rw [hh2]
      have hroom2 : ∀ x ∈ rest, h2.hasRoom x = h.hasRoom x := fun x hx =>
        hasRoom_congr h h2 x (hc2 _ (hne x hx))
      obtain ⟨h1, hrun, hev, hch, hoth, hlk, hkeys⟩ :=
        sendLoop_spec userID data rest h2 cs hrest
          (fun x hx => by rw [hc2 _ (hne x hx)]; exact hopen x (List.mem_cons_of_mem _ hx))
          hreg2
      refine ⟨h1, hstep.trans hrun, ?_, ?_, ?_, ?_, ?_⟩
      · rw [hev, hev2, List.flatMap_cons, hr, List.append_assoc]
        simp only [if_true, List.singleton_append, List.cons_append, List.nil_append]
        rw [flatMap_congr_mem _ _ rest (fun x hx => by rw [hroom2 x hx])]
      · intro x hx
        rcases List.mem_cons.mp hx with rfl | hx
        · rw [hoth _ hnotin, hc2c, hr]; rfl
        · rw [hch x hx, hroom2 x hx, hc2 _ (hne x hx)]
      · intro i hi
        simp only [List.map_cons, List.mem_cons, not_or] at hi
        rw [hoth i hi.2, hc2 i hi.1]
      · rw [hlk]
        congr 1
        apply List.filter_congr
        intro y _
        by_cases hy : y = client
        · subst hy; simp [hcl, hr]
        · by_cases hyr : y ∈ rest
          · simp [hy, hyr, hroom2 y hyr]
          · simp [hy, hyr]
      · intro k hk; rw [hkeys k hk, hcl2]
    · have hr : h.hasRoom client = false := by simp [Hub.hasRoom, hroom]
      obtain ⟨h2, hh2⟩ : ∃ h2 : Hub, h2 =
          { clients := mapSet userID (setDelete client cs) h.clients,
            chans := Function.update h.chans client.id
                       { h.chans client.id with closed := true },
            events := h.events ++ [HubEvent.attempt client.id]
                        ++ [HubEvent.close client.id] } := ⟨_, rfl⟩
      have hstep : Hub.sendLoop userID data h (client :: rest)
          = Hub.sendLoop userID data h2 rest := by
        rw [hh2]; simp [Hub.sendLoop, hop, hroom, hreg]
      have hc2 : ∀ i, i ≠ client.id → h2.chans i = h.chans i := by
        intro i hi; rw [hh2]; simp [Function.update_noteq hi]
      have hc2c : h2.chans client.id = { h.chans client.id with closed := true } := by
        rw [hh2]; simp
      have hreg2 : h2.clients.lookup userID = some (setDelete client cs) := by
        rw [hh2]; exact lookup_mapSet_self _ _ _
      have hev2 : h2.events = h.events ++ [HubEvent.attempt client.id]
          ++ [HubEvent.close client.id] := by rw [hh2]
      have hcl2 : ∀ k, k ≠ userID → h2.clients.lookup k = h.clients.lookup k := by
        intro k hk; rw [hh2]; exact lookup_mapSet_of_ne _ _ _ hk _
      have hroom2 : ∀ x ∈ rest, h2.hasRoom x = h.hasRoom x := fun x hx =>
        hasRoom_congr h h2 x (hc2 _ (hne x hx))
      obtain ⟨h1, hrun, hev, hch, hoth, hlk, hkeys⟩ :=
        sendLoop_spec userID data rest h2 (setDelete client cs) hrest
          (fun x hx => by rw [hc2 _ (hne x hx)]; exact hopen x (List.mem_cons_of_mem _ hx))
          hreg2
      refine ⟨h1, hstep.trans hrun, ?_, ?_, ?_, ?_, ?_⟩
      · rw [hev, hev2, List.flatMap_cons, hr]
        simp only [Bool.false_eq_true, if_false, List.append_assoc, List.cons_append,
          List.nil_append]
        rw [flatMap_congr_mem _ _ rest (fun x hx => by rw [hroom2 x hx])]
      · intro x hx
        rcases List.mem_cons.mp hx with rfl | hx
        · rw [hoth _ hnotin, hc2c, hr]; rfl
        · rw [hch x hx, hroom2 x hx, hc2 _ (hne x hx)]
      · intro i hi
        simp only [List.map_cons, List.mem_cons, not_or] at hi
        rw [hoth i hi.2, hc2 i hi.1]
      · rw [hlk, setDelete, List.filter_filter]
        congr 1
        apply List.filter_congr
        intro y _
        by_cases hy : y = client
        · subst hy; simp [hr]
        · by_cases hyr : y ∈ rest
          · simp [hy, hyr, hroom2 y hyr]
          · simp [hy, hyr]
      · intro k hk; rw [hkeys k hk, hcl2 k hk]

/-- The attempts among the channel operations of the loop: one per client, in order. -/
theorem attempts_flatMap (h : Hub) :
    ∀ rest : List Client, attempts (rest.flatMap (fun x =>
        if h.hasRoom x then [HubEvent.attempt x.id]
        else [HubEvent.attempt x.id, HubEvent.close x.id])) = rest.map (fun x => x.id)
  | [] => rfl
  | x :: rest => by
    have ih := attempts_flatMap h rest
    unfold attempts at ih ⊢
    rw [List.flatMap_cons, List.filterMap_append, ih]
    cases h.hasRoom x <;> simp

/-- The closes among the channel operations of the loop: one per full client, in order. -/
theorem closes_flatMap (h : Hub) :
    ∀ rest : List Client, closes (rest.flatMap (fun x =>
        if h.hasRoom x then [HubEvent.attempt x.id]
        else [HubEvent.attempt x.id, HubEvent.close x.id]))
      = (rest.filter (fun x => !h.hasRoom x)).map (fun x => x.id)
  | [] => rfl
  | x :: rest => by
    have ih := closes_flatMap h rest
    unfold closes at ih ⊢
    rw [List.flatMap_cons, List.filterMap_append, ih]
    cases hx : h.hasRoom x <;> simp [hx]

/-- A list splits into the members that satisfy a test and those that do not. -/
theorem length_filter_add_not {α : Type} (p : α → Bool) :
    ∀ l : List α, (l.filter p).length + (l.filter (fun x => !p x)).length = l.length
  | [] => rfl
  | x :: l => by
    have ih := length_filter_add_not p l
    cases hx : p x <;> simp [List.filter_cons, hx] <;> omega

/-- C11: for every user with an entry in the registry whose N connections are distinct and
have open send channels, and every message that marshals to data, SendToUser returns and
makes exactly N enqueue attempts, one per connection in order. A connection with room gets
data appended to its buffer and stays in the set of the user; a connection whose buffer is
full gets its channel closed (once) and is removed from the set of the user. The set of the
user afterwards is the connections that had room, so GetUserConnectionCount for the user
decreased by exactly the number of full connections. -/
theorem SendToUser_fan_out (enc : WSMessage → Except String String) (h : Hub)
    (userID : String) (message : WSMessage) (data : String) (clients : List Client)
    (henc : enc message = .ok data)
    (hreg : h.clients.lookup userID = some clients)
    (hids : (clients.map (fun c => c.id)).Nodup)
    (hopen : ∀ c ∈ clients, (h.chans c.id).closed = false) :
    ∃ h1 evs, Hub.SendToUser enc h userID message = some h1
      ∧ h1.events = h.events ++ evs
      ∧ attempts evs = clients.map (fun c => c.id)
      ∧ (attempts evs).length = h.GetUserConnectionCount userID
      ∧ closes evs = (clients.filter (fun c => !h.hasRoom c)).map (fun c => c.id)
      ∧ (∀ c ∈ clients, h.hasRoom c = true →
          h1.chans c.id = { h.chans c.id with buf := (h.chans c.id).buf ++ [data] }
            ∧ c ∈ (h1.clients.lookup userID).getD [])
      ∧ (∀ c ∈ clients, h.hasRoom c = false →
          h1.chans c.id = { h.chans c.id with closed := true }
            ∧ c ∉ (h1.clients.lookup userID).getD [])
      ∧ h1.clients.lookup userID = some (clients.filter (fun c => h.hasRoom c))
      ∧ h1.GetUserConnectionCount userID + (clients.filter (fun c => !h.hasRoom c)).length
          = h.GetUserConnectionCount userID := by
  obtain ⟨h1, hrun, hev, hch, _, hlk, _⟩ :=
    sendLoop_spec userID data clients h clients hids hopen hreg
  have hlk2 : h1.clients.lookup userID = some (clients.filter (fun c => h.hasRoom c)) := by
    rw [hlk]
    congr 1
    apply List.filter_congr
    intro y hy
    simp [hy]
  refine ⟨h1, _, ?_, hev, attempts_flatMap h clients, ?_, closes_flatMap h clients, ?_, ?_,
    hlk2, ?_⟩
  · simp [Hub.SendToUser, henc, hreg, hrun]
  · rw [attempts_flatMap]; simp [Hub.GetUserConnectionCount, hreg]
  · intro c hc hr
    refine ⟨by rw [hch c hc, hr]; rfl, ?_⟩
    rw [hlk2]; simp [hc, hr]
  · intro c hc hr
    refine ⟨by rw [hch c hc, hr]; rfl, ?_⟩
    rw [hlk2]; simp [hr]
  · simp only [Hub.GetUserConnectionCount, hlk2, hreg]
    exact length_filter_add_not (fun c => h.hasRoom c) clients

/-- C12: for every Hub state and connection c whose channel is open if c is registered,
processing unregister(c) returns a state on which processing unregister(c) again changes
nothing; its only channel operation is one close of the channel of c when c was registered
and none otherwise, so two unregisters close the channel at most once. And when SendToUser
to the user of c evicts c (c is among the distinct, open connections of its user and its
buffer is full), the delivery closes the channel of c exactly once and unregister(c)
afterwards returns the Hub unchanged: same registry, no second close. -/
theorem unregister_idempotent (h : Hub) (c : Client)
    (hopen : c ∈ (h.clients.lookup c.userID).getD [] → (h.chans c.id).closed = false) :
    (∃ h1, Hub.unregister h c = some h1
        ∧ Hub.unregister h1 c = some h1
        ∧ h1.events = h.events
            ++ (if c ∈ (h.clients.lookup c.userID).getD [] then [HubEvent.close c.id] else []))
      ∧ (∀ (enc : WSMessage → Except String String) (message : WSMessage) (data : String)
          (clients : List Client),
          enc message = .ok data →
          h.clients.lookup c.userID = some clients →
          (clients.map (fun x => x.id)).Nodup →
          (∀ x ∈ clients, (h.chans x.id).closed = false) →
          c ∈ clients → h.hasRoom c = false →
          ∃ h2 evs, Hub.SendToUser enc h c.userID message = some h2
            ∧ h2.events = h.events ++ evs
            ∧ (closes evs).count c.id = 1
            ∧ (h2.chans c.id).closed = true
            ∧ Hub.unregister h2 c = some h2) := by
  constructor
  · cases hl : h.clients.lookup c.userID with
    | none => exact ⟨h, by simp [Hub.unregister, hl], by simp [Hub.unregister, hl], by simp⟩
    | some clients =>
      by_cases hc : c ∈ clients
      · have hop : (h.chans c.id).closed = false := hopen (by simp [hl, hc])
        have hnot : c ∉ setDelete c clients := by simp [setDelete]
        have hun : Hub.unregister h c
            = some { clients :=
                       if (setDelete c clients).length = 0 then mapDelete c.userID h.clients
                       else mapSet c.userID (setDelete c clients) h.clients,
                     chans := Function.update h.chans c.id
                       { h.chans c.id with closed := true },
                     events := h.events ++ [HubEvent.close c.id] } := by
          simp [Hub.unregister, hl, hc, hop]
        refine ⟨_, hun, ?_, by simp [hc]⟩
        by_cases hlen : (setDelete c clients).length = 0
        · simp [Hub.unregister, hlen, lookup_mapDelete_self]
        · simp [Hub.unregister, hlen, lookup_mapSet_self, hnot]
      · exact ⟨h, by simp [Hub.unregister, hl, hc], by simp [Hub.unregister, hl, hc],
          by simp [hc]⟩
  · intro enc message data clients henc hreg hids hopenAll hc hfull
    obtain ⟨h2, hrun, hev, hch, _, hlk, _⟩ :=
      sendLoop_spec c.userID data clients h clients hids hopenAll hreg
    refine ⟨h2, _, by simp [Hub.SendToUser, henc, hreg, hrun], hev, ?_, ?_, ?_⟩
    · rw [closes_flatMap]
      apply List.count_eq_one_of_mem
      · exact List.Nodup.sublist
          (List.Sublist.map (fun x : Client => x.id) (List.filter_sublist clients)) hids
      · exact List.mem_map_of_mem (fun x : Client => x.id)
          (List.mem_filter.mpr ⟨hc, by simp [hfull]⟩)
    · rw [hch c hc, hfull]; rfl
    · have hnot : c ∉ clients.filter (fun y => decide (y ∉ clients) || h.hasRoom y) := by
        simp [hc, hfull]
      unfold Hub.unregister
      rw [hlk]
      simp only [hnot, if_false]

/-- Witness for C11: in the crowded Hub the delivery to U1 attempts both clients, closes the
full client 2, and the connection count of U1 drops by one. -/
theorem SendToUser_fan_out_witness :
    scenarioEnc scenarioNotice = .ok "notification"
      ∧ crowdedHub.clients.lookup "U1"
          = some [{ id := 1, userID := "U1" }, { id := 2, userID := "U1" }]
      ∧ (∀ c ∈ [({ id := 1, userID := "U1" } : Client), { id := 2, userID := "U1" }],
          (crowdedHub.chans c.id).closed = false)
      ∧ ∃ h1 evs, Hub.SendToUser scenarioEnc crowdedHub "U1" scenarioNotice = some h1
          ∧ h1.events = crowdedHub.events ++ evs
          ∧ attempts evs = [1, 2]
          ∧ closes evs = [2]
          ∧ h1.GetUserConnectionCount "U1" + 1 = crowdedHub.GetUserConnectionCount "U1" := by
  refine ⟨rfl, rfl, by decide, ?_⟩
  obtain ⟨h1, evs, hrun, hev, hatt, _, hcl, _, _, _, hcount⟩ :=
    SendToUser_fan_out scenarioEnc crowdedHub "U1" scenarioNotice "notification"
      [{ id := 1, userID := "U1" }, { id := 2, userID := "U1" }] rfl rfl (by decide)
      (by decide)
  exact ⟨h1, evs, hrun, hev, hatt, hcl, hcount⟩

/-- Witness for C12: in the crowded Hub, unregistering the full client twice is the same as
once, and unregistering it after the delivery that evicted it changes nothing. -/
theorem unregister_idempotent_witness :
    (fullClient ∈ (crowdedHub.clients.lookup fullClient.userID).getD [] →
        (crowdedHub.chans fullClient.id).closed = false)
      ∧ (∃ h1, Hub.unregister crowdedHub fullClient = some h1
          ∧ Hub.unregister h1 fullClient = some h1
          ∧ h1.events = [HubEvent.close 2])
      ∧ ∃ h2 evs, Hub.SendToUser scenarioEnc crowdedHub "U1" scenarioNotice = some h2
          ∧ h2.events = crowdedHub.events ++ evs
          ∧ (closes evs).count 2 = 1
          ∧ (h2.chans 2).closed = true
          ∧ Hub.unregister h2 fullClient = some h2 :=
  ⟨by decide,
    (unregister_idempotent crowdedHub fullClient (by decide)).1,
    (unregister_idempotent crowdedHub fullClient (by decide)).2 scenarioEnc scenarioNotice
      "notification" [{ id := 1, userID := "U1" }, { id := 2, userID := "U1" }]
      rfl rfl (by decide) (by decide) (by decide) (by decide)⟩

/-! ### Worker interleavings -/

/-- With at most one worker per reader, Start spawns one worker per reader, the worker at
position i on reader i. -/
theorem Start_single_worker (config : ConsumerConfig) (hW : config.NumWorkers ≤ 1) :
    ∃ workers, (NewConsumer config).Start = some workers
      ∧ ∀ (k : Nat) (ws : WorkerSpawn), workers[k]? = some ws → ws.reader.index = k := by
  have hWk : (NewConsumer config).numWorkers.toNat = 1 := by
    simp only [NewConsumer]
    split
    · rfl
    · omega
  have hR : (NewConsumer config).readers
      = (List.range (NewConsumer config).numPartitions.toNat).map (fun i =>
          ({ index := i, Topic := config.Topic, GroupID := config.GroupID } : Reader)) := rfl
  have hstart : (NewConsumer config).Start
      = some ((List.range (NewConsumer config).numPartitions.toNat).map (fun i =>
          ({ consumerID := i, workerID := 0,
             reader := { index := i, Topic := config.Topic, GroupID := config.GroupID } }
            : WorkerSpawn))) := by
    unfold Consumer.Start
    rw [hWk, spawnWorkers_eq _
      (fun i => { index := i, Topic := config.Topic, GroupID := config.GroupID })]
    · have hsingle : ∀ l : List Nat,
          (l.flatMap fun consumerID => (List.range 1).map fun workerID =>
            (consumerID, workerID)) = l.map fun i => (i, 0) := by
        intro l
        induction l with
        | nil => rfl
        | cons a l ih =>
          rw [List.flatMap_cons, ih]
          rfl
      rw [hsingle, List.map_map]
      rfl
    · intro p hp
      simp only [List.mem_flatMap, List.mem_range, List.mem_map] at hp
      obtain ⟨i, hi, j, _, rfl⟩ := hp
      rw [hR, List.getElem?_map, List.getElem?_range hi]; rfl
  refine ⟨_, hstart, ?_⟩
  intro k ws hk
  rw [List.getElem?_map] at hk
  cases hr : (List.range (NewConsumer config).numPartitions.toNat)[k]? with
  | none => rw [hr] at hk; cases hk
  | some j =>
    rw [hr] at hk
    simp only [Option.map_some', Option.some.injEq] at hk
    have hj : j = k := by
      have := List.getElem?_eq_some_iff.mp hr
      obtain ⟨hlt, hget⟩ := this
      simpa using hget.symm
    subst hk
    exact hj

/-- What a reader has delivered is kept in order: the handler invocations on its messages,
then the message its worker holds, then what it has still to deliver, are the messages it
had to deliver at the start. One step of a worker that sits at the position of its own
reader keeps this. -/
theorem Pool.step_keeps_order (workers : List WorkerSpawn) (q0 : Nat → List Message)
    (hown : ∀ (k : Nat) (ws : WorkerSpawn), workers[k]? = some ws → ws.reader.index = k) (p : Pool) (k : Nat)
    (hinv : ∀ i, ((p.invoked.filter (fun e => e.1 = i)).map (fun e => e.2))
        ++ (p.holding i).toList ++ p.queues i = q0 i) :
    ∀ i, (((Pool.step workers p k).invoked.filter (fun e => e.1 = i)).map (fun e => e.2))
        ++ ((Pool.step workers p k).holding i).toList ++ (Pool.step workers p k).queues i
      = q0 i := by
  intro i
  unfold Pool.step
  cases hw : workers[k]? with
  | none => exact hinv i
  | some ws =>
    have hidx : ws.reader.index = k := hown k ws hw
    simp only [hidx]
    cases hh : p.holding k with
    | none =>
      cases hq : p.queues k with
      | nil => exact hinv i
      | cons m rest =>
        simp only []
        by_cases hik : i = k
        · subst hik
          have := hinv i
          rw [hh, hq] at this
          simpa using this
        · have := hinv i
          simpa [Function.update_noteq hik] using this
    | some m =>
      simp only []
      by_cases hik : i = k
      · subst hik
        have := hinv i
        rw [hh] at this
        simpa [List.filter_append] using this
      · have := hinv i
        have hki : ¬ k = i := fun e => hik e.symm
        simpa [Function.update_noteq hik, List.filter_append, hki] using this

/-- The order invariant holds after every schedule. -/
theorem Pool.run_keeps_order (workers : List WorkerSpawn) (q0 : Nat → List Message)
    (hown : ∀ (k : Nat) (ws : WorkerSpawn), workers[k]? = some ws → ws.reader.index = k) :
    ∀ (schedule : List Nat) (p : Pool),
      (∀ i, ((p.invoked.filter (fun e => e.1 = i)).map (fun e => e.2))
          ++ (p.holding i).toList ++ p.queues i = q0 i) →
      ∀ i, (((Pool.run workers p schedule).invoked.filter (fun e => e.1 = i)).map
            (fun e => e.2))
          ++ ((Pool.run workers p schedule).holding i).toList
          ++ (Pool.run workers p schedule).queues i = q0 i
  | [], _, hinv => hinv
  | k :: rest, p, hinv => by
    have := Pool.run_keeps_order workers q0 hown rest (Pool.step workers p k)
      (Pool.step_keeps_order workers q0 hown p k hinv)
    simpa [Pool.run] using this

/-- C21, as stated, fails, in two ways. With one partition and two workers per reader, Start
spawns two workers on reader 0; for two messages with the same key that the reader delivers
in enqueue order, the schedule in which worker 0 fetches, worker 1 fetches, worker 1 invokes
the handler and then worker 0 does, has the handler invoked on the second message before the
first. And with one worker per reader and two partitions: the balancer of the producer sends
the first of two messages with the same key to partition 0 and the second to partition 1;
each reader delivers one of them, and the schedule in which the worker of reader 1 runs
first has the handler invoked on the second message before the first. -/
theorem same_key_order_inverted :
    (NewConsumer twoWorkerConfig).Start
        = some [{ consumerID := 0, workerID := 0,
                  reader := { index := 0, Topic := "resume", GroupID := "g" } },
                { consumerID := 0, workerID := 1,
                  reader := { index := 0, Topic := "resume", GroupID := "g" } }]
      ∧ firstMessage.Key = secondMessage.Key
      ∧ (Pool.run ((NewConsumer twoWorkerConfig).Start.getD [])
          (Pool.start fun i => if i = 0 then [firstMessage, secondMessage] else [])
          [0, 1, 1, 0]).invoked
        = [(0, secondMessage), (0, firstMessage)]
      ∧ LeastBytes.assign [0, 0]
          [{ Topic := "resume", Key := "k", Value := "first" },
           { Topic := "resume", Key := "k", Value := "second" }] = [0, 1]
      ∧ firstMessage.Key = secondOnOther.Key
      ∧ (NewConsumer twoLaneConfig).Start
        = some [{ consumerID := 0, workerID := 0,
                  reader := { index := 0, Topic := "resume", GroupID := "g" } },
                { consumerID := 1, workerID := 0,
                  reader := { index := 1, Topic := "resume", GroupID := "g" } }]
      ∧ (Pool.run ((NewConsumer twoLaneConfig).Start.getD [])
          (Pool.start fun i =>
            [firstMessage, secondOnOther].filter fun m => Int.toNat m.Partition = i)
          [1, 1, 0, 0]).invoked
        = [(1, secondOnOther), (0, firstMessage)] := by
  decide

/-- C21, amended: for every configuration with at most one worker per reader (NumWorkers ≤ 1,
any NumPartitions), every sequence of enqueued messages, every assignment of the partitions
to the readers, each reader delivering the messages of its partitions in enqueue order,
every key whose messages were all put on one partition, and every interleaving of the
workers: Start returns, and the handler invocations on the messages with that key are, in
invocation order, an initial part of the messages with that key in enqueue order. -/
theorem single_worker_handles_in_delivery_order (config : ConsumerConfig)
    (sent : List Message) (lane : Int → Nat) (schedule : List Nat) (key : String)
    (hW : config.NumWorkers ≤ 1)
    (hkey : ∀ m1 ∈ sent, ∀ m2 ∈ sent, m1.Key = key → m2.Key = key →
      m1.Partition = m2.Partition) :
    ∃ workers, (NewConsumer config).Start = some workers
      ∧ ∃ pending,
          ((Pool.run workers
              (Pool.start fun i => sent.filter fun m => lane m.Partition = i)
              schedule).invoked.map (fun e => e.2)).filter (fun m => m.Key = key)
            ++ pending
          = sent.filter (fun m => m.Key = key) := by
  obtain ⟨workers, hstart, hown⟩ := Start_single_worker config hW
  refine ⟨workers, hstart, ?_⟩
  have hinv := Pool.run_keeps_order workers
    (fun i => sent.filter fun m => lane m.Partition = i) hown schedule
    (Pool.start fun i => sent.filter fun m => lane m.Partition = i)
    (by intro j; simp [Pool.start])
  generalize Pool.run workers
    (Pool.start fun i => sent.filter fun m => lane m.Partition = i) schedule = p at hinv
  beta_reduce at hinv
  -- every invoked message was sent, and came from the reader of its partition
  have hmem : ∀ e ∈ p.invoked, e.2 ∈ sent ∧ lane e.2.Partition = e.1 := by
    intro e he
    have h1 : e.2 ∈ (p.invoked.filter (fun x => x.1 = e.1)).map (fun x => x.2) :=
      List.mem_map_of_mem (fun x => x.2) (List.mem_filter.mpr ⟨he, by simp⟩)
    have h2 : e.2 ∈ sent.filter (fun m => lane m.Partition = e.1) := by
      rw [← hinv e.1]
      exact List.mem_append_left _ (List.mem_append_left _ h1)
    have h3 := List.mem_filter.mp h2
    exact ⟨h3.1, by simpa using h3.2⟩
  cases hfind : sent.find? (fun m => m.Key = key) with
  | none =>
    -- no message with the key was sent
    have hno : ∀ m ∈ sent, ¬ m.Key = key := by
      intro m hm
      have := List.find?_eq_none.mp hfind m hm
      simpa using this
    refine ⟨[], ?_⟩
    have h1 : sent.filter (fun m => m.Key = key) = [] := by
      apply List.filter_eq_nil_iff.mpr
      intro m hm
      simpa using hno m hm
    have h2 : (p.invoked.map (fun e => e.2)).filter (fun m => m.Key = key) = [] := by
      apply List.filter_eq_nil_iff.mpr
      intro m hm
      obtain ⟨e, he, rfl⟩ := List.mem_map.mp hm
      simpa using hno e.2 (hmem e he).1
    rw [h1, h2]; rfl
  | some m0 =>
    -- the messages with the key are all delivered by the reader of the partition of m0
    have hm0 : m0 ∈ sent := List.mem_of_find?_eq_some hfind
    have hk0 : m0.Key = key := by
      have := List.find?_some hfind
      simpa using this
    have hpart : ∀ m ∈ sent, m.Key = key → m.Partition = m0.Partition :=
      fun m hm hk => hkey m hm m0 hm0 hk hk0
    have hsent : sent.filter (fun m => m.Key = key)
        = (sent.filter (fun m => lane m.Partition = lane m0.Partition)).filter
            (fun m => m.Key = key) := by
      rw [List.filter_filter]
      apply List.filter_congr
      intro m hm
      by_cases hk : m.Key = key
      · simp [hk, hpart m hm hk]
      · simp [hk]
    have hinvk : (p.invoked.map (fun e => e.2)).filter (fun m => m.Key = key)
        = ((p.invoked.filter (fun e => e.1 = lane m0.Partition)).map (fun e => e.2)).filter
            (fun m => m.Key = key) := by
      rw [List.filter_map, List.filter_map, List.filter_filter]
      congr 1
      apply List.filter_congr
      intro e he
      by_cases hk : e.2.Key = key
      · have h1 := hmem e he
        have h3 : e.1 = lane m0.Partition := by
          rw [← h1.2, hpart e.2 h1.1 hk]
        simp [hk, h3]
      · simp [hk]
    refine ⟨((p.holding (lane m0.Partition)).toList ++ p.queues (lane m0.Partition)).filter
      (fun m => m.Key = key), ?_⟩
    rw [hinvk, hsent, ← hinv (lane m0.Partition), List.append_assoc]
    simp only [List.filter_append]

/-- Witness for C21, amended: two readers with one worker each, reader i assigned
partition i; both messages with key k are on partition 0. -/
theorem single_worker_handles_in_delivery_order_witness :
    twoLaneConfig.NumWorkers ≤ 1
      ∧ (∀ m1 ∈ [firstMessage, secondMessage], ∀ m2 ∈ [firstMessage, secondMessage],
          m1.Key = "k" → m2.Key = "k" → m1.Partition = m2.Partition)
      ∧ ∃ workers, (NewConsumer twoLaneConfig).Start = some workers
          ∧ ∃ pending,
              ((Pool.run workers
                  (Pool.start fun i =>
                    [firstMessage, secondMessage].filter fun m => Int.toNat m.Partition = i)
                  [0, 1, 0, 0]).invoked.map (fun e => e.2)).filter (fun m => m.Key = "k")
                ++ pending
              = [firstMessage, secondMessage].filter (fun m => m.Key = "k") :=
  ⟨by decide, by decide,
    single_worker_handles_in_delivery_order twoLaneConfig [firstMessage, secondMessage]
      Int.toNat [0, 1, 0, 0] "k" (by decide) (by decide)⟩

/-! ### Notifications -/

/-- What notificationRepo.CreateNotification leaves in the collection on the record the use
case hands over: on success one more document, with IsRead false and the fields of n; on
failure nothing more. -/
theorem CreateNotification_repo_outcomes (env : Env) (w : World) (n : Biz.Notification)
    (insert : Data.NotificationModel → Except String ObjectID) (now : Time)
    (coll : List Data.NotificationModel) :
    (NotificationUseCase.CreateNotification env w n).2.trace
        = w.trace ++ [Call.RepoCreateNotification
            { ID := n.ID, UserID := n.UserID, Title := n.Title, Content := n.Content,
              Type_ := n.Type_, ObjectID := n.ObjectID, IsRead := false,
              CreatedAt := env.clock w.ticks }]
      ∧ (∀ saved coll1,
          notificationRepo.CreateNotification insert now coll
              { n with CreatedAt := env.clock w.ticks, IsRead := false } = (.ok saved, coll1) →
          ∃ model, coll1 = coll ++ [model]
            ∧ model.IsRead = false
            ∧ ObjectIDFromHex n.UserID = .ok model.UserID
            ∧ model.Title = n.Title ∧ model.Content = n.Content ∧ model.Type_ = n.Type_
            ∧ model.ObjectID = n.ObjectID
            ∧ saved.IsRead = false ∧ saved.UserID = n.UserID ∧ saved.Title = n.Title
            ∧ saved.Content = n.Content ∧ saved.Type_ = n.Type_
            ∧ saved.ObjectID = n.ObjectID)
      ∧ (∀ e coll1,
          notificationRepo.CreateNotification insert now coll
              { n with CreatedAt := env.clock w.ticks, IsRead := false } = (.error e, coll1) →
          coll1 = coll) := by
  refine ⟨by simp [NotificationUseCase.CreateNotification, timeNow, record], ?_, ?_⟩
  · intro saved coll1 h
    unfold notificationRepo.CreateNotification at h
    simp only [] at h
    cases hu : ObjectIDFromHex n.UserID with
    | error e => rw [hu] at h; simp at h
    | ok userID =>
      rw [hu] at h
      simp only [] at h
      split at h
      · simp at h
      · rename_i insertedID hins
        simp only [Prod.mk.injEq, Except.ok.injEq] at h
        obtain ⟨h1, h2⟩ := h
        subst h1 h2
        exact ⟨_, rfl, rfl, rfl, rfl, rfl, rfl, rfl, rfl, rfl, rfl, rfl, rfl, rfl⟩
  · intro e coll1 h
    unfold notificationRepo.CreateNotification at h
    simp only [] at h
    cases hu : ObjectIDFromHex n.UserID with
    | error e1 => rw [hu] at h; simp at h; exact h.2.symm
    | ok userID =>
      rw [hu] at h
      simp only [] at h
      split at h
      · simp at h; exact h.2.symm
      · simp at h

/-- C22: for every notification n, whatever its IsRead flag, the record that
NotificationUseCase.CreateNotification hands to the repository is n with IsRead false and
CreatedAt the clock reading: user id, title, content, type and object id are those of n.
And when the user id of n parses and InsertOne succeeds, notificationRepo.CreateNotification
on that record returns and stores exactly one new document: IsRead false, the parsed user id
and the title, content, type and object id of n; the record it returns has IsRead false and
those fields too. -/
theorem CreateNotification_stores_unread (env : Env) (w : World) (n : Biz.Notification)
    (insert : Data.NotificationModel → Except String ObjectID) (now : Time)
    (coll : List Data.NotificationModel) (userID insertedID : ObjectID)
    (huser : ObjectIDFromHex n.UserID = .ok userID)
    (hinsert : insert { ID := NilObjectID, UserID := userID, Title := n.Title,
                        Content := n.Content, Type_ := n.Type_, ObjectID := n.ObjectID,
                        IsRead := false, CreatedAt := now } = .ok insertedID) :
    (NotificationUseCase.CreateNotification env w n).2.trace
        = w.trace ++ [Call.RepoCreateNotification
            { ID := n.ID, UserID := n.UserID, Title := n.Title, Content := n.Content,
              Type_ := n.Type_, ObjectID := n.ObjectID, IsRead := false,
              CreatedAt := env.clock w.ticks }]
      ∧ notificationRepo.CreateNotification insert now coll
            { ID := n.ID, UserID := n.UserID, Title := n.Title, Content := n.Content,
              Type_ := n.Type_, ObjectID := n.ObjectID, IsRead := false,
              CreatedAt := env.clock w.ticks }
          = (.ok { ID := insertedID.Hex, UserID := n.UserID, Title := n.Title,
                   Content := n.Content, Type_ := n.Type_, ObjectID := n.ObjectID,
                   IsRead := false, CreatedAt := now },
             coll ++ [{ ID := insertedID, UserID := userID, Title := n.Title,
                        Content := n.Content, Type_ := n.Type_, ObjectID := n.ObjectID,
                        IsRead := false, CreatedAt := now }]) := by
  refine ⟨by simp [NotificationUseCase.CreateNotification, timeNow, record], ?_⟩
  simp [notificationRepo.CreateNotification, huser, hinsert]

/-- Witness for C22: a notification that arrives with IsRead true is handed over and stored
with IsRead false. -/
theorem CreateNotification_stores_unread_witness :
    readNotification.IsRead = true
      ∧ ObjectIDFromHex readNotification.UserID = .ok (idOf 1)
      ∧ (NotificationUseCase.CreateNotification scenarioEnv scenarioWorld
            readNotification).2.trace
          = [Call.RepoCreateNotification
              { ID := "", UserID := (idOf 1).Hex, Title := "Done", Content := "Grade B",
                Type_ := "evaluate", ObjectID := (idOf 3).Hex, IsRead := false,
                CreatedAt := 0 }]
      ∧ (notificationRepo.CreateNotification (fun _ => .ok (idOf 9)) 5 []
            { ID := "", UserID := (idOf 1).Hex, Title := "Done", Content := "Grade B",
              Type_ := "evaluate", ObjectID := (idOf 3).Hex, IsRead := false,
              CreatedAt := 0 }).2
          = [{ ID := idOf 9, UserID := idOf 1, Title := "Done", Content := "Grade B",
               Type_ := "evaluate", ObjectID := (idOf 3).Hex, IsRead := false,
               CreatedAt := 5 }] :=
  ⟨rfl, ObjectIDFromHex_Hex _,
    (CreateNotification_stores_unread scenarioEnv scenarioWorld readNotification
      (fun _ => .ok (idOf 9)) 5 [] (idOf 1) (idOf 9) (ObjectIDFromHex_Hex _) rfl).1,
    congrArg Prod.snd
      (CreateNotification_stores_unread scenarioEnv scenarioWorld readNotification
        (fun _ => .ok (idOf 9)) 5 [] (idOf 1) (idOf 9) (ObjectIDFromHex_Hex _) rfl).2⟩

/-- C23: in EvaluateWorker.handleMessage, when the message decodes and EvaluateAndSaveResume
succeeds with a resume that is nil, has no detail, or has no evaluation entries, the handler
returns nil and submits exactly one notification to the Notification Store: type evaluate,
the user of the message, the resume id of the message as object id. When the store call
succeeds exactly one notification event, built from the saved record, is delivered to that
user through the Hub; when it fails nothing is delivered. -/
theorem evaluate_without_details_notifies_once (env : Env) (w w1 : World) (msg : Message)
    (evaluateMsg : EvaluateMessage) (updatedResume : Option Biz.Resume)
    (hdecode : env.unmarshalEvaluate msg.Value = .ok evaluateMsg)
    (heval : ResumeUseCase.EvaluateAndSaveResume env w evaluateMsg.ResumeID evaluateMsg.UserID
              = (.ok updatedResume, w1))
    (hempty : ∀ r d, updatedResume = some r → r.ResumeDetail = some d → d.Evaluations = []) :
    (EvaluateWorker.handleMessage env w msg).1 = .ok ()
      ∧ createdNotifications (EvaluateWorker.handleMessage env w msg).2.trace
          = createdNotifications w.trace
              ++ [{ ID := "", UserID := evaluateMsg.UserID, Title := "CV đã được đánh giá",
                    Content :=
                      "CV của bạn đã được đánh giá. Vui lòng xem chi tiết để biết thêm thông tin.",
                    Type_ := "evaluate", ObjectID := evaluateMsg.ResumeID, IsRead := false,
                    CreatedAt := env.clock w1.ticks }]
      ∧ (∀ saved,
          env.createNotification
              { ID := "", UserID := evaluateMsg.UserID, Title := "CV đã được đánh giá",
                Content :=
                  "CV của bạn đã được đánh giá. Vui lòng xem chi tiết để biết thêm thông tin.",
                Type_ := "evaluate", ObjectID := evaluateMsg.ResumeID, IsRead := false,
                CreatedAt := env.clock w1.ticks } = .ok saved →
          hubMessages (EvaluateWorker.handleMessage env w msg).2.trace
            = hubMessages w.trace
                ++ [(evaluateMsg.UserID,
                      notificationMessage
                        { ID := saved.ID, Title := saved.Title, Content := saved.Content,
                          Type_ := saved.Type_, ObjectID := saved.ObjectID,
                          CreatedAt := env.formatRFC3339 saved.CreatedAt })])
      ∧ (∀ e,
          env.createNotification
              { ID := "", UserID := evaluateMsg.UserID, Title := "CV đã được đánh giá",
                Content :=
                  "CV của bạn đã được đánh giá. Vui lòng xem chi tiết để biết thêm thông tin.",
                Type_ := "evaluate", ObjectID := evaluateMsg.ResumeID, IsRead := false,
                CreatedAt := env.clock w1.ticks } = .error e →
          hubMessages (EvaluateWorker.handleMessage env w msg).2.trace
            = hubMessages w.trace) := by
  have hlast : lastEvaluation updatedResume = none := by
    unfold lastEvaluation
    cases updatedResume with
    | none => rfl
    | some r =>
      cases hd : r.ResumeDetail with
      | none => simp only [hd]
      | some d => simp [hd, hempty r d rfl hd]
  have q := EvaluateAndSaveResume_quiet env w evaluateMsg.ResumeID evaluateMsg.UserID
  rw [heval] at q
  simp only [] at q
  have hrun : EvaluateWorker.handleMessage env w msg
      = (.ok (), EvaluateWorker.notify env w1 evaluateMsg.UserID
          { ID := "", UserID := evaluateMsg.UserID, Title := "CV đã được đánh giá",
            Content :=
              "CV của bạn đã được đánh giá. Vui lòng xem chi tiết để biết thêm thông tin.",
            Type_ := Biz.NotificationTypeEvaluate, ObjectID := evaluateMsg.ResumeID,
            IsRead := false, CreatedAt := 0 }) := by
    unfold EvaluateWorker.handleMessage
    simp only [hdecode, heval, hlast]
  have q1 : List.filterMap createdNotification? w1.trace
      = List.filterMap createdNotification? w.trace := q.1
  have q2 : List.filterMap hubMessage? w1.trace = List.filterMap hubMessage? w.trace := q.2
  rw [hrun]
  refine ⟨rfl, ?_, ?_, ?_⟩
  · simp only [EvaluateWorker.notify, NotificationUseCase.CreateNotification, timeNow, record]
    split
    · simp [q1, createdNotifications, createdNotification?,
        Biz.NotificationTypeEvaluate]
    · simp [q1, createdNotifications, createdNotification?,
        hubMessages, hubMessage?, Biz.NotificationTypeEvaluate, List.filterMap_append]
  · intro saved hs
    have hs2 : env.createNotification
        { ID := "", UserID := evaluateMsg.UserID, Title := "CV đã được đánh giá",
          Content :=
            "CV của bạn đã được đánh giá. Vui lòng xem chi tiết để biết thêm thông tin.",
          Type_ := Biz.NotificationTypeEvaluate, ObjectID := evaluateMsg.ResumeID,
          IsRead := false, CreatedAt := env.clock w1.ticks } = .ok saved := hs
    simp only [EvaluateWorker.notify, NotificationUseCase.CreateNotification, timeNow, record,
      hs2]
    simp [q2, hubMessages, hubMessage?, List.filterMap_append]
  · intro e hs
    have hs2 : env.createNotification
        { ID := "", UserID := evaluateMsg.UserID, Title := "CV đã được đánh giá",
          Content :=
            "CV của bạn đã được đánh giá. Vui lòng xem chi tiết để biết thêm thông tin.",
          Type_ := Biz.NotificationTypeEvaluate, ObjectID := evaluateMsg.ResumeID,
          IsRead := false, CreatedAt := env.clock w1.ticks } = .error e := hs
    simp only [EvaluateWorker.notify, NotificationUseCase.CreateNotification, timeNow, record,
      hs2]
    simp [q2, hubMessages, hubMessage?, List.filterMap_append]

/-- Witness for C23: the scenario with a repository whose update returns no resume. -/
theorem evaluate_without_details_notifies_once_witness :
    noMatchEnv.unmarshalEvaluate evaluateMessage.Value
        = .ok { ResumeID := (idOf 3).Hex, UserID := (idOf 1).Hex }
      ∧ (ResumeUseCase.EvaluateAndSaveResume noMatchEnv scenarioWorld (idOf 3).Hex
            (idOf 1).Hex).1 = .ok none
      ∧ (EvaluateWorker.handleMessage noMatchEnv scenarioWorld evaluateMessage).1 = .ok ()
      ∧ createdNotifications
            (EvaluateWorker.handleMessage noMatchEnv scenarioWorld evaluateMessage).2.trace
          = [{ ID := "", UserID := (idOf 1).Hex, Title := "CV đã được đánh giá",
               Content :=
                 "CV của bạn đã được đánh giá. Vui lòng xem chi tiết để biết thêm thông tin.",
               Type_ := "evaluate", ObjectID := (idOf 3).Hex, IsRead := false,
               CreatedAt := 1 }] :=
  ⟨by decide, by decide,
    (evaluate_without_details_notifies_once noMatchEnv scenarioWorld
      (ResumeUseCase.EvaluateAndSaveResume noMatchEnv scenarioWorld (idOf 3).Hex
        (idOf 1).Hex).2
      evaluateMessage { ResumeID := (idOf 3).Hex, UserID := (idOf 1).Hex } none
      (by decide) (Prod.ext (by decide) rfl) (by intro r d h; cases h)).1,
    (evaluate_without_details_notifies_once noMatchEnv scenarioWorld
      (ResumeUseCase.EvaluateAndSaveResume noMatchEnv scenarioWorld (idOf 3).Hex
        (idOf 1).Hex).2
      evaluateMessage { ResumeID := (idOf 3).Hex, UserID := (idOf 1).Hex } none
      (by decide) (Prod.ext (by decide) rfl) (by intro r d h; cases h)).2.1⟩

/-! ### Edit ids, tokens, registry and handler errors -/

/-- C24 at its failing input: the resume of the scenario is evaluated twice within one second
(the Unix time of every clock reading is 0), each answer suggesting one edit; the two edits
stored on the resume, one per evaluation, get the same id. -/
theorem edit_ids_collide_within_a_second :
    quickEnv.unix (quickEnv.clock 2) = quickEnvAfter.unix (quickEnvAfter.clock 5)
      ∧ twiceEvaluated.map editIDs
          = some [(idOf 3).Hex ++ "-0-0", (idOf 3).Hex ++ "-0-0"]
      ∧ twiceEvaluated.map (fun r => decide (editIDs r).Nodup) = some false := by
  decide

/-- C25: for every Authorization header value h, extractToken returns t when h is Bearer, one
blank and a non-empty t, and returns the empty string whenever h is not of that form (an
empty header, another scheme or another case of the scheme, or nothing after the blank). -/
theorem extractToken_spec (h : String) :
    (∀ t, t ≠ "" → h = "Bearer " ++ t → extractToken h = t)
      ∧ ((¬ ∃ t, t ≠ "" ∧ h = "Bearer " ++ t) → extractToken h = "") := by
  constructor
  · intro t ht hh
    subst hh
    have htd : t.data ≠ [] := by
      intro e; apply ht; exact String.ext e
    have hlen : 0 < t.data.length := List.length_pos.mpr htd
    have hne : ("Bearer " ++ t) ≠ "" := by
      intro e
      have := congrArg String.data e
      simp at this
    unfold extractToken
    rw [if_neg hne]
    have hd : ("Bearer " ++ t).data = "Bearer ".data ++ t.data := String.data_append _ _
    simp only [hd, List.length_append]
    have h1 : ("Bearer ".data.length + t.data.length > "Bearer ".data.length
        ∧ List.take "Bearer ".data.length ("Bearer ".data ++ t.data) = "Bearer ".data) := by
      refine ⟨by omega, ?_⟩
      simp
    rw [if_pos h1]
    simp
  · intro hno
    unfold extractToken
    by_cases he : h = ""
    · simp [he]
    · rw [if_neg he]
      simp only []
      split
      · rename_i hc
        exfalso
        apply hno
        refine ⟨String.mk (h.data.drop "Bearer ".data.length), ?_, ?_⟩
        · intro e
          have := congrArg String.data e
          simp only [List.drop_eq_nil_iff] at this
          have h3 : h.data.length ≤ "Bearer ".data.length := by simpa using this
          omega
        · apply String.ext
          rw [String.data_append]
          conv_lhs => rw [← List.take_append_drop "Bearer ".data.length h.data]
          rw [hc.2]
      · rfl

set_option maxRecDepth 1000000 in
/-- C26 at its failing input: starting from the empty Hub, one client of U1 registers and 257
events are sent to U1 while its buffer of capacity 256 is never emptied; the last send
evicts the client (one close) and leaves U1 in the registry with no connection:
GetConnectedUsers returns U1 and GetUserConnectionCount is 0. The unregister request the
client then makes changes nothing. -/
theorem eviction_leaves_user_without_connection :
    (Hub.run scenarioEnc (NewHub fun _ => { buf := [], cap := 256, closed := false })
        evictionOps).map
      (fun h => (h.GetConnectedUsers, h.GetUserConnectionCount "U1", closes h.events))
      = some (["U1"], 0, [1])
      ∧ (Hub.run scenarioEnc (NewHub fun _ => { buf := [], cap := 256, closed := false })
          (evictionOps ++ [HubOp.unregister slowClient])).map
        (fun h => (h.GetConnectedUsers, h.GetUserConnectionCount "U1", closes h.events))
        = some (["U1"], 0, [1]) := by
  decide

/-- C27 at its failing input: the upload message of the scenario is handled while the store
holds no job. GetByID returns no job and no error; the handler calls handleJobFailure (the
status failed is written and the failed event is sent to the user) and returns the nil
error of GetByID. -/
theorem missing_job_returns_nil_error :
    scenarioEnv.unmarshalParse uploadMessage.Value = .ok scenarioParseMessage
      ∧ scenarioWorld.jobs = []
      ∧ (ResumeWorker.handleMessage scenarioEnv scenarioWorld uploadMessage).1 = none
      ∧ statusWrites scenarioParseMessage.JobID
          (ResumeWorker.handleMessage scenarioEnv scenarioWorld uploadMessage).2.trace
          = [.Processing, .Failed]
      ∧ (hubMessages
          (ResumeWorker.handleMessage scenarioEnv scenarioWorld uploadMessage).2.trace).getLast?
          = some (scenarioParseMessage.UserID,
              jobStatusMessage { JobID := scenarioParseMessage.JobID, Status := "failed",
                                 ErrorMessage := "Job not found", ResumeID := "",
                                 CVData := none }) := by
  decide

/-! ### Converters and pagination -/

/-- The value of a decimal digit character, as Sscanf accumulates it. -/
theorem digitChar_facts : ∀ k, k < 10 →
    ((Nat.digitChar k).toNat - '0'.toNat = k ∧ (Nat.digitChar k).isDigit = true) := by
  decide

/-- A digit is neither white space, nor an underscore, nor a sign. -/
theorem isDigit_not_space_or_sign (c : Char) (h : c.isDigit = true) :
    isSpace c = false ∧ c ≠ '_' ∧ c ≠ '-' ∧ c ≠ '+' := by
  refine ⟨?_, ?_, ?_, ?_⟩
  · have h1 : 48 ≤ c.toNat ∧ c.toNat ≤ 57 := by
      simp only [Char.isDigit, Bool.and_eq_true, decide_eq_true_eq] at h
      exact ⟨h.1, h.2⟩
    simp only [isSpace, Bool.or_eq_false_iff, decide_eq_false_iff_not]
    omega
  all_goals (rintro rfl; exact absurd h (by decide))

/-- The digits Nat.toDigitsCore puts in front of its accumulator: at least one, all decimal
digits, and reading them back from the left gives the number. -/
theorem toDigitsCore_spec : ∀ (fuel n : Nat) (ds : List Char), n < fuel →
    ∃ pre, Nat.toDigitsCore 10 fuel n ds = pre ++ ds ∧ pre ≠ []
      ∧ (∀ c ∈ pre, c.isDigit = true)
      ∧ pre.foldl (fun acc c => acc * 10 + (c.toNat - '0'.toNat)) 0 = n
  | 0, n, ds, h => absurd h (Nat.not_lt_zero n)
  | fuel + 1, n, ds, h => by
    have hd := digitChar_facts (n % 10) (Nat.mod_lt n (by decide))
    unfold Nat.toDigitsCore
    simp only []
    by_cases h0 : n / 10 = 0
    · rw [if_pos h0]
      refine ⟨[Nat.digitChar (n % 10)], rfl, by simp, by simpa using hd.2, ?_⟩
      simp only [List.foldl_cons, List.foldl_nil, hd.1]
      omega
    · rw [if_neg h0]
      obtain ⟨pre, hpre, _, hdig, hval⟩ :=
        toDigitsCore_spec fuel (n / 10) (Nat.digitChar (n % 10) :: ds) (by omega)
      refine ⟨pre ++ [Nat.digitChar (n % 10)], by rw [hpre]; simp, by simp, ?_, ?_⟩
      · intro c hc
        rcases List.mem_append.mp hc with hc | hc
        · exact hdig c hc
        · simp only [List.mem_singleton] at hc
          rw [hc]; exact hd.2
      · rw [List.foldl_append, hval]
        simp only [List.foldl_cons, List.foldl_nil, hd.1]
        omega

/-- The decimal rendering of a natural number: at least one character, all decimal digits,
and reading them back from the left gives the number. -/
theorem repr_spec (n : Nat) :
    (Nat.repr n).data ≠ [] ∧ (∀ c ∈ (Nat.repr n).data, c.isDigit = true)
      ∧ (Nat.repr n).data.foldl (fun acc c => acc * 10 + (c.toNat - '0'.toNat)) 0 = n := by
  obtain ⟨pre, hpre, hne, hdig, hval⟩ := toDigitsCore_spec (n + 1) n [] (Nat.lt_succ_self n)
  have : (Nat.repr n).data = pre := by
    simp [Nat.repr, Nat.toDigits, hpre, List.asString]
  rw [this]
  exact ⟨hne, hdig, hval⟩

/-- Sscanf on a text that starts with decimal digits only. -/
theorem sscanfD_digits (digits : List Char) (old : Int) (hne : digits ≠ [])
    (hdig : ∀ c ∈ digits, c.isDigit = true) (negative : Bool) :
    sscanfD (String.mk (if negative then '-' :: digits else digits)) old
      = (if -(2 : Int) ^ 63 ≤ (if negative then
              -((digits.foldl (fun acc c => acc * 10 + (c.toNat - '0'.toNat)) 0 : Nat) : Int)
            else ((digits.foldl (fun acc c => acc * 10 + (c.toNat - '0'.toNat)) 0 : Nat) : Int))
            ∧ (if negative then
              -((digits.foldl (fun acc c => acc * 10 + (c.toNat - '0'.toNat)) 0 : Nat) : Int)
            else ((digits.foldl (fun acc c => acc * 10 + (c.toNat - '0'.toNat)) 0 : Nat) : Int))
              < (2 : Int) ^ 63
         then (if negative then
              -((digits.foldl (fun acc c => acc * 10 + (c.toNat - '0'.toNat)) 0 : Nat) : Int)
            else ((digits.foldl (fun acc c => acc * 10 + (c.toNat - '0'.toNat)) 0 : Nat) : Int))
         else old) := by
  obtain ⟨c, rest, rfl⟩ := List.exists_cons_of_ne_nil hne
  have hc := isDigit_not_space_or_sign c (hdig c (List.mem_cons_self _ _))
  have htake : List.takeWhile (fun c => decide (c.isDigit = true ∨ c = '_')) (c :: rest)
      = c :: rest :=
    List.takeWhile_eq_self_iff.mpr (fun d hd => by simp [hdig d hd])
  have hnot : ¬ ((c :: rest) = [] ∨ '_' ∈ c :: rest) := by
    rintro (h | h)
    · cases h
    · exact (isDigit_not_space_or_sign _ (hdig _ h)).2.1 rfl
  cases negative with
  | false =>
    unfold sscanfD
    simp only [Bool.false_eq_true, if_false]
    have hdrop : List.dropWhile (fun c => decide (isSpace c = true ∧ c ≠ '\n')) (c :: rest)
        = c :: rest := by
      rw [List.dropWhile_cons_of_neg]
      simp [hc.1]
    rw [hdrop]
    have h1 : ¬ (some c = some '-') := by simpa using hc.2.2.1
    have h2 : ¬ (some c = some '+') := by simpa using hc.2.2.2
    simp only [List.head?_cons, h1, h2, if_false, htake, Bool.false_eq_true]
    rw [if_neg hnot]
  | true =>
    unfold sscanfD
    simp only [if_true]
    have hdrop : List.dropWhile (fun c => decide (isSpace c = true ∧ c ≠ '\n'))
        ('-' :: c :: rest) = '-' :: c :: rest := by
      rw [List.dropWhile_cons_of_neg]
      decide
    rw [hdrop]
    simp only [List.head?_cons, List.tail_cons, htake, if_true]
    rw [if_neg hnot]

/-- C28: for every year y of the range of a 64-bit int, the decimal rendering that
convertToDataResume stores, read back by Sscanf with the verb d into a variable holding 0
as convertResumeToEvaluateCV does, is y again; so the education entry the evaluate client
builds from the stored entry has graduation year y. -/
theorem graduation_year_round_trip (y : Int) (hlo : -(2 : Int) ^ 63 ≤ y)
    (hhi : y < (2 : Int) ^ 63) :
    sscanfD (sprintfD y) 0 = y
      ∧ ∀ degree institution description,
          ParserClient.convertEducation
              [{ Degree := degree, Institution := institution, GraduationYear := sprintfD y,
                 Description := description }]
            = [{ Degree := degree, Institution := institution, GraduationYear := y,
                 Description := description, GPA := 0 }] := by
  have key : sscanfD (sprintfD y) 0 = y := by
    cases y with
    | ofNat m =>
      obtain ⟨hne, hdig, hval⟩ := repr_spec m
      have hs : sprintfD (Int.ofNat m) = String.mk (if false then '-' :: (Nat.repr m).data
          else (Nat.repr m).data) := rfl
      rw [hs, sscanfD_digits _ 0 hne hdig false, hval]
      simp only [Bool.false_eq_true, if_false]
      rw [if_pos ⟨hlo, hhi⟩]
      rfl
    | negSucc m =>
      obtain ⟨hne, hdig, hval⟩ := repr_spec (m + 1)
      have hs : sprintfD (Int.negSucc m) = String.mk (if true then '-' :: (Nat.repr (m + 1)).data
          else (Nat.repr (m + 1)).data) := rfl
      rw [hs, sscanfD_digits _ 0 hne hdig true, hval]
      simp only [if_true]
      have he : -((m + 1 : Nat) : Int) = Int.negSucc m := rfl
      rw [he, if_pos ⟨hlo, hhi⟩]
  refine ⟨key, ?_⟩
  intro degree institution description
  simp [ParserClient.convertEducation, key]

/-- Witness for C28: the year 2024. -/
theorem graduation_year_round_trip_witness :
    -(2 : Int) ^ 63 ≤ 2024 ∧ (2024 : Int) < (2 : Int) ^ 63 ∧ sscanfD (sprintfD 2024) 0 = 2024 :=
  ⟨by decide, by decide, (graduation_year_round_trip 2024 (by decide) (by decide)).1⟩

/-- C29 at its failing input: for a parser response with one education entry that has a
description and with one achievement, the converter of the worker keeps both and the
converter of the synchronous handler stores an empty description and no achievement: the
two resume details differ. -/
theorem sync_converter_drops_fields :
    (ResumeWorker.convertToDataResume scenarioEnv scenarioWorld
        describedResponse).1.ResumeDetail.Achievements = ["award"]
      ∧ (UploadHandler.convertToDataResume scenarioEnv scenarioWorld
        describedResponse).1.ResumeDetail.Achievements = []
      ∧ (ResumeWorker.convertToDataResume scenarioEnv scenarioWorld
        describedResponse).1.ResumeDetail.Education.map (fun e => e.Description) = ["honours"]
      ∧ (UploadHandler.convertToDataResume scenarioEnv scenarioWorld
        describedResponse).1.ResumeDetail.Education.map (fun e => e.Description) = [""]
      ∧ (ResumeWorker.convertToDataResume scenarioEnv scenarioWorld
          describedResponse).1.ResumeDetail
        ≠ (UploadHandler.convertToDataResume scenarioEnv scenarioWorld
          describedResponse).1.ResumeDetail := by
  decide

/-- C30 at its failing input: page 2147483647 with page size 10 passes the clamping; in
int32 arithmetic (page - 1) * pageSize wraps to -20, which is below the total 0 of the user
of the scenario, and the loop indexes the resume array at -20: a panic. -/
theorem ListResumes_last_page_panics :
    (ResumeUseCase.ListResumes scenarioEnv scenarioWorld (idOf 1).Hex 2147483647 10).1
        = .panic
      ∧ wrapInt32 ((2147483647 - 1) * 10) = -20 := by
  decide

end JobFind
